import Mathlib

/-!
Video frame pacing and fan-out: a shallow embedding of the video output stream
of `libobs/media-io/video-io.c`.

* Pointers (plane data, callbacks, callback parameters, scaler handles) are
  natural numbers, `0` being `NULL`.
* The plane arrays `data[MAX_AV_PLANES]` / `linesize[MAX_AV_PLANES]` are lists;
  `MAX_AV_PLANES` comes from a header that is not part of the sources and is a
  parameter of every definition that needs it.
* The dynamic array `inputs` is a list: `da_push_back` appends at the end,
  `da_erase` removes the element at an index.
* Operations that run under `data_mutex` / `input_mutex` are atomic state
  transformers.  Calls that leave the file (the consumer callback, the scaler,
  frame allocation, the threading primitives) are recorded, in call order, in
  a list of `Event`s; the answers of the outside world are parameters.
* The `double` arithmetic of the frame-time computation is modelled exactly
  (IEEE-754 binary64, round to nearest, ties to even) on finite non-negative
  values.
-/

namespace VideoIO

/-! ## Data model -/

/-- The macro `MAX_CONVERT_BUFFERS`. -/
def MAX_CONVERT_BUFFERS : Nat := 3

/-- The struct `video_scale_info`: a conversion target (or source) spec. -/
structure video_scale_info where
  format : Nat
  width  : Nat
  height : Nat
deriving DecidableEq, Repr

/-- The struct `video_output_info`: the descriptor of an output stream. -/
structure video_output_info where
  format  : Nat
  fps_num : Nat
  fps_den : Nat
  width   : Nat
  height  : Nat
deriving DecidableEq, Repr

/-- The struct `video_data`: plane pointers, strides and a timestamp. -/
structure video_data where
  data      : List Nat
  linesize  : List Nat
  timestamp : Nat
deriving DecidableEq, Repr

/-- The struct `video_frame`: an engine-owned buffer, plane pointers and strides. -/
structure video_frame where
  data     : List Nat
  linesize : List Nat
deriving DecidableEq, Repr

/-- The struct `video_input`: one registered consumer. -/
structure video_input where
  conversion : video_scale_info
  scaler     : Nat
  frame      : List video_frame
  cur_frame  : Nat
  callback   : Nat
  param      : Nat
deriving DecidableEq, Repr

/-- The struct `video_output`, without its thread handle and synchronisation
objects (their life cycle is recorded as events). -/
structure video_output where
  info           : video_output_info
  cur_frame      : video_data
  next_frame     : video_data
  new_frame      : Bool
  frame_time     : Nat
  cur_video_time : Nat
  initialized    : Bool
  inputs         : List video_input
deriving DecidableEq, Repr

/-- The synchronisation objects owned by a `video_output`. -/
inductive Prim
  | data_mutex
  | input_mutex
  | stop_event
  | update_event
deriving DecidableEq, Repr

/-- Return codes of `video_scaler_create`, by the names the source uses (their
numeric values are declared in `video-scaler.h`); `other` stands for every
code the source does not name. -/
inductive ScalerCode
  | VIDEO_SCALER_SUCCESS
  | VIDEO_SCALER_BAD_CONVERSION
  | other
deriving DecidableEq, Repr

/-- Calls that leave `video-io.c`, in the order in which they are made. -/
inductive Event
  | bzalloc
  | bfree
  | prim_init (p : Prim) (ret : Int)
  | prim_destroy (p : Prim)
  | pthread_create (ret : Int)
  | pthread_join
  | event_signal (p : Prim)
  | da_free
  | video_scaler_create (conversion src : video_scale_info) (ret : ScalerCode) (scaler : Nat)
  | blog_warning (bad_conversion : Bool)
  | video_scaler_destroy (scaler : Nat)
  | video_frame_init (slot format width height : Nat)
  | video_frame_free (frame : video_frame)
  | video_scaler_scale (scaler : Nat) (dst : video_frame) (src_data src_linesize : List Nat)
      (success : Bool)
  | callback (callback param : Nat) (frame : video_data)
  | os_sleepto_ns (target : Nat)
deriving DecidableEq, Repr

/-- Return codes of `video_output_open`, by the names the source uses (their
numeric values are declared in `video-io.h`). -/
inductive OpenCode
  | VIDEO_OUTPUT_SUCCESS
  | VIDEO_OUTPUT_INVALIDPARAM
  | VIDEO_OUTPUT_FAIL
deriving DecidableEq, Repr

/-- A zeroed `video_data` (as left by `bzalloc`). -/
def video_data.zero (MAX_AV_PLANES : Nat) : video_data :=
  { data := List.replicate MAX_AV_PLANES 0
    linesize := List.replicate MAX_AV_PLANES 0
    timestamp := 0 }

/-- A zeroed `video_frame` (as left by `memset`). -/
def video_frame.zero (MAX_AV_PLANES : Nat) : video_frame :=
  { data := List.replicate MAX_AV_PLANES 0
    linesize := List.replicate MAX_AV_PLANES 0 }

/-! ## Binary64 arithmetic on non-negative values -/

/-- A finite non-negative `double`, as the fraction `num / den`. -/
structure Dbl where
  num : Nat
  den : Nat
deriving DecidableEq, Repr

/-- The quotient `a / b` rounded to the nearest natural number, ties to even. -/
def rne (a b : Nat) : Nat :=
  if 2 * (a % b) < b then a / b
  else if b < 2 * (a % b) then a / b + 1
  else if (a / b) % 2 = 0 then a / b
  else a / b + 1

/-- Least `s` (counting up from the given one, at most `fuel` steps) with
`b * 2^52 ≤ a * 2^s`: the binary scaling that brings `a / b` up to a 53-bit
significand.  The search in `Dbl.round` stops at `s = 1074`, the quantum of the
subnormal numbers. -/
def scaleUp (a b : Nat) : Nat → Nat → Nat
  | 0, s => s
  | fuel + 1, s => if b * 2 ^ 52 ≤ a * 2 ^ s then s else scaleUp a b fuel (s + 1)

/-- Least `e` (counting up from the given one, at most `fuel` steps) with
`a < b * 2^(53+e)`: the binary scaling that brings `a / b` down to a 53-bit
significand. -/
def scaleDown (a b : Nat) : Nat → Nat → Nat
  | 0, e => e
  | fuel + 1, e => if a < b * 2 ^ (53 + e) then e else scaleDown a b fuel (e + 1)

/-- The exact quotient `a / b` rounded to binary64 (round to nearest, ties to
even).  Finite range only: the result is meaningful for `b ≠ 0` and
`a / b < 2^1024`. -/
def Dbl.round (a b : Nat) : Dbl :=
  if a < b * 2 ^ 52 then
    let s := scaleUp a b 1074 0
    { num := rne (a * 2 ^ s) b, den := 2 ^ s }
  else
    let e := scaleDown a b 971 0
    { num := rne a (b * 2 ^ e) * 2 ^ e, den := 1 }

/-- The conversion `(double)x` of an unsigned integer. -/
def Dbl.ofNat (x : Nat) : Dbl := Dbl.round x 1

/-- The `double` product. -/
def Dbl.mul (x y : Dbl) : Dbl := Dbl.round (x.num * y.num) (x.den * y.den)

/-- The `double` quotient. -/
def Dbl.div (x y : Dbl) : Dbl := Dbl.round (x.num * y.den) (x.den * y.num)

/-- The conversion `(uint64_t)x`: truncation toward zero. -/
def Dbl.toUInt64 (x : Dbl) : Nat := (x.num / x.den) % 2 ^ 64

/-- The expression
`(uint64_t)(1000000000.0 * (double)info->fps_den / (double)info->fps_num)`. -/
def frame_time_of (info : video_output_info) : Nat :=
  Dbl.toUInt64
    (Dbl.div (Dbl.mul (Dbl.ofNat 1000000000) (Dbl.ofNat info.fps_den)) (Dbl.ofNat info.fps_num))

/-! ## Answers of the outside world -/

/-- The answer of `video_scaler_scale (scaler, dst_data, dst_linesize, src_data,
src_linesize)` during one dispatch. -/
abbrev ScaleOracle := Nat → List Nat → List Nat → List Nat → List Nat → Bool

/-- What `video_scaler_create` and `video_frame_init` answer during one
`video_output_connect`: the return code and the scaler handle written through
the out-parameter, and the buffer placed in `frame[slot]`. -/
structure ConnectEnv where
  video_scaler_create : video_scale_info → video_scale_info → ScalerCode × Nat
  video_frame_init    : Nat → Nat → Nat → Nat → video_frame

/-- Return values of the five initialisation calls of `video_output_open`
(`0` is success). -/
structure OpenEnv where
  data_mutex_init   : Int
  input_mutex_init  : Int
  stop_event_init   : Int
  update_event_init : Int
  pthread_create    : Int
deriving DecidableEq, Repr

/-! ## The pacing loop's frame operations -/

/-- The function `video_swapframes`. -/
def video_swapframes (video : video_output) : video_output :=
  if video.new_frame then
    { video with cur_frame := video.next_frame, new_frame := false }
  else video

/-- What `scale_video_output` returns and leaves behind in `*input` and `*data`. -/
structure ScaleResult where
  success : Bool
  input   : video_input
  data    : video_data
  events  : List Event

/-- The loop `for (i = 0; i < MAX_AV_PLANES; i++) dst[i] = src[i]`. -/
def copy_planes (MAX_AV_PLANES : Nat) (dst src : List Nat) : List Nat :=
  src.take MAX_AV_PLANES ++ dst.drop MAX_AV_PLANES

/-- The value of `input->cur_frame` after
`if (++input->cur_frame == MAX_CONVERT_BUFFERS) input->cur_frame = 0;`. -/
def next_slot (input : video_input) : Nat :=
  if input.cur_frame + 1 = MAX_CONVERT_BUFFERS then 0 else input.cur_frame + 1

/-- The pool buffer `input->frame[input->cur_frame]` after the index has been
advanced: the destination of the conversion. -/
def next_buffer (input : video_input) : video_frame :=
  input.frame.getD (next_slot input) { data := [], linesize := [] }

/-- The function `scale_video_output`.  `data` is the caller's frame, which the
function overwrites in place when the conversion succeeds. -/
def scale_video_output (MAX_AV_PLANES : Nat) (scale : ScaleOracle)
    (input : video_input) (data : video_data) : ScaleResult :=
  if input.scaler ≠ 0 then
    let frame := next_buffer input
    let success := scale input.scaler frame.data frame.linesize data.data data.linesize
    { success := success
      input := { input with cur_frame := next_slot input }
      data :=
        if success then
          { data with
            data := copy_planes MAX_AV_PLANES data.data frame.data
            linesize := copy_planes MAX_AV_PLANES data.linesize frame.linesize }
        else data
      events := [Event.video_scaler_scale input.scaler frame data.data data.linesize success] }
  else
    { success := true, input := input, data := data, events := [] }

/-- State of the loop of `video_output_cur_frame`: the inputs visited so far,
the (shared) current frame and the calls made. -/
structure DispatchResult where
  inputs : List video_input
  cur    : video_data
  events : List Event

/-- The loop `for (i = 0; i < video->inputs.num; i++)` of
`video_output_cur_frame`, over the inputs still to visit; every iteration is
handed `&video->cur_frame`. -/
def dispatch_loop (MAX_AV_PLANES : Nat) (scale : ScaleOracle) :
    List video_input → video_data → DispatchResult
  | [], cur => { inputs := [], cur := cur, events := [] }
  | input :: rest, cur =>
    let r := scale_video_output MAX_AV_PLANES scale input cur
    let here :=
      if r.success then r.events ++ [Event.callback r.input.callback r.input.param r.data]
      else r.events
    let tl := dispatch_loop MAX_AV_PLANES scale rest r.data
    { inputs := r.input :: tl.inputs, cur := tl.cur, events := here ++ tl.events }

/-- The function `video_output_cur_frame`. -/
def video_output_cur_frame (MAX_AV_PLANES : Nat) (scale : ScaleOracle)
    (video : video_output) : video_output × List Event :=
  if video.cur_frame.data.getD 0 0 = 0 then (video, [])
  else
    let r := dispatch_loop MAX_AV_PLANES scale video.inputs video.cur_frame
    ({ video with inputs := r.inputs, cur_frame := r.cur }, r.events)

/-- The locked section of one cycle of `video_thread`: `video_swapframes`
followed by `video_output_cur_frame`. -/
def video_tick (MAX_AV_PLANES : Nat) (scale : ScaleOracle)
    (video : video_output) : video_output × List Event :=
  video_output_cur_frame MAX_AV_PLANES scale (video_swapframes video)

/-- The function `video_output_swap_frame` (submit). -/
def video_output_swap_frame (video : video_output) (frame : video_data) : video_output :=
  { video with next_frame := frame, new_frame := true }

/-! ## Consumer registration -/

/-- The function `video_get_input_idx` on the array contents; `none` is
`DARRAY_INVALID`. -/
def input_idx (callback param : Nat) : List video_input → Option Nat
  | [] => none
  | input :: rest =>
    if input.callback = callback ∧ input.param = param then some 0
    else (input_idx callback param rest).map (· + 1)

/-- The function `video_get_input_idx`. -/
def video_get_input_idx (video : video_output) (callback param : Nat) : Option Nat :=
  input_idx callback param video.inputs

/-- The function `video_input_free`: the calls it makes. -/
def video_input_free (input : video_input) : List Event :=
  (List.range MAX_CONVERT_BUFFERS).map
      (fun i => Event.video_frame_free (input.frame.getD i { data := [], linesize := [] }))
    ++ [Event.video_scaler_destroy input.scaler]

/-- What `video_input_init` returns and leaves behind in `*input`. -/
structure InitResult where
  success : Bool
  input   : video_input
  events  : List Event

/-- The function `video_input_init`. -/
def video_input_init (env : ConnectEnv) (input : video_input) (video : video_output) :
    InitResult :=
  if input.conversion.width ≠ video.info.width ∨
      input.conversion.height ≠ video.info.height ∨
      input.conversion.format ≠ video.info.format then
    let src : video_scale_info :=
      { format := video.info.format, width := video.info.width, height := video.info.height }
    let ret := env.video_scaler_create input.conversion src
    let created := Event.video_scaler_create input.conversion src ret.1 ret.2
    let input1 := { input with scaler := ret.2 }
    if ret.1 ≠ ScalerCode.VIDEO_SCALER_SUCCESS then
      { success := false
        input := input1
        events := [created,
          Event.blog_warning (decide (ret.1 = ScalerCode.VIDEO_SCALER_BAD_CONVERSION))] }
    else
      { success := true
        input :=
          { input1 with
            frame := (List.range MAX_CONVERT_BUFFERS).map (fun i =>
              env.video_frame_init i input.conversion.format input.conversion.width
                input.conversion.height) }
        events := created :: (List.range MAX_CONVERT_BUFFERS).map (fun i =>
          Event.video_frame_init i input.conversion.format input.conversion.width
            input.conversion.height) }
  else
    { success := true, input := input, events := [] }

/-- What `video_output_connect` returns and leaves behind in `*video`. -/
structure ConnectResult where
  success : Bool
  video   : video_output
  events  : List Event

/-- The local `struct video_input input` of `video_output_connect` as it stands
when `video_input_init` is called: zeroed by `memset`, identity set, target
spec copied from `*conversion` (or from the stream when the pointer is `NULL`,
here `none`), then zero width and zero height replaced. -/
def connect_input (MAX_AV_PLANES : Nat) (video : video_output)
    (conversion : Option video_scale_info) (callback param : Nat) : video_input :=
  let input0 : video_input :=
    { conversion := { format := 0, width := 0, height := 0 }
      scaler := 0
      frame := List.replicate MAX_CONVERT_BUFFERS (video_frame.zero MAX_AV_PLANES)
      cur_frame := 0
      callback := callback
      param := param }
  let input1 : video_input :=
    match conversion with
    | some c => { input0 with conversion := c }
    | none =>
      { input0 with
        conversion :=
          { format := video.info.format
            width := video.info.width
            height := video.info.height } }
  let input2 : video_input :=
    if input1.conversion.width = 0 then
      { input1 with conversion := { input1.conversion with width := video.info.width } }
    else input1
  if input2.conversion.height = 0 then
    { input2 with conversion := { input2.conversion with height := video.info.height } }
  else input2

/-- The function `video_output_connect`; `conversion = none` is a `NULL`
conversion pointer. -/
def video_output_connect (MAX_AV_PLANES : Nat) (env : ConnectEnv) (video : video_output)
    (conversion : Option video_scale_info) (callback param : Nat) : ConnectResult :=
  if video_get_input_idx video callback param = none then
    let r := video_input_init env
      (connect_input MAX_AV_PLANES video conversion callback param) video
    if r.success then
      { success := true
        video := { video with inputs := video.inputs ++ [r.input] }
        events := r.events }
    else
      { success := false, video := video, events := r.events }
  else
    { success := false, video := video, events := [] }

/-- The function `video_output_disconnect`. -/
def video_output_disconnect (video : video_output) (callback param : Nat) :
    video_output × List Event :=
  match video_get_input_idx video callback param with
  | some idx =>
    ({ video with inputs := video.inputs.eraseIdx idx },
      match video.inputs[idx]? with
      | some input => video_input_free input
      | none => [])
  | none => (video, [])

/-! ## Life cycle -/

/-- The function `valid_video_params`. -/
def valid_video_params (info : video_output_info) : Bool :=
  info.height != 0 && info.width != 0 && info.fps_den != 0 && info.fps_num != 0

/-- The function `video_output_stop`: the calls it makes; `none` is a `NULL`
handle. -/
def video_output_stop (video : Option video_output) : List Event :=
  match video with
  | none => []
  | some v =>
    if v.initialized then
      [Event.event_signal Prim.stop_event, Event.pthread_join,
        Event.event_signal Prim.update_event]
    else []

/-- The function `video_output_close`: the calls it makes; `none` is a `NULL`
handle. -/
def video_output_close (video : Option video_output) : List Event :=
  match video with
  | none => []
  | some v =>
    video_output_stop (some v)
      ++ (v.inputs.map video_input_free).flatten
      ++ [Event.da_free,
          Event.prim_destroy Prim.update_event,
          Event.prim_destroy Prim.stop_event,
          Event.prim_destroy Prim.data_mutex,
          Event.prim_destroy Prim.input_mutex,
          Event.bfree]

/-- What `video_output_open` returns: its return code, the handle written to
the out-parameter `*video` (`none`: not written) and the calls made. -/
structure OpenResult where
  code   : OpenCode
  handle : Option video_output
  events : List Event
deriving DecidableEq, Repr

/-- The function `video_output_open`. -/
def video_output_open (MAX_AV_PLANES : Nat) (env : OpenEnv) (info : video_output_info) :
    OpenResult :=
  if !valid_video_params info then
    { code := OpenCode.VIDEO_OUTPUT_INVALIDPARAM, handle := none, events := [] }
  else
    let out : video_output :=
      { info := info
        cur_frame := video_data.zero MAX_AV_PLANES
        next_frame := video_data.zero MAX_AV_PLANES
        new_frame := false
        frame_time := frame_time_of info
        cur_video_time := 0
        initialized := false
        inputs := [] }
    let fail (done : List Event) : OpenResult :=
      { code := OpenCode.VIDEO_OUTPUT_FAIL
        handle := none
        events := Event.bzalloc :: done ++ video_output_close (some out) }
    let e1 := Event.prim_init Prim.data_mutex env.data_mutex_init
    let e2 := Event.prim_init Prim.input_mutex env.input_mutex_init
    let e3 := Event.prim_init Prim.stop_event env.stop_event_init
    let e4 := Event.prim_init Prim.update_event env.update_event_init
    let e5 := Event.pthread_create env.pthread_create
    if env.data_mutex_init ≠ 0 then fail [e1]
    else if env.input_mutex_init ≠ 0 then fail [e1, e2]
    else if env.stop_event_init ≠ 0 then fail [e1, e2, e3]
    else if env.update_event_init ≠ 0 then fail [e1, e2, e3, e4]
    else if env.pthread_create ≠ 0 then fail [e1, e2, e3, e4, e5]
    else
      { code := OpenCode.VIDEO_OUTPUT_SUCCESS
        handle := some { out with initialized := true }
        events := [Event.bzalloc, e1, e2, e3, e4, e5] }

/-- The function `video_output_getinfo`. -/
def video_output_getinfo (video : video_output) : video_output_info := video.info

/-- The function `video_getframetime`. -/
def video_getframetime (video : video_output) : Nat := video.frame_time

/-- One operation on an open stream, with the answers of the outside world it
meets. -/
inductive Op
  | connect (env : ConnectEnv) (conversion : Option video_scale_info) (callback param : Nat)
  | disconnect (callback param : Nat)
  | submit (frame : video_data)
  | tick (scale : ScaleOracle)

/-- Whether the operation is a submit (`video_output_swap_frame`). -/
def Op.isSubmit : Op → Bool
  | Op.submit _ => true
  | _ => false

/-- The effect of one operation: the new state and the calls made. -/
def step (MAX_AV_PLANES : Nat) (video : video_output) : Op → video_output × List Event
  | Op.connect env conversion callback param =>
    let r := video_output_connect MAX_AV_PLANES env video conversion callback param
    (r.video, r.events)
  | Op.disconnect callback param => video_output_disconnect video callback param
  | Op.submit frame => (video_output_swap_frame video frame, [])
  | Op.tick scale => video_tick MAX_AV_PLANES scale video

/-- The effect of a sequence of operations, first to last. -/
def run (MAX_AV_PLANES : Nat) : video_output → List Op → video_output × List Event
  | video, [] => (video, [])
  | video, op :: ops =>
    let r := step MAX_AV_PLANES video op
    let rs := run MAX_AV_PLANES r.1 ops
    (rs.1, r.2 ++ rs.2)

/-- Whether the event is a consumer callback. -/
def Event.isCallback : Event → Bool
  | Event.callback _ _ _ => true
  | _ => false

/-- Whether the event is a conversion (`video_scaler_scale`). -/
def Event.isScale : Event → Bool
  | Event.video_scaler_scale _ _ _ _ _ => true
  | _ => false

/-- Whether the event is a callback of the consumer `(callback, param)`. -/
def Event.isCallbackOf (callback param : Nat) : Event → Bool
  | Event.callback c p _ => decide (c = callback ∧ p = param)
  | _ => false

/-! ## A sample stream -/

/-- A 640x480 descriptor at 30/1, format 1. -/
def sample_info : video_output_info :=
  { format := 1, fps_num := 30, fps_den := 1, width := 640, height := 480 }

/-- The stream `video_output_open` hands back for `sample_info` with eight
planes per frame. -/
def sample_stream : video_output :=
  { info := sample_info
    cur_frame := video_data.zero 8
    next_frame := video_data.zero 8
    new_frame := false
    frame_time := 33333333
    cur_video_time := 0
    initialized := true
    inputs := [] }

/-- An outside world in which every scaler creation succeeds (the handle is
`7000 + width`) and buffer `slot` of a `width`-wide pool has its first plane at
`1000 * width + 100 * slot + 1` with stride `width`. -/
def sample_env : ConnectEnv :=
  { video_scaler_create := fun conversion _ =>
      (ScalerCode.VIDEO_SCALER_SUCCESS, 7000 + conversion.width)
    video_frame_init := fun slot _ width _ =>
      { data := [1000 * width + 100 * slot + 1, 0, 0, 0, 0, 0, 0, 0]
        linesize := [width, 0, 0, 0, 0, 0, 0, 0] } }

/-- A scaler that always succeeds. -/
def scale_ok : ScaleOracle := fun _ _ _ _ _ => true

/-- A submitted frame: one plane at address 500, stride 640, timestamp 42. -/
def sample_frame : video_data :=
  { data := [500, 0, 0, 0, 0, 0, 0, 0]
    linesize := [640, 0, 0, 0, 0, 0, 0, 0]
    timestamp := 42 }

/-- A scaler that fails for the handle 7320 and succeeds for every other. -/
def scale_fail_320 : ScaleOracle := fun scaler _ _ _ _ => scaler != 7320

/-- The record of a consumer `(20, 21)` connected to the sample stream with no
target spec: no scaler, zeroed pool. -/
def sample_native : video_input :=
  { conversion := { format := 1, width := 640, height := 480 }
    scaler := 0
    frame := List.replicate 3 (video_frame.zero 8)
    cur_frame := 0
    callback := 20
    param := 21 }

/-- The record of a consumer `(10, 11)` connected to the sample stream in
`sample_env` with target 320x240. -/
def sample_half : video_input :=
  { conversion := { format := 1, width := 320, height := 240 }
    scaler := 7320
    frame :=
      [{ data := [320001, 0, 0, 0, 0, 0, 0, 0], linesize := [320, 0, 0, 0, 0, 0, 0, 0] },
        { data := [320101, 0, 0, 0, 0, 0, 0, 0], linesize := [320, 0, 0, 0, 0, 0, 0, 0] },
        { data := [320201, 0, 0, 0, 0, 0, 0, 0], linesize := [320, 0, 0, 0, 0, 0, 0, 0] }]
    cur_frame := 0
    callback := 10
    param := 11 }

/-- The record of a consumer `(30, 31)` connected to the sample stream in
`sample_env` with target 160x120. -/
def sample_quarter : video_input :=
  { conversion := { format := 1, width := 160, height := 120 }
    scaler := 7160
    frame :=
      [{ data := [160001, 0, 0, 0, 0, 0, 0, 0], linesize := [160, 0, 0, 0, 0, 0, 0, 0] },
        { data := [160101, 0, 0, 0, 0, 0, 0, 0], linesize := [160, 0, 0, 0, 0, 0, 0, 0] },
        { data := [160201, 0, 0, 0, 0, 0, 0, 0], linesize := [160, 0, 0, 0, 0, 0, 0, 0] }]
    cur_frame := 0
    callback := 30
    param := 31 }

/-- The sample stream with the three sample consumers registered and
`sample_frame` submitted and swapped in: the state at the start of a dispatch. -/
def sample_staged : video_output :=
  { info := sample_info
    cur_frame := sample_frame
    next_frame := sample_frame
    new_frame := false
    frame_time := 33333333
    cur_video_time := 0
    initialized := true
    inputs := [sample_native, sample_half, sample_quarter] }

/-! ## The pacing thread -/

/-- Program points of `video_thread` at which other threads may act: before
the loop test `event_try(&video->stop_event) == EAGAIN`, before the first
half-frame sleep, before the second half-frame sleep (which the locked swap
and output follow), and after `return NULL`. -/
inductive ThreadPC
  | loop_test
  | first_half
  | second_half
  | returned
deriving DecidableEq, Repr

/-- A stream together with its pacing thread: the `video_output`, whether the
manual-reset `stop_event` is signalled, the program point of `video_thread`
and its local `uint64_t cur_time`. -/
structure pacing_state where
  video      : video_output
  stop_event : Bool
  pc         : ThreadPC
  cur_time   : Nat
deriving DecidableEq, Repr

/-- The state in which `video_thread` starts: `cur_time = os_gettime_ns()`
(here `now`), about to evaluate the loop test. -/
def video_thread_start (video : video_output) (now : Nat) : pacing_state :=
  { video := video, stop_event := false, pc := ThreadPC.loop_test, cur_time := now }

/-- The expression `cur_time += (video->frame_time/2)` on `uint64_t`. -/
def next_deadline (s : pacing_state) : Nat :=
  (s.cur_time + s.video.frame_time / 2) % 2 ^ 64

/-- The function `video_thread`, from one program point to the next. -/
def video_thread_step (MAX_AV_PLANES : Nat) (scale : ScaleOracle) (s : pacing_state) :
    pacing_state × List Event :=
  match s.pc with
  | ThreadPC.loop_test =>
    if s.stop_event then ({ s with pc := ThreadPC.returned }, [])
    else ({ s with pc := ThreadPC.first_half }, [])
  | ThreadPC.first_half =>
    ({ s with
        cur_time := next_deadline s
        video := { s.video with cur_video_time := next_deadline s }
        pc := ThreadPC.second_half },
      [Event.os_sleepto_ns (next_deadline s), Event.event_signal Prim.update_event])
  | ThreadPC.second_half =>
    let r := video_tick MAX_AV_PLANES scale s.video
    ({ s with cur_time := next_deadline s, video := r.1, pc := ThreadPC.loop_test },
      Event.os_sleepto_ns (next_deadline s) :: r.2)
  | ThreadPC.returned => (s, [])

/-- One move of the system: the pacing thread runs to its next program point,
or another thread signals the stop event (the first call of
`video_output_stop`), connects, disconnects or submits. -/
inductive Act
  | thread (scale : ScaleOracle)
  | stop
  | connect (env : ConnectEnv) (conversion : Option video_scale_info) (callback param : Nat)
  | disconnect (callback param : Nat)
  | submit (frame : video_data)

/-- Whether the move is the signalling of the stop event. -/
def Act.isStop : Act → Bool
  | Act.stop => true
  | _ => false

/-- Whether the move is a move of the pacing thread. -/
def Act.isThread : Act → Bool
  | Act.thread _ => true
  | _ => false

/-- The effect of one move. -/
def pacing_step (MAX_AV_PLANES : Nat) (s : pacing_state) : Act → pacing_state × List Event
  | Act.thread scale => video_thread_step MAX_AV_PLANES scale s
  | Act.stop => ({ s with stop_event := true }, [Event.event_signal Prim.stop_event])
  | Act.connect env conversion callback param =>
    let r := video_output_connect MAX_AV_PLANES env s.video conversion callback param
    ({ s with video := r.video }, r.events)
  | Act.disconnect callback param =>
    let r := video_output_disconnect s.video callback param
    ({ s with video := r.1 }, r.2)
  | Act.submit frame => ({ s with video := video_output_swap_frame s.video frame }, [])

/-- The effect of a sequence of moves, first to last. -/
def pacing_run (MAX_AV_PLANES : Nat) : pacing_state → List Act → pacing_state × List Event
  | s, [] => (s, [])
  | s, a :: acts =>
    let r := pacing_step MAX_AV_PLANES s a
    let rs := pacing_run MAX_AV_PLANES r.1 acts
    (rs.1, r.2 ++ rs.2)

/-- How many times the locked section of `video_thread` (`video_swapframes`
and `video_output_cur_frame`) is executed during a sequence of moves. -/
def swap_count (MAX_AV_PLANES : Nat) : pacing_state → List Act → Nat
  | _, [] => 0
  | s, a :: acts =>
    (if a.isThread && decide (s.pc = ThreadPC.second_half) then 1 else 0)
      + swap_count MAX_AV_PLANES (pacing_step MAX_AV_PLANES s a).1 acts

/-- The order in which consumers are called back: the `(callback, param)`
pairs of the callback events of a trace. -/
def callback_order : List Event → List (Nat × Nat)
  | [] => []
  | Event.callback c p _ :: rest => (c, p) :: callback_order rest
  | _ :: rest => callback_order rest

/-- Whether the operation is a disconnect of the consumer `(callback, param)`. -/
def Op.isDisconnectOf (callback param : Nat) : Op → Bool
  | Op.disconnect c p => decide (c = callback ∧ p = param)
  | _ => false

/-- A 1x1 descriptor at 30/1, format 1. -/
def tiny_info : video_output_info :=
  { format := 1, fps_num := 30, fps_den := 1, width := 1, height := 1 }

/-- The stream `video_output_open` hands back for `tiny_info` with eight planes
per frame. -/
def tiny_stream : video_output :=
  { info := tiny_info
    cur_frame := video_data.zero 8
    next_frame := video_data.zero 8
    new_frame := false
    frame_time := 33333333
    cur_video_time := 0
    initialized := true
    inputs := [] }

/-- Whether the event releases a converter (`video_scaler_destroy`). -/
def Event.isScalerDestroy : Event → Bool
  | Event.video_scaler_destroy _ => true
  | _ => false

/-- Whether the event releases a pool buffer (`video_frame_free`). -/
def Event.isFrameFree : Event → Bool
  | Event.video_frame_free _ => true
  | _ => false

/-- The consumer `(callback, param)` is registered with the converter `scaler`
and the pool `frames`, its pool index within the pool. -/
def pooled (callback param scaler : Nat) (frames : List video_frame)
    (video : video_output) : Prop :=
  ∃ c ∈ video.inputs, c.callback = callback ∧ c.param = param ∧ c.scaler = scaler ∧
    c.frame = frames ∧ c.cur_frame < MAX_CONVERT_BUFFERS

/-- How many moves `video_thread` still makes before it returns once the stop
event is signalled. -/
def steps_to_return : ThreadPC → Nat
  | ThreadPC.returned => 0
  | ThreadPC.loop_test => 1
  | ThreadPC.second_half => 2
  | ThreadPC.first_half => 3

/-- The pacing thread started on `sample_staged` at time 0, after the loop test
and the first half-frame sleep, with the stop event signalled at that point:
the state between the two half-frame sleeps of the first cycle. -/
def sample_stopped_mid_cycle : pacing_state :=
  { video := { sample_staged with cur_video_time := 16666666 }
    stop_event := true
    pc := ThreadPC.second_half
    cur_time := 16666666 }

/-- The targets of the `os_sleepto_ns` calls of a trace, in call order. -/
def sleep_targets : List Event → List Nat
  | [] => []
  | Event.os_sleepto_ns t :: rest => t :: sleep_targets rest
  | _ :: rest => sleep_targets rest

/-- A submitted frame whose first plane pointer is null while its second plane
is not. -/
def sample_frame_no_plane0 : video_data :=
  { data := [0, 700, 0, 0, 0, 0, 0, 0]
    linesize := [640, 320, 0, 0, 0, 0, 0, 0]
    timestamp := 43 }

/-- Whether the event is a call that `video_thread` itself makes: a sleep
(`os_sleepto_ns`) or the signalling of an event (`event_signal`). -/
def Event.isPacing : Event → Bool
  | Event.os_sleepto_ns _ => true
  | Event.event_signal _ => true
  | _ => false

/-- How many times the tick event (`update_event`) is signalled in a trace. -/
def tick_signals (trace : List Event) : Nat :=
  trace.count (Event.event_signal Prim.update_event)

/-- The bookkeeping of `video_thread` after `sleeps` half-frame sleeps and
`ticks` tick signals since it started at time `start` on a stream with frame
time `ft` and tick time `t0`: `cur_time` is `start` plus `sleeps` half
intervals on `uint64_t`, the thread stands between the two sleeps of a cycle
exactly when the number of sleeps is odd, and `cur_video_time` is `t0` before
the first tick signal and the deadline of the sleep before the last one
afterwards. -/
def deadline_inv (start ft t0 : Nat) (s : pacing_state) (sleeps ticks : Nat) : Prop :=
  s.video.frame_time = ft ∧
  s.cur_time = (start + sleeps * (ft / 2)) % 2 ^ 64 ∧
  (s.pc = ThreadPC.second_half → sleeps + 1 = 2 * ticks) ∧
  (s.pc ≠ ThreadPC.second_half → sleeps = 2 * ticks) ∧
  s.video.cur_video_time =
    if ticks = 0 then t0 else (start + (2 * ticks - 1) * (ft / 2)) % 2 ^ 64

/-- The conversions and consumer callbacks of a trace (the calls a dispatch
makes), in call order. -/
def dispatch_events (trace : List Event) : List Event :=
  trace.filter (fun e => e.isCallback || e.isScale)

/-- A sequence of moves with the moves of the pacing thread left out. -/
def without_thread (acts : List Act) : List Act :=
  acts.filter (fun a => !a.isThread)

/-! ## Binary64: scaling and truncation lemmas -/

theorem rne_one (y : Nat) : rne y 1 = y := by
  simp [rne, Nat.mod_one]

theorem rne_scale (a b k : Nat) (hk : 0 < k) : rne (a * k) (b * k) = rne a b := by
  unfold rne
  rw [Nat.mul_div_mul_right a b hk, Nat.mul_mod_mul_right]
  have h1 : (2 * (a % b * k) < b * k) ↔ (2 * (a % b) < b) := by
    rw [← Nat.mul_assoc]; exact Nat.mul_lt_mul_right hk
  have h2 : (b * k < 2 * (a % b * k)) ↔ (b < 2 * (a % b)) := by
    rw [← Nat.mul_assoc]; exact Nat.mul_lt_mul_right hk
  simp only [h1, h2]

theorem scaleUp_scale (a b k : Nat) (hk : 0 < k) (fuel s : Nat) :
    scaleUp (a * k) (b * k) fuel s = scaleUp a b fuel s := by
  induction fuel generalizing s with
  | zero => rfl
  | succ f ih =>
    have h : (b * k * 2 ^ 52 ≤ a * k * 2 ^ s) ↔ (b * 2 ^ 52 ≤ a * 2 ^ s) := by
      rw [Nat.mul_right_comm b k, Nat.mul_right_comm a k]
      exact ⟨fun h => Nat.le_of_mul_le_mul_right h hk, fun h => Nat.mul_le_mul_right k h⟩
    simp only [scaleUp, h, ih]

theorem scaleDown_scale (a b k : Nat) (hk : 0 < k) (fuel e : Nat) :
    scaleDown (a * k) (b * k) fuel e = scaleDown a b fuel e := by
  induction fuel generalizing e with
  | zero => rfl
  | succ f ih =>
    have h : (a * k < b * k * 2 ^ (53 + e)) ↔ (a < b * 2 ^ (53 + e)) := by
      rw [Nat.mul_right_comm b k]
      exact Nat.mul_lt_mul_right hk
    simp only [scaleDown, h, ih]

theorem round_scale (a b k : Nat) (hk : 0 < k) :
    Dbl.round (a * k) (b * k) = Dbl.round a b := by
  unfold Dbl.round
  have h : (a * k < b * k * 2 ^ 52) ↔ (a < b * 2 ^ 52) := by
    rw [Nat.mul_right_comm b k]
    exact Nat.mul_lt_mul_right hk
  simp only [h, scaleUp_scale a b k hk, scaleDown_scale a b k hk]
  have e1 : ∀ s, rne (a * k * 2 ^ s) (b * k) = rne (a * 2 ^ s) b := by
    intro s
    rw [Nat.mul_right_comm a k]; exact rne_scale _ _ _ hk
  have e2 : ∀ e, rne (a * k) (b * k * 2 ^ e) = rne a (b * 2 ^ e) := by
    intro e
    rw [Nat.mul_right_comm b k]; exact rne_scale _ _ _ hk
  simp only [e1, e2]

theorem scaleUp_found (a b : Nat) (fuel s : Nat) :
    b * 2 ^ 52 ≤ a * 2 ^ (scaleUp a b fuel s) ∨ scaleUp a b fuel s = s + fuel := by
  induction fuel generalizing s with
  | zero => right; rfl
  | succ f ih =>
    unfold scaleUp
    split
    · left; assumption
    · rcases ih (s + 1) with h | h
      · left; exact h
      · right; rw [h]; omega

theorem rne_div_pow (a n P : Nat) (hn : 0 < n) (hP : 0 < P)
    (hcond : n * 2 ^ 52 ≤ a * P) (ha : a < 2 ^ 53) : rne (a * P) n / P = a / n := by
  have hdown : a * P / n / P = a / n := by
    rw [Nat.div_div_eq_div_mul, Nat.mul_div_mul_right a n hP]
  have hup : n ≤ 2 * (a * P % n) → (a * P / n + 1) / P = a / n := by
    intro hr
    have hlow : a / n * P ≤ a * P / n := by
      have := Nat.div_mul_le_self (a * P / n) P
      rw [hdown] at this; exact this
    have hlt : a * P / n < (a / n + 1) * P := by
      have : a * P / n / P < a / n + 1 := by rw [hdown]; omega
      exact (Nat.div_lt_iff_lt_mul hP).1 this
    have hA := Nat.div_add_mod (a * P) n
    have ha0 := Nat.div_add_mod a n
    have hr0 : a % n < n := Nat.mod_lt _ hn
    have hρ : a * P % n < n := Nat.mod_lt _ hn
    apply Nat.div_eq_of_lt_le
    · omega
    · by_contra hcon
      have hQ : a * P / n + 1 = (a / n + 1) * P := by omega
      have h1 : a * P + n = n * ((a / n + 1) * P) + a * P % n := by
        rw [← hQ]; nlinarith
      have h2 : a * P = (n * (a / n)) * P + (a % n) * P := by
        rw [← Nat.add_mul, ha0]
      have h3 : (a % n) * P + P ≤ n * P := by
        have : (a % n + 1) * P ≤ n * P := Nat.mul_le_mul_right P hr0
        nlinarith
      have h4 : a * P % n + P ≤ n := by nlinarith
      have h5 : 2 * P ≤ n := by omega
      have h6 : 2 * P * 2 ^ 52 ≤ a * P := le_trans (Nat.mul_le_mul_right _ h5) hcond
      have h7 : 2 ^ 53 * P ≤ a * P := by
        have : (2 : Nat) ^ 53 * P = 2 * P * 2 ^ 52 := by ring
        omega
      have := Nat.le_of_mul_le_mul_right h7 hP
      omega
  unfold rne
  split
  · exact hdown
  · split
    · apply hup; omega
    · split
      · exact hdown
      · apply hup; omega

theorem round_trunc (a n : Nat) (hn : 0 < n) (hn32 : n < 2 ^ 32) (ha0 : 0 < a)
    (ha : a < 2 ^ 53) : (Dbl.round a n).num / (Dbl.round a n).den = a / n := by
  unfold Dbl.round
  split
  · simp only
    apply rne_div_pow a n _ hn (Nat.two_pow_pos _) _ ha
    have key : ∀ s, (n * 2 ^ 52 ≤ a * 2 ^ s ∨ 84 ≤ s) → n * 2 ^ 52 ≤ a * 2 ^ s := by
      intro s hs
      rcases hs with h | h
      · exact h
      · have h1 : n * 2 ^ 52 ≤ 2 ^ 32 * 2 ^ 52 := Nat.mul_le_mul_right _ (le_of_lt hn32)
        have h84 : (2 : Nat) ^ 32 * 2 ^ 52 = 2 ^ 84 := by norm_num
        have h2 : (2 : Nat) ^ 84 ≤ 2 ^ s := Nat.pow_le_pow_right (by decide) h
        have h3 : 1 * 2 ^ s ≤ a * 2 ^ s := Nat.mul_le_mul_right _ ha0
        omega
    apply key
    rcases scaleUp_found a n 1074 0 with h | h
    · left; exact h
    · right; omega
  · rename_i hge
    have hn1 : n = 1 := by
      by_contra hne
      have : 2 ≤ n := by omega
      have : 2 * 2 ^ 52 ≤ n * 2 ^ 52 := Nat.mul_le_mul_right _ this
      have h53 : (2 : Nat) ^ 53 = 2 * 2 ^ 52 := by norm_num
      omega
    subst hn1
    have he : scaleDown a 1 971 0 = 0 := by
      have hlt : a < 1 * 2 ^ (53 + 0) := by simpa using ha
      rw [show (971 : Nat) = 970 + 1 from rfl, scaleDown, if_pos hlt]
    simp [he, rne_one]

theorem ofNat_exact (x : Nat) (hx : x < 2 ^ 53) :
    ∃ k, 0 < k ∧ Dbl.ofNat x = { num := x * k, den := k } := by
  unfold Dbl.ofNat Dbl.round
  split
  · exact ⟨2 ^ scaleUp x 1 1074 0, Nat.two_pow_pos _, by simp [rne_one]⟩
  · have he : scaleDown x 1 971 0 = 0 := by
      have hlt : x < 1 * 2 ^ (53 + 0) := by simpa using hx
      rw [show (971 : Nat) = 970 + 1 from rfl, scaleDown, if_pos hlt]
    exact ⟨1, by norm_num, by simp [he, rne_one]⟩

theorem frame_time_of_eq_div (info : video_output_info)
    (hn : info.fps_num ≠ 0) (hn32 : info.fps_num < 2 ^ 32) (hd : info.fps_den ≠ 0)
    (hd53 : 1000000000 * info.fps_den < 2 ^ 53) :
    frame_time_of info = 1000000000 * info.fps_den / info.fps_num := by
  have hdlt : info.fps_den < 2 ^ 53 := by omega
  have hnlt : info.fps_num < 2 ^ 53 := by
    have : (2 : Nat) ^ 32 ≤ 2 ^ 53 := Nat.pow_le_pow_right (by norm_num) (by norm_num)
    omega
  obtain ⟨k1, hk1, e1⟩ := ofNat_exact 1000000000 (by norm_num)
  obtain ⟨k2, hk2, e2⟩ := ofNat_exact info.fps_den hdlt
  obtain ⟨k4, hk4, e4⟩ := ofNat_exact info.fps_num hnlt
  obtain ⟨k3, hk3, e3⟩ := ofNat_exact (1000000000 * info.fps_den) hd53
  have hmul : Dbl.mul (Dbl.ofNat 1000000000) (Dbl.ofNat info.fps_den)
      = { num := 1000000000 * info.fps_den * k3, den := k3 } := by
    rw [e1, e2, ← e3]
    unfold Dbl.mul Dbl.ofNat
    have : 1000000000 * k1 * (info.fps_den * k2) = 1000000000 * info.fps_den * (k1 * k2) := by
      ring
    simp only [this]
    have h := round_scale (1000000000 * info.fps_den) 1 (k1 * k2) (Nat.mul_pos hk1 hk2)
    rw [Nat.one_mul] at h
    exact h
  unfold frame_time_of
  rw [hmul, e4]
  unfold Dbl.div Dbl.toUInt64
  have h1 : 1000000000 * info.fps_den * k3 * k4 = 1000000000 * info.fps_den * (k3 * k4) := by
    ring
  have h2 : k3 * (info.fps_num * k4) = info.fps_num * (k3 * k4) := by ring
  simp only [h1, h2, round_scale _ _ _ (Nat.mul_pos hk3 hk4)]
  rw [round_trunc _ _ (Nat.pos_of_ne_zero hn) hn32 (by omega) hd53]
  apply Nat.mod_eq_of_lt
  have : 1000000000 * info.fps_den / info.fps_num ≤ 1000000000 * info.fps_den :=
    Nat.div_le_self _ _
  have : (2 : Nat) ^ 53 ≤ 2 ^ 64 := Nat.pow_le_pow_right (by norm_num) (by norm_num)
  omega

/-! ## Registration and idle-stage lemmas -/


theorem input_init_events (env : ConnectEnv) (input : video_input) (video : video_output) :
    ∀ e ∈ (video_input_init env input video).events,
      e.isCallback = false ∧ e.isScale = false := by
  intro e he
  unfold video_input_init at he
  dsimp only at he
  split at he
  · split at he
    · simp only [List.mem_cons, List.mem_singleton, List.not_mem_nil, or_false] at he
      rcases he with rfl | rfl <;> simp [Event.isCallback, Event.isScale]
    · simp only [List.mem_cons, List.mem_map] at he
      rcases he with rfl | ⟨i, _, rfl⟩ <;> simp [Event.isCallback, Event.isScale]
  · simp at he

theorem connect_dup (K : Nat) (env : ConnectEnv) (video : video_output)
    (conversion : Option video_scale_info) (callback param : Nat)
    (h : video_get_input_idx video callback param ≠ none) :
    video_output_connect K env video conversion callback param =
      { success := false, video := video, events := [] } := by
  simp [video_output_connect, h]

theorem connect_new_ok (K : Nat) (env : ConnectEnv) (video : video_output)
    (conversion : Option video_scale_info) (callback param : Nat)
    (h : video_get_input_idx video callback param = none)
    (hs : (video_input_init env (connect_input K video conversion callback param)
      video).success = true) :
    video_output_connect K env video conversion callback param =
      { success := true
        video :=
          { video with
            inputs := video.inputs ++
              [(video_input_init env (connect_input K video conversion callback param)
                video).input] }
        events :=
          (video_input_init env (connect_input K video conversion callback param)
            video).events } := by
  simp [video_output_connect, h, hs]

theorem connect_new_fail (K : Nat) (env : ConnectEnv) (video : video_output)
    (conversion : Option video_scale_info) (callback param : Nat)
    (h : video_get_input_idx video callback param = none)
    (hs : (video_input_init env (connect_input K video conversion callback param)
      video).success = false) :
    video_output_connect K env video conversion callback param =
      { success := false
        video := video
        events :=
          (video_input_init env (connect_input K video conversion callback param)
            video).events } := by
  simp [video_output_connect, h, hs]

theorem connect_events (K : Nat) (env : ConnectEnv) (video : video_output)
    (conversion : Option video_scale_info) (callback param : Nat) :
    ∀ e ∈ (video_output_connect K env video conversion callback param).events,
      e.isCallback = false ∧ e.isScale = false := by
  intro e he
  by_cases h : video_get_input_idx video callback param = none
  · cases hs : (video_input_init env (connect_input K video conversion callback param)
        video).success
    · rw [connect_new_fail K env video conversion callback param h hs] at he
      exact input_init_events _ _ _ e he
    · rw [connect_new_ok K env video conversion callback param h hs] at he
      exact input_init_events _ _ _ e he
  · rw [connect_dup K env video conversion callback param h] at he
    simp at he

theorem connect_stage (K : Nat) (env : ConnectEnv) (video : video_output)
    (conversion : Option video_scale_info) (callback param : Nat) :
    (video_output_connect K env video conversion callback param).video.cur_frame
        = video.cur_frame ∧
      (video_output_connect K env video conversion callback param).video.new_frame
        = video.new_frame := by
  by_cases h : video_get_input_idx video callback param = none
  · cases hs : (video_input_init env (connect_input K video conversion callback param)
        video).success
    · rw [connect_new_fail K env video conversion callback param h hs]; exact ⟨rfl, rfl⟩
    · rw [connect_new_ok K env video conversion callback param h hs]; exact ⟨rfl, rfl⟩
  · rw [connect_dup K env video conversion callback param h]; exact ⟨rfl, rfl⟩

theorem zero_data_null (K : Nat) : (video_data.zero K).data.getD 0 0 = 0 := by
  cases K <;> simp [video_data.zero, List.replicate]

theorem open_fresh (K : Nat) (env : OpenEnv) (info : video_output_info) (out : video_output)
    (hopen : (video_output_open K env info).handle = some out) :
    out.cur_frame = video_data.zero K ∧ out.new_frame = false ∧ out.inputs = [] ∧
      out.info = info ∧ out.frame_time = frame_time_of info := by
  unfold video_output_open at hopen
  split_ifs at hopen
  simp at hopen
  subst hopen
  simp

theorem input_free_events (input : video_input) :
    ∀ e ∈ video_input_free input, e.isCallback = false ∧ e.isScale = false := by
  intro e he
  unfold video_input_free at he
  simp only [List.mem_append, List.mem_map, List.mem_singleton] at he
  rcases he with ⟨i, _, rfl⟩ | rfl <;> simp [Event.isCallback, Event.isScale]

theorem disconnect_events (video : video_output) (callback param : Nat) :
    ∀ e ∈ (video_output_disconnect video callback param).2,
      e.isCallback = false ∧ e.isScale = false := by
  intro e he
  unfold video_output_disconnect at he
  split at he
  · simp only at he
    split at he
    · exact input_free_events _ e he
    · simp at he
  · simp at he

theorem disconnect_stage (video : video_output) (callback param : Nat) :
    (video_output_disconnect video callback param).1.cur_frame = video.cur_frame ∧
      (video_output_disconnect video callback param).1.new_frame = video.new_frame := by
  unfold video_output_disconnect
  split <;> simp

theorem tick_idle (K : Nat) (scale : ScaleOracle) (video : video_output)
    (hnull : video.cur_frame.data.getD 0 0 = 0) (hclean : video.new_frame = false) :
    video_tick K scale video = (video, []) := by
  have hswap : video_swapframes video = video := by
    simp [video_swapframes, hclean]
  rw [video_tick, hswap, video_output_cur_frame, if_pos hnull]

theorem run_idle (K : Nat) (ops : List Op) :
    ∀ video : video_output, video.cur_frame.data.getD 0 0 = 0 → video.new_frame = false →
      (∀ op ∈ ops, op.isSubmit = false) →
      ∀ e ∈ (run K video ops).2, e.isCallback = false ∧ e.isScale = false := by
  induction ops with
  | nil => intro video _ _ _ e he; simp [run] at he
  | cons op ops ih =>
    intro video hnull hclean hops e he
    have hop : op.isSubmit = false := hops op (List.mem_cons_self _ _)
    have hrest : ∀ o ∈ ops, o.isSubmit = false := fun o ho => hops o (List.mem_cons_of_mem _ ho)
    simp only [run, List.mem_append] at he
    cases op with
    | submit f => simp [Op.isSubmit] at hop
    | connect env conversion callback param =>
      have hs := connect_stage K env video conversion callback param
      rcases he with he | he
      · exact connect_events K env video conversion callback param e he
      · exact ih _ (by simp only [step]; rw [hs.1]; exact hnull)
          (by simp only [step]; rw [hs.2]; exact hclean) hrest e he
    | disconnect callback param =>
      have hs := disconnect_stage video callback param
      rcases he with he | he
      · exact disconnect_events video callback param e he
      · exact ih _ (by simp only [step]; rw [hs.1]; exact hnull)
          (by simp only [step]; rw [hs.2]; exact hclean) hrest e he
    | tick scale =>
      have ht := tick_idle K scale video hnull hclean
      simp only [step, ht] at he
      rcases he with he | he
      · simp at he
      · exact ih _ hnull hclean hrest e he

/-! ## Dispatch loop lemmas -/

theorem scale_keeps_identity (K : Nat) (scale : ScaleOracle) (input : video_input)
    (data : video_data) :
    (scale_video_output K scale input data).input.callback = input.callback ∧
      (scale_video_output K scale input data).input.param = input.param ∧
      (scale_video_output K scale input data).input.scaler = input.scaler := by
  unfold scale_video_output
  split <;> simp

theorem scale_events_no_callback (K : Nat) (scale : ScaleOracle) (input : video_input)
    (data : video_data) (cb p : Nat) :
    (scale_video_output K scale input data).events.countP (Event.isCallbackOf cb p) = 0 := by
  unfold scale_video_output
  split <;> simp [Event.isCallbackOf]

theorem scale_success_eq (K : Nat) (scale : ScaleOracle) (input : video_input)
    (data : video_data) :
    (scale_video_output K scale input data).success =
      (decide (input.scaler = 0) ||
        scale input.scaler (next_buffer input).data (next_buffer input).linesize
          data.data data.linesize) := by
  unfold scale_video_output
  by_cases h : input.scaler = 0 <;> simp [h]

theorem scale_events_of_scaler (K : Nat) (scale : ScaleOracle) (input : video_input)
    (data : video_data) (h : input.scaler ≠ 0) :
    (scale_video_output K scale input data).events =
      [Event.video_scaler_scale input.scaler (next_buffer input) data.data data.linesize
        (scale input.scaler (next_buffer input).data (next_buffer input).linesize
          data.data data.linesize)] := by
  simp [scale_video_output, h]

theorem dispatch_loop_append (K : Nat) (scale : ScaleOracle) (pre post : List video_input) :
    ∀ cur : video_data,
      dispatch_loop K scale (pre ++ post) cur =
        { inputs := (dispatch_loop K scale pre cur).inputs ++
            (dispatch_loop K scale post (dispatch_loop K scale pre cur).cur).inputs
          cur := (dispatch_loop K scale post (dispatch_loop K scale pre cur).cur).cur
          events := (dispatch_loop K scale pre cur).events ++
            (dispatch_loop K scale post (dispatch_loop K scale pre cur).cur).events } := by
  induction pre with
  | nil => intro cur; simp [dispatch_loop]
  | cons x xs ih => intro cur; simp [dispatch_loop, ih]

theorem dispatch_loop_keeps (K : Nat) (scale : ScaleOracle) (l : List video_input) :
    ∀ cur : video_data,
      (dispatch_loop K scale l cur).inputs.map (fun i => (i.callback, i.param, i.scaler)) =
        l.map (fun i => (i.callback, i.param, i.scaler)) := by
  induction l with
  | nil => intro cur; simp [dispatch_loop]
  | cons x xs ih =>
    intro cur
    have h := scale_keeps_identity K scale x cur
    simp [dispatch_loop, ih, h.1, h.2.1, h.2.2]

theorem dispatch_loop_others (K : Nat) (scale : ScaleOracle) (cb p : Nat)
    (l : List video_input) :
    ∀ cur : video_data, (∀ i ∈ l, (i.callback, i.param) ≠ (cb, p)) →
      (dispatch_loop K scale l cur).events.countP (Event.isCallbackOf cb p) = 0 := by
  induction l with
  | nil => intro cur _; simp [dispatch_loop]
  | cons x xs ih =>
    intro cur hne
    have hx : (x.callback, x.param) ≠ (cb, p) := hne x (List.mem_cons_self _ _)
    have hxs : ∀ i ∈ xs, (i.callback, i.param) ≠ (cb, p) :=
      fun i hi => hne i (List.mem_cons_of_mem _ hi)
    have hk := scale_keeps_identity K scale x cur
    have h0 := scale_events_no_callback K scale x cur cb p
    have hcb : Event.isCallbackOf cb p
        (Event.callback (scale_video_output K scale x cur).input.callback
          (scale_video_output K scale x cur).input.param
          (scale_video_output K scale x cur).data) = false := by
      rw [hk.1, hk.2.1]
      simp only [Event.isCallbackOf, decide_eq_false_iff_not]
      intro h
      exact hx (by rw [h.1, h.2])
    simp only [dispatch_loop, List.countP_append, ih _ hxs, Nat.add_zero]
    split
    · simp [List.countP_append, h0, List.countP_cons, hcb]
    · exact h0

theorem dispatch_loop_attempts (K : Nat) (scale : ScaleOracle) (s : Nat) (hs : s ≠ 0)
    (l : List video_input) :
    ∀ cur : video_data, (∃ i ∈ l, i.scaler = s) →
      ∃ e ∈ (dispatch_loop K scale l cur).events,
        ∃ dst src_data src_linesize ok,
          e = Event.video_scaler_scale s dst src_data src_linesize ok := by
  induction l with
  | nil => intro cur h; simp at h
  | cons x xs ih =>
    intro cur h
    rcases h with ⟨i, hi, his⟩
    rcases List.mem_cons.1 hi with rfl | hmem
    · have hne : i.scaler ≠ 0 := by rw [his]; exact hs
      have hev := scale_events_of_scaler K scale i cur hne
      refine ⟨Event.video_scaler_scale i.scaler (next_buffer i) cur.data cur.linesize
        (scale i.scaler (next_buffer i).data (next_buffer i).linesize cur.data cur.linesize),
        ?_, next_buffer i, cur.data, cur.linesize, _, by rw [his]⟩
      simp only [dispatch_loop, List.mem_append]
      left
      split <;> simp [hev]
    · obtain ⟨e, he, hform⟩ := ih (scale_video_output K scale x cur).data ⟨i, hmem, his⟩
      exact ⟨e, by simp only [dispatch_loop, List.mem_append]; right; exact he, hform⟩

theorem cur_frame_dispatches (K : Nat) (scale : ScaleOracle) (video : video_output)
    (hdata : video.cur_frame.data.getD 0 0 ≠ 0) :
    video_output_cur_frame K scale video =
      ({ video with
          inputs := (dispatch_loop K scale video.inputs video.cur_frame).inputs
          cur_frame := (dispatch_loop K scale video.inputs video.cur_frame).cur },
        (dispatch_loop K scale video.inputs video.cur_frame).events) := by
  rw [video_output_cur_frame, if_neg hdata]

theorem nodup_split (pre post : List video_input) (c : video_input)
    (huniq : ((pre ++ c :: post).map (fun i => (i.callback, i.param))).Nodup) :
    (∀ i ∈ pre, (i.callback, i.param) ≠ (c.callback, c.param)) ∧
      (∀ i ∈ post, (i.callback, i.param) ≠ (c.callback, c.param)) := by
  rw [List.map_append, List.map_cons, List.nodup_append] at huniq
  obtain ⟨_, hcp, hdisj⟩ := huniq
  rw [List.nodup_cons] at hcp
  constructor
  · intro i hi heq
    exact hdisj (List.mem_map.2 ⟨i, hi, heq⟩) (List.mem_cons_self _ _)
  · intro i hi heq
    exact hcp.1 (List.mem_map.2 ⟨i, hi, heq⟩)

/-! ## Lookup and registration lemmas -/

theorem input_idx_eq_none_iff (cb p : Nat) (l : List video_input) :
    input_idx cb p l = none ↔ ∀ i ∈ l, ¬ (i.callback = cb ∧ i.param = p) := by
  induction l with
  | nil => simp [input_idx]
  | cons x xs ih =>
    by_cases hx : x.callback = cb ∧ x.param = p
    · simp [input_idx, hx]
    · simp only [input_idx, hx, if_false, Option.map_eq_none', ih, List.mem_cons,
        forall_eq_or_imp, not_false_eq_true, true_and]

theorem input_idx_some_split (cb p : Nat) (l : List video_input) :
    ∀ n, input_idx cb p l = some n →
      ∃ pre c post, l = pre ++ c :: post ∧ c.callback = cb ∧ c.param = p ∧
        (∀ i ∈ pre, ¬ (i.callback = cb ∧ i.param = p)) ∧
        l.eraseIdx n = pre ++ post ∧ l[n]? = some c := by
  induction l with
  | nil => intro n h; simp [input_idx] at h
  | cons x xs ih =>
    intro n h
    by_cases hx : x.callback = cb ∧ x.param = p
    · simp only [input_idx, hx, and_self, if_true, Option.some.injEq] at h
      subst h
      exact ⟨[], x, xs, rfl, hx.1, hx.2, by simp, rfl, by simp⟩
    · simp only [input_idx, hx, if_false, Option.map_eq_some'] at h
      obtain ⟨m, hm, rfl⟩ := h
      obtain ⟨pre, c, post, hl, hc1, hc2, hpre, her, hget⟩ := ih m hm
      refine ⟨x :: pre, c, post, by rw [hl]; rfl, hc1, hc2, ?_, ?_, ?_⟩
      · intro i hi
        rcases List.mem_cons.1 hi with rfl | hi
        · exact hx
        · exact hpre i hi
      · simp [List.eraseIdx, her]
      · simpa using hget

theorem input_init_keeps (env : ConnectEnv) (input : video_input) (video : video_output) :
    (video_input_init env input video).input.conversion = input.conversion ∧
      (video_input_init env input video).input.callback = input.callback ∧
      (video_input_init env input video).input.param = input.param := by
  unfold video_input_init
  dsimp only
  split
  · split <;> simp
  · simp

theorem connect_input_identity (K : Nat) (video : video_output)
    (conversion : Option video_scale_info) (callback param : Nat) :
    (connect_input K video conversion callback param).callback = callback ∧
      (connect_input K video conversion callback param).param = param := by
  unfold connect_input
  dsimp only
  cases conversion <;> (split <;> split <;> simp)

theorem connect_input_conversion (K : Nat) (video : video_output)
    (conversion : Option video_scale_info) (callback param : Nat) :
    (connect_input K video conversion callback param).conversion =
      match conversion with
      | none =>
        { format := video.info.format, width := video.info.width, height := video.info.height }
      | some c =>
        { format := c.format
          width := if c.width = 0 then video.info.width else c.width
          height := if c.height = 0 then video.info.height else c.height } := by
  unfold connect_input
  cases conversion with
  | none =>
    dsimp only
    split <;> split <;> simp_all
  | some c =>
    dsimp only
    by_cases hw : c.width = 0 <;> by_cases hh : c.height = 0 <;> simp [hw, hh]

/-! ## Identities stay unique -/

theorem dispatch_loop_idents (K : Nat) (scale : ScaleOracle) (l : List video_input)
    (cur : video_data) :
    (dispatch_loop K scale l cur).inputs.map (fun i => (i.callback, i.param)) =
      l.map (fun i => (i.callback, i.param)) := by
  have := congrArg (List.map (fun t : Nat × Nat × Nat => (t.1, t.2.1)))
    (dispatch_loop_keeps K scale l cur)
  simpa [List.map_map, Function.comp] using this

theorem tick_idents (K : Nat) (scale : ScaleOracle) (video : video_output) :
    (video_tick K scale video).1.inputs.map (fun i => (i.callback, i.param)) =
      video.inputs.map (fun i => (i.callback, i.param)) := by
  have hswap : (video_swapframes video).inputs = video.inputs := by
    unfold video_swapframes
    split <;> rfl
  unfold video_tick video_output_cur_frame
  split
  · rw [hswap]
  · simp only
    rw [dispatch_loop_idents, hswap]

theorem connect_nodup (K : Nat) (env : ConnectEnv) (video : video_output)
    (conversion : Option video_scale_info) (callback param : Nat)
    (huniq : (video.inputs.map (fun i => (i.callback, i.param))).Nodup) :
    ((video_output_connect K env video conversion callback param).video.inputs.map
      (fun i => (i.callback, i.param))).Nodup := by
  by_cases h : video_get_input_idx video callback param = none
  · cases hs : (video_input_init env (connect_input K video conversion callback param)
        video).success
    · rw [connect_new_fail K env video conversion callback param h hs]; exact huniq
    · rw [connect_new_ok K env video conversion callback param h hs]
      have hk := input_init_keeps env (connect_input K video conversion callback param) video
      have hid := connect_input_identity K video conversion callback param
      simp only [List.map_append, List.map_cons, List.map_nil, hk.2.1, hk.2.2, hid.1, hid.2]
      rw [List.nodup_append]
      refine ⟨huniq, List.nodup_singleton _, ?_⟩
      intro a ha hb
      rw [List.mem_singleton] at hb
      subst hb
      obtain ⟨i, hi, heq⟩ := List.mem_map.1 ha
      have hi1 : i.callback = callback := congrArg Prod.fst heq
      have hi2 : i.param = param := congrArg Prod.snd heq
      exact (input_idx_eq_none_iff callback param video.inputs).1 h i hi ⟨hi1, hi2⟩
  · rw [connect_dup K env video conversion callback param h]; exact huniq

theorem disconnect_nodup (video : video_output) (callback param : Nat)
    (huniq : (video.inputs.map (fun i => (i.callback, i.param))).Nodup) :
    ((video_output_disconnect video callback param).1.inputs.map
      (fun i => (i.callback, i.param))).Nodup := by
  cases hidx : input_idx callback param video.inputs with
  | none =>
    have : video_output_disconnect video callback param = (video, []) := by
      simp [video_output_disconnect, video_get_input_idx, hidx]
    rw [this]; exact huniq
  | some n =>
    obtain ⟨pre, c, post, hl, _, _, _, her, _⟩ :=
      input_idx_some_split callback param video.inputs n hidx
    have : (video_output_disconnect video callback param).1.inputs = pre ++ post := by
      simp [video_output_disconnect, video_get_input_idx, hidx, her]
    rw [this]
    rw [hl] at huniq
    have hsub : (pre ++ post).Sublist (pre ++ c :: post) :=
      List.Sublist.append_left (List.sublist_cons_self c post) pre
    exact List.Nodup.sublist (hsub.map _) huniq

theorem run_nodup (K : Nat) (ops : List Op) :
    ∀ video : video_output, (video.inputs.map (fun i => (i.callback, i.param))).Nodup →
      ((run K video ops).1.inputs.map (fun i => (i.callback, i.param))).Nodup := by
  induction ops with
  | nil => intro video h; exact h
  | cons op ops ih =>
    intro video h
    simp only [run]
    apply ih
    cases op with
    | connect env conversion callback param =>
      exact connect_nodup K env video conversion callback param h
    | disconnect callback param => exact disconnect_nodup video callback param h
    | submit frame => exact h
    | tick scale =>
      simp only [step]
      rw [tick_idents]
      exact h

theorem reachable_nodup (K : Nat) (env : OpenEnv) (info : video_output_info)
    (out : video_output) (hopen : (video_output_open K env info).handle = some out)
    (ops : List Op) :
    ((run K out ops).1.inputs.map (fun i => (i.callback, i.param))).Nodup := by
  apply run_nodup
  rw [(open_fresh K env info out hopen).2.2.1]
  exact List.nodup_nil

/-! ## Opening a stream -/

/-- C1: `video_output_open` validates the descriptor.  With a zero width,
height, `fps_num` or `fps_den` it returns `VIDEO_OUTPUT_INVALIDPARAM`, the
handle is not written and no call at all is made (no allocation, no thread).
With four non-zero fields and five succeeding initialisation calls it returns
`VIDEO_OUTPUT_SUCCESS` and writes an initialised stream: descriptor copied,
frame time computed, stage zeroed and clean, no consumer, one allocation and
one thread creation. -/
theorem video_output_open_validates (MAX_AV_PLANES : Nat) (env : OpenEnv)
    (info : video_output_info) :
    ((info.width = 0 ∨ info.height = 0 ∨ info.fps_num = 0 ∨ info.fps_den = 0) →
      video_output_open MAX_AV_PLANES env info =
        { code := OpenCode.VIDEO_OUTPUT_INVALIDPARAM, handle := none, events := [] }) ∧
    ((info.width ≠ 0 ∧ info.height ≠ 0 ∧ info.fps_num ≠ 0 ∧ info.fps_den ≠ 0) →
      (env.data_mutex_init = 0 ∧ env.input_mutex_init = 0 ∧ env.stop_event_init = 0 ∧
        env.update_event_init = 0 ∧ env.pthread_create = 0) →
      ∃ out : video_output,
        (video_output_open MAX_AV_PLANES env info).code = OpenCode.VIDEO_OUTPUT_SUCCESS ∧
        (video_output_open MAX_AV_PLANES env info).handle = some out ∧
        out.initialized = true ∧
        out.info = info ∧
        out.frame_time = frame_time_of info ∧
        out.inputs = [] ∧
        out.new_frame = false ∧
        out.cur_frame = video_data.zero MAX_AV_PLANES ∧
        out.next_frame = video_data.zero MAX_AV_PLANES ∧
        (video_output_open MAX_AV_PLANES env info).events.count Event.bzalloc = 1 ∧
        (video_output_open MAX_AV_PLANES env info).events.count (Event.pthread_create 0) = 1 ∧
        Event.bfree ∉ (video_output_open MAX_AV_PLANES env info).events) := by
  constructor
  · intro h
    have hv : valid_video_params info = false := by
      unfold valid_video_params
      rcases h with h | h | h | h <;> simp [h]
    simp [video_output_open, hv]
  · rintro ⟨hw, hh, hn, hd⟩ ⟨h1, h2, h3, h4, h5⟩
    have hv : valid_video_params info = true := by
      simp [valid_video_params, hw, hh, hn, hd]
    refine ⟨{ info := info
              cur_frame := video_data.zero MAX_AV_PLANES
              next_frame := video_data.zero MAX_AV_PLANES
              new_frame := false
              frame_time := frame_time_of info
              cur_video_time := 0
              initialized := true
              inputs := [] }, ?_, ?_, rfl, rfl, rfl, rfl, rfl, rfl, rfl, ?_, ?_, ?_⟩ <;>
      simp [video_output_open, hv, h1, h2, h3, h4, h5]

/-- C1, at concrete inputs: a 0x480 descriptor is rejected without any call, a
640x480 one at 30/1 with succeeding initialisation is accepted. -/
theorem video_output_open_validates_witness :
    video_output_open 8 ⟨0, 0, 0, 0, 0⟩ ⟨1, 30, 1, 0, 480⟩ =
        { code := OpenCode.VIDEO_OUTPUT_INVALIDPARAM, handle := none, events := [] } ∧
      ∃ out : video_output,
        (video_output_open 8 ⟨0, 0, 0, 0, 0⟩ ⟨1, 30, 1, 640, 480⟩).code =
          OpenCode.VIDEO_OUTPUT_SUCCESS ∧
        (video_output_open 8 ⟨0, 0, 0, 0, 0⟩ ⟨1, 30, 1, 640, 480⟩).handle = some out ∧
        out.initialized = true ∧
        out.info = ⟨1, 30, 1, 640, 480⟩ ∧
        out.frame_time = frame_time_of ⟨1, 30, 1, 640, 480⟩ ∧
        out.inputs = [] ∧
        out.new_frame = false ∧
        out.cur_frame = video_data.zero 8 ∧
        out.next_frame = video_data.zero 8 ∧
        (video_output_open 8 ⟨0, 0, 0, 0, 0⟩ ⟨1, 30, 1, 640, 480⟩).events.count
          Event.bzalloc = 1 ∧
        (video_output_open 8 ⟨0, 0, 0, 0, 0⟩ ⟨1, 30, 1, 640, 480⟩).events.count
          (Event.pthread_create 0) = 1 ∧
        Event.bfree ∉ (video_output_open 8 ⟨0, 0, 0, 0, 0⟩ ⟨1, 30, 1, 640, 480⟩).events :=
  ⟨(video_output_open_validates 8 ⟨0, 0, 0, 0, 0⟩ ⟨1, 30, 1, 0, 480⟩).1 (by decide),
    (video_output_open_validates 8 ⟨0, 0, 0, 0, 0⟩ ⟨1, 30, 1, 640, 480⟩).2
      (by decide) (by decide)⟩

/-! ## The frame interval -/

/-- C2 (as amended): for a valid descriptor with 32-bit fields and
`1e9 * fps_den < 2^53`, the interval stored by `video_output_open` and
returned by `video_getframetime` is `1e9 * fps_den / fps_num` truncated toward
zero (the integer quotient), not rounded to nearest. -/
theorem frame_time_truncates (MAX_AV_PLANES : Nat) (env : OpenEnv) (info : video_output_info)
    (out : video_output)
    (hvalid : info.width ≠ 0 ∧ info.height ≠ 0 ∧ info.fps_num ≠ 0 ∧ info.fps_den ≠ 0)
    (hnum : info.fps_num < 2 ^ 32) (hden : 1000000000 * info.fps_den < 2 ^ 53)
    (hopen : (video_output_open MAX_AV_PLANES env info).handle = some out) :
    out.frame_time = 1000000000 * info.fps_den / info.fps_num ∧
      video_getframetime out = 1000000000 * info.fps_den / info.fps_num := by
  obtain ⟨hw, hh, hn, hd⟩ := hvalid
  have hft : out.frame_time = frame_time_of info := by
    have hv : valid_video_params info = true := by
      simp [valid_video_params, hw, hh, hn, hd]
    simp only [video_output_open, hv] at hopen
    split_ifs at hopen
    simp at hopen
    rw [← hopen]
  have := frame_time_of_eq_div info hn hnum hd hden
  exact ⟨by rw [hft, this], by rw [video_getframetime, hft, this]⟩

/-- C2 (as amended), at 30/1: the interval is 33333333 ns. -/
theorem frame_time_truncates_witness :
    (video_output_open 8 ⟨0, 0, 0, 0, 0⟩ ⟨1, 30, 1, 640, 480⟩).handle =
        some ⟨⟨1, 30, 1, 640, 480⟩, video_data.zero 8, video_data.zero 8, false, 33333333, 0,
          true, []⟩ ∧
      video_getframetime ⟨⟨1, 30, 1, 640, 480⟩, video_data.zero 8, video_data.zero 8, false,
        33333333, 0, true, []⟩ = 1000000000 * 1 / 30 :=
  ⟨by decide,
    (frame_time_truncates 8 ⟨0, 0, 0, 0, 0⟩ ⟨1, 30, 1, 640, 480⟩ _ (by decide) (by decide)
      (by decide) (by decide)).2⟩

/-- C2 (as stated) fails at `fps_num = 3`, `fps_den = 2`: the stored interval is
666666666 ns, while `1e9 * 2 / 3` rounded to nearest is 666666667. -/
theorem frame_time_not_nearest :
    ∃ out : video_output,
      (video_output_open 8 ⟨0, 0, 0, 0, 0⟩ ⟨1, 3, 2, 640, 480⟩).handle = some out ∧
      video_getframetime out = 666666666 ∧
      round ((1000000000 * 2 : ℚ) / 3) = 666666667 := by
  refine ⟨⟨⟨1, 3, 2, 640, 480⟩, video_data.zero 8, video_data.zero 8, false, 666666666, 0,
    true, []⟩, by decide, rfl, ?_⟩
  rw [round_eq, Int.floor_eq_iff]
  constructor <;> norm_num

/-! ## Dispatch without a submitted frame -/

/-- C3: on a freshly opened stream, a sequence of connects, disconnects and
ticks (swap followed by dispatch) without any submit invokes no consumer
callback and no conversion. -/
theorem no_submit_no_delivery (MAX_AV_PLANES : Nat) (env : OpenEnv) (info : video_output_info)
    (out : video_output)
    (hopen : (video_output_open MAX_AV_PLANES env info).handle = some out)
    (ops : List Op) (hops : ∀ op ∈ ops, op.isSubmit = false) :
    ∀ e ∈ (run MAX_AV_PLANES out ops).2, e.isCallback = false ∧ e.isScale = false := by
  have h := open_fresh MAX_AV_PLANES env info out hopen
  exact run_idle MAX_AV_PLANES ops out (by rw [h.1]; exact zero_data_null _) h.2.1 hops

/-- C3, on the sample stream: a converting consumer and a native one connect,
two ticks pass, one disconnects, another tick passes; no call in the trace is
a callback or a conversion. -/
theorem no_submit_no_delivery_witness :
    (run 8 sample_stream
        [Op.connect sample_env (some ⟨1, 320, 240⟩) 10 11, Op.connect sample_env none 20 21,
          Op.tick scale_ok, Op.tick scale_ok, Op.disconnect 10 11, Op.tick scale_ok]).2.all
      (fun e => !e.isCallback && !e.isScale) = true :=
  List.all_eq_true.2 (fun e he => by
    have h := no_submit_no_delivery 8 ⟨0, 0, 0, 0, 0⟩ sample_info sample_stream (by decide)
      [Op.connect sample_env (some ⟨1, 320, 240⟩) 10 11, Op.connect sample_env none 20 21,
        Op.tick scale_ok, Op.tick scale_ok, Op.disconnect 10 11, Op.tick scale_ok]
      (by decide) e he
    simp [h.1, h.2])

/-! ## Dispatch overwrites the staged frame

`video_output_cur_frame` hands `&video->cur_frame` itself to
`scale_video_output`, which on success stores the pool buffer's planes and
strides into it.  Every later consumer of the same dispatch, and every later
dispatch without a new submit, therefore starts from the converted frame. -/

/-- C4, the code at a failing input: a converting consumer `(10, 11)` (320x240)
is registered before a native one `(20, 21)`; after one submit of
`sample_frame` (plane 500, stride 640) and one tick, the native consumer's
callback receives plane 320101 with stride 320, the first consumer's pool
buffer, not the submitted planes and strides. -/
theorem native_consumer_after_converter :
    (run 8 sample_stream
        [Op.connect sample_env (some ⟨1, 320, 240⟩) 10 11, Op.connect sample_env none 20 21,
          Op.submit sample_frame, Op.tick scale_ok]).2.filter (Event.isCallbackOf 20 21) =
      [Event.callback 20 21
        { data := [320101, 0, 0, 0, 0, 0, 0, 0]
          linesize := [320, 0, 0, 0, 0, 0, 0, 0]
          timestamp := 42 }] ∧
    sample_frame.data = [500, 0, 0, 0, 0, 0, 0, 0] ∧
    sample_frame.linesize = [640, 0, 0, 0, 0, 0, 0, 0] := by
  decide

/-- C5, the code at a failing input: two converting consumers (320x240, then
160x120); in one dispatch of `sample_frame` the first converter reads plane
500 with stride 640 (the staged frame), the second reads plane 320101 with
stride 320 (the first consumer's output). -/
theorem second_converter_reads_first_output :
    (run 8 sample_stream
        [Op.connect sample_env (some ⟨1, 320, 240⟩) 10 11,
          Op.connect sample_env (some ⟨1, 160, 120⟩) 20 21,
          Op.submit sample_frame, Op.tick scale_ok]).2.filter Event.isScale =
      [Event.video_scaler_scale 7320
          { data := [320101, 0, 0, 0, 0, 0, 0, 0], linesize := [320, 0, 0, 0, 0, 0, 0, 0] }
          [500, 0, 0, 0, 0, 0, 0, 0] [640, 0, 0, 0, 0, 0, 0, 0] true,
        Event.video_scaler_scale 7160
          { data := [160101, 0, 0, 0, 0, 0, 0, 0], linesize := [160, 0, 0, 0, 0, 0, 0, 0] }
          [320101, 0, 0, 0, 0, 0, 0, 0] [320, 0, 0, 0, 0, 0, 0, 0] true] := by
  decide

/-- C6, the code at a failing input: one converting consumer, one submit of
`sample_frame`, two ticks with no submit in between.  After the first tick the
staged frame is the pool buffer (plane 320101, stride 320), and the second
tick converts that instead of the submitted frame. -/
theorem repeated_tick_converts_converted_frame :
    (run 8 sample_stream
        [Op.connect sample_env (some ⟨1, 320, 240⟩) 10 11, Op.submit sample_frame,
          Op.tick scale_ok]).1.cur_frame =
      { data := [320101, 0, 0, 0, 0, 0, 0, 0]
        linesize := [320, 0, 0, 0, 0, 0, 0, 0]
        timestamp := 42 } ∧
    (run 8 sample_stream
        [Op.connect sample_env (some ⟨1, 320, 240⟩) 10 11, Op.submit sample_frame,
          Op.tick scale_ok, Op.tick scale_ok]).2.filter Event.isScale =
      [Event.video_scaler_scale 7320
          { data := [320101, 0, 0, 0, 0, 0, 0, 0], linesize := [320, 0, 0, 0, 0, 0, 0, 0] }
          [500, 0, 0, 0, 0, 0, 0, 0] [640, 0, 0, 0, 0, 0, 0, 0] true,
        Event.video_scaler_scale 7320
          { data := [320201, 0, 0, 0, 0, 0, 0, 0], linesize := [320, 0, 0, 0, 0, 0, 0, 0] }
          [320101, 0, 0, 0, 0, 0, 0, 0] [320, 0, 0, 0, 0, 0, 0, 0] true] := by
  decide

/-! ## Conversion failure -/

/-- The sample state `sample_staged` is the one reached from the opened sample
stream by three connects, one submit and the swap of a tick. -/
theorem sample_staged_reached :
    video_swapframes (run 8 sample_stream
      [Op.connect sample_env none 20 21, Op.connect sample_env (some ⟨1, 320, 240⟩) 10 11,
        Op.connect sample_env (some ⟨1, 160, 120⟩) 30 31, Op.submit sample_frame]).1
      = sample_staged := by
  decide

/-- C7: in a dispatch of a frame with image data over a table with unique
identities, a consumer `c` whose converter reports failure (on the frame the
loop hands it, into its next pool buffer) gets no callback; a consumer whose
conversion succeeds or that has no converter gets exactly one, whatever
happens to the other consumers; every consumer stays registered, in the same
order; and any later dispatch of a frame with image data calls the converter
of `c` again. -/
theorem conversion_failure_contained (MAX_AV_PLANES : Nat) (scale : ScaleOracle)
    (video : video_output) (pre post : List video_input) (c : video_input)
    (hdata : video.cur_frame.data.getD 0 0 ≠ 0)
    (hinputs : video.inputs = pre ++ c :: post)
    (huniq : (video.inputs.map (fun i => (i.callback, i.param))).Nodup) :
    ((c.scaler ≠ 0 ∧
        scale c.scaler (next_buffer c).data (next_buffer c).linesize
          (dispatch_loop MAX_AV_PLANES scale pre video.cur_frame).cur.data
          (dispatch_loop MAX_AV_PLANES scale pre video.cur_frame).cur.linesize = false) →
      (video_output_cur_frame MAX_AV_PLANES scale video).2.countP
        (Event.isCallbackOf c.callback c.param) = 0) ∧
    (¬ (c.scaler ≠ 0 ∧
        scale c.scaler (next_buffer c).data (next_buffer c).linesize
          (dispatch_loop MAX_AV_PLANES scale pre video.cur_frame).cur.data
          (dispatch_loop MAX_AV_PLANES scale pre video.cur_frame).cur.linesize = false) →
      (video_output_cur_frame MAX_AV_PLANES scale video).2.countP
        (Event.isCallbackOf c.callback c.param) = 1) ∧
    (video_output_cur_frame MAX_AV_PLANES scale video).1.inputs.map
        (fun i => (i.callback, i.param)) =
      video.inputs.map (fun i => (i.callback, i.param)) ∧
    (c.scaler ≠ 0 → ∀ (scale2 : ScaleOracle) (next : video_output),
      next.inputs = (video_output_cur_frame MAX_AV_PLANES scale video).1.inputs →
      next.cur_frame.data.getD 0 0 ≠ 0 →
      ∃ e ∈ (video_output_cur_frame MAX_AV_PLANES scale2 next).2,
        ∃ dst src_data src_linesize ok,
          e = Event.video_scaler_scale c.scaler dst src_data src_linesize ok) := by
  have hkeep := dispatch_loop_keeps MAX_AV_PLANES scale video.inputs video.cur_frame
  rw [hinputs] at huniq
  obtain ⟨hpre, hpost⟩ := nodup_split pre post c huniq
  have hcount : (video_output_cur_frame MAX_AV_PLANES scale video).2.countP
      (Event.isCallbackOf c.callback c.param) =
      if (scale_video_output MAX_AV_PLANES scale c
        (dispatch_loop MAX_AV_PLANES scale pre video.cur_frame).cur).success then 1 else 0 := by
    rw [cur_frame_dispatches MAX_AV_PLANES scale video hdata, hinputs, dispatch_loop_append]
    have hk := scale_keeps_identity MAX_AV_PLANES scale c
      (dispatch_loop MAX_AV_PLANES scale pre video.cur_frame).cur
    have h0 := scale_events_no_callback MAX_AV_PLANES scale c
      (dispatch_loop MAX_AV_PLANES scale pre video.cur_frame).cur c.callback c.param
    simp only [dispatch_loop, List.countP_append,
      dispatch_loop_others MAX_AV_PLANES scale c.callback c.param pre _ hpre,
      dispatch_loop_others MAX_AV_PLANES scale c.callback c.param post _ hpost,
      Nat.add_zero, Nat.zero_add]
    split
    · simp [List.countP_append, h0, List.countP_cons, hk.1, hk.2.1, Event.isCallbackOf]
    · exact h0
  have hsucc := scale_success_eq MAX_AV_PLANES scale c
    (dispatch_loop MAX_AV_PLANES scale pre video.cur_frame).cur
  refine ⟨?_, ?_, ?_, ?_⟩
  · rintro ⟨hs, hf⟩
    rw [hcount, hsucc, hf]
    simp [hs]
  · intro hnf
    rw [hcount, hsucc]
    by_cases hs : c.scaler = 0
    · simp [hs]
    · have : scale c.scaler (next_buffer c).data (next_buffer c).linesize
          (dispatch_loop MAX_AV_PLANES scale pre video.cur_frame).cur.data
          (dispatch_loop MAX_AV_PLANES scale pre video.cur_frame).cur.linesize = true := by
        by_contra hne
        exact hnf ⟨hs, by simpa using hne⟩
      simp [this]
  · rw [cur_frame_dispatches MAX_AV_PLANES scale video hdata]
    have := congrArg (List.map (fun t : Nat × Nat × Nat => (t.1, t.2.1))) hkeep
    simpa [List.map_map, Function.comp] using this
  · intro hs scale2 next hnext hnd
    rw [cur_frame_dispatches MAX_AV_PLANES scale2 next hnd]
    apply dispatch_loop_attempts MAX_AV_PLANES scale2 c.scaler hs
    have hmem : (c.callback, c.param, c.scaler) ∈
        next.inputs.map (fun i => (i.callback, i.param, i.scaler)) := by
      rw [hnext, cur_frame_dispatches MAX_AV_PLANES scale video hdata]
      simp only
      rw [hkeep, hinputs]
      exact List.mem_map.2 ⟨c, by simp, rfl⟩
    obtain ⟨i, hi, heq⟩ := List.mem_map.1 hmem
    exact ⟨i, hi, by simpa using congrArg (fun t : Nat × Nat × Nat => t.2.2) heq⟩

/-- C7, on the sample table with a scaler that fails for the 320x240 consumer
only: that consumer `(10, 11)` gets no callback, the native consumer
`(20, 21)` before it and the converting consumer `(30, 31)` after it get one
each, the three stay registered, and the next dispatch calls the failed
converter (handle 7320) again. -/
theorem conversion_failure_contained_witness :
    (video_output_cur_frame 8 scale_fail_320 sample_staged).2.countP
        (Event.isCallbackOf 10 11) = 0 ∧
    (video_output_cur_frame 8 scale_fail_320 sample_staged).2.countP
        (Event.isCallbackOf 20 21) = 1 ∧
    (video_output_cur_frame 8 scale_fail_320 sample_staged).2.countP
        (Event.isCallbackOf 30 31) = 1 ∧
    (video_output_cur_frame 8 scale_fail_320 sample_staged).1.inputs.map
        (fun i => (i.callback, i.param)) = [(20, 21), (10, 11), (30, 31)] ∧
    ∃ e ∈ (video_output_cur_frame 8 scale_ok
        (video_output_cur_frame 8 scale_fail_320 sample_staged).1).2,
      ∃ dst src_data src_linesize ok,
        e = Event.video_scaler_scale 7320 dst src_data src_linesize ok :=
  ⟨(conversion_failure_contained 8 scale_fail_320 sample_staged [sample_native]
      [sample_quarter] sample_half (by decide) (by decide) (by decide)).1 (by decide),
    (conversion_failure_contained 8 scale_fail_320 sample_staged []
      [sample_half, sample_quarter] sample_native (by decide) (by decide) (by decide)).2.1
      (by decide),
    (conversion_failure_contained 8 scale_fail_320 sample_staged [sample_native, sample_half]
      [] sample_quarter (by decide) (by decide) (by decide)).2.1 (by decide),
    (conversion_failure_contained 8 scale_fail_320 sample_staged [sample_native]
      [sample_quarter] sample_half (by decide) (by decide) (by decide)).2.2.1,
    (conversion_failure_contained 8 scale_fail_320 sample_staged [sample_native]
      [sample_quarter] sample_half (by decide) (by decide) (by decide)).2.2.2 (by decide)
      scale_ok (video_output_cur_frame 8 scale_fail_320 sample_staged).1 rfl (by decide)⟩

/-! ## Duplicate registration -/

/-- C8: `video_output_connect` with a `(callback, param)` pair that some entry
of the consumer table already carries returns `false`, leaves the whole
stream (hence the table: size, order, every entry) as it was, and makes no
outside call (no scaler is created, no buffer allocated), whatever target spec
is passed. -/
theorem connect_duplicate_rejected (MAX_AV_PLANES : Nat) (env : ConnectEnv)
    (video : video_output) (conversion : Option video_scale_info) (callback param : Nat)
    (hdup : ∃ input ∈ video.inputs, input.callback = callback ∧ input.param = param) :
    video_output_connect MAX_AV_PLANES env video conversion callback param =
      { success := false, video := video, events := [] } := by
  apply connect_dup
  intro hnone
  obtain ⟨input, hmem, hid⟩ := hdup
  exact (input_idx_eq_none_iff callback param video.inputs).1 hnone input hmem hid

/-- C8, on the sample table: connecting `(10, 11)` again, with a different
target spec, is refused and changes nothing. -/
theorem connect_duplicate_rejected_witness :
    video_output_connect 8 sample_env sample_staged (some ⟨1, 160, 120⟩) 10 11 =
      { success := false, video := sample_staged, events := [] } :=
  connect_duplicate_rejected 8 sample_env sample_staged (some ⟨1, 160, 120⟩) 10 11
    ⟨sample_half, by decide, by decide⟩

/-! ## Disconnect -/

/-- C9: `video_output_disconnect (callback, param)` changes nothing and calls
nothing when no entry has that identity; otherwise it frees and removes the
first entry with that identity, the entries before and after it staying as
they were and in the same order, and nothing but the table changes; when
identities are unique in the table, a lookup of the identity afterwards finds
nothing. -/
theorem disconnect_removes_identity (video : video_output) (callback param : Nat) :
    ((∀ input ∈ video.inputs, ¬ (input.callback = callback ∧ input.param = param)) →
      video_output_disconnect video callback param = (video, [])) ∧
    ((∃ input ∈ video.inputs, input.callback = callback ∧ input.param = param) →
      ∃ pre c post,
        video.inputs = pre ++ c :: post ∧
        c.callback = callback ∧ c.param = param ∧
        (∀ input ∈ pre, ¬ (input.callback = callback ∧ input.param = param)) ∧
        (video_output_disconnect video callback param).1 =
          { video with inputs := pre ++ post } ∧
        (video_output_disconnect video callback param).2 = video_input_free c) ∧
    ((video.inputs.map (fun input => (input.callback, input.param))).Nodup →
      video_get_input_idx (video_output_disconnect video callback param).1 callback param
        = none) := by
  have habsent : (∀ input ∈ video.inputs,
      ¬ (input.callback = callback ∧ input.param = param)) →
      video_output_disconnect video callback param = (video, []) := by
    intro h
    have hnone := (input_idx_eq_none_iff callback param video.inputs).2 h
    simp [video_output_disconnect, video_get_input_idx, hnone]
  have hpresent : ∀ n, input_idx callback param video.inputs = some n →
      ∃ pre c post,
        video.inputs = pre ++ c :: post ∧
        c.callback = callback ∧ c.param = param ∧
        (∀ input ∈ pre, ¬ (input.callback = callback ∧ input.param = param)) ∧
        (video_output_disconnect video callback param).1 =
          { video with inputs := pre ++ post } ∧
        (video_output_disconnect video callback param).2 = video_input_free c := by
    intro n hn
    obtain ⟨pre, c, post, hl, hc1, hc2, hpre, her, hget⟩ :=
      input_idx_some_split callback param video.inputs n hn
    refine ⟨pre, c, post, hl, hc1, hc2, hpre, ?_, ?_⟩
    · simp [video_output_disconnect, video_get_input_idx, hn, her]
    · simp [video_output_disconnect, video_get_input_idx, hn, hget]
  refine ⟨habsent, ?_, ?_⟩
  · rintro ⟨input, hmem, hid⟩
    cases hidx : input_idx callback param video.inputs with
    | none => exact absurd hid ((input_idx_eq_none_iff callback param video.inputs).1 hidx
        input hmem)
    | some n => exact hpresent n hidx
  · intro huniq
    cases hidx : input_idx callback param video.inputs with
    | none =>
      rw [habsent ((input_idx_eq_none_iff callback param video.inputs).1 hidx)]
      exact hidx
    | some n =>
      obtain ⟨pre, c, post, hl, hc1, hc2, hpre, hres, _⟩ := hpresent n hidx
      rw [hres]
      rw [hl] at huniq
      obtain ⟨_, hpost⟩ := nodup_split pre post c huniq
      apply (input_idx_eq_none_iff callback param (pre ++ post)).2
      intro i hi hid
      rcases List.mem_append.1 hi with h | h
      · exact hpre i h hid
      · exact hpost i h (by rw [hid.1, hid.2, hc1, hc2])

/-- C9, on the sample table: disconnecting the absent `(99, 99)` changes
nothing; disconnecting `(10, 11)` removes the middle entry, keeps the two
others in order, and a lookup of `(10, 11)` then finds nothing. -/
theorem disconnect_removes_identity_witness :
    video_output_disconnect sample_staged 99 99 = (sample_staged, []) ∧
    (∃ pre c post,
        sample_staged.inputs = pre ++ c :: post ∧
        c.callback = 10 ∧ c.param = 11 ∧
        (∀ input ∈ pre, ¬ (input.callback = 10 ∧ input.param = 11)) ∧
        (video_output_disconnect sample_staged 10 11).1 =
          { sample_staged with inputs := pre ++ post } ∧
        (video_output_disconnect sample_staged 10 11).2 = video_input_free c) ∧
    video_get_input_idx (video_output_disconnect sample_staged 10 11).1 10 11 = none :=
  ⟨(disconnect_removes_identity sample_staged 99 99).1 (by decide),
    (disconnect_removes_identity sample_staged 10 11).2.1 ⟨sample_half, by decide, by decide⟩,
    (disconnect_removes_identity sample_staged 10 11).2.2 (by decide)⟩

/-! ## Target spec of a new registration -/

/-- C10: a successful `video_output_connect` appends one record carrying the
given identity whose target spec is the requested one with a zero width
replaced by the stream's width and a zero height by the stream's height, each
independently, the format kept; with no requested spec (`NULL`) the target
spec is the stream's (format, width, height). -/
theorem connect_resolves_target (MAX_AV_PLANES : Nat) (env : ConnectEnv)
    (video : video_output) (conversion : Option video_scale_info) (callback param : Nat)
    (hok : (video_output_connect MAX_AV_PLANES env video conversion callback param).success
      = true) :
    ∃ input : video_input,
      (video_output_connect MAX_AV_PLANES env video conversion callback param).video.inputs
        = video.inputs ++ [input] ∧
      input.callback = callback ∧ input.param = param ∧
      (conversion = none →
        input.conversion =
          { format := video.info.format
            width := video.info.width
            height := video.info.height }) ∧
      (∀ c : video_scale_info, conversion = some c →
        input.conversion =
          { format := c.format
            width := if c.width = 0 then video.info.width else c.width
            height := if c.height = 0 then video.info.height else c.height }) := by
  by_cases h : video_get_input_idx video callback param = none
  · cases hs : (video_input_init env
        (connect_input MAX_AV_PLANES video conversion callback param) video).success
    · rw [connect_new_fail MAX_AV_PLANES env video conversion callback param h hs] at hok
      simp at hok
    · have hk := input_init_keeps env
        (connect_input MAX_AV_PLANES video conversion callback param) video
      have hid := connect_input_identity MAX_AV_PLANES video conversion callback param
      have hconv := connect_input_conversion MAX_AV_PLANES video conversion callback param
      refine ⟨_, by rw [connect_new_ok MAX_AV_PLANES env video conversion callback param h hs],
        ?_, ?_, ?_, ?_⟩
      · rw [hk.2.1, hid.1]
      · rw [hk.2.2, hid.2]
      · intro hnone
        rw [hk.1, hconv, hnone]
      · intro c hsome
        rw [hk.1, hconv, hsome]
  · rw [connect_dup MAX_AV_PLANES env video conversion callback param h] at hok
    simp at hok

/-- C10, on the sample stream (640x480, format 1): a request for format 2,
width 0, height 240 registers the target spec (2, 640, 240); a request with no
spec registers (1, 640, 480). -/
theorem connect_resolves_target_witness :
    (∃ input : video_input,
      (video_output_connect 8 sample_env sample_stream (some ⟨2, 0, 240⟩) 10 11).video.inputs
        = sample_stream.inputs ++ [input] ∧
      input.callback = 10 ∧ input.param = 11 ∧
      input.conversion = { format := 2, width := 640, height := 240 }) ∧
    (∃ input : video_input,
      (video_output_connect 8 sample_env sample_stream none 10 11).video.inputs
        = sample_stream.inputs ++ [input] ∧
      input.callback = 10 ∧ input.param = 11 ∧
      input.conversion = { format := 1, width := 640, height := 480 }) :=
  ⟨(connect_resolves_target 8 sample_env sample_stream (some ⟨2, 0, 240⟩) 10 11
      (by decide)).imp
      (fun _ h => ⟨h.1, h.2.1, h.2.2.1, h.2.2.2.2 ⟨2, 0, 240⟩ rfl⟩),
    (connect_resolves_target 8 sample_env sample_stream none 10 11 (by decide)).imp
      (fun _ h => ⟨h.1, h.2.1, h.2.2.1, h.2.2.2.1 rfl⟩)⟩

/-! ## The stage: swap and submit -/

/-- C20: `video_swapframes` with the dirty flag set makes the current slot
equal to the pending slot, clears the flag and keeps the pending slot and
everything else; with the flag clear it changes nothing.  In both cases the
flag is false afterwards, and swapping twice is the same as swapping once. -/
theorem video_swapframes_spec (video : video_output) :
    (video.new_frame = true →
      (video_swapframes video).cur_frame = video.next_frame ∧
      (video_swapframes video).next_frame = video.next_frame ∧
      (video_swapframes video).new_frame = false ∧
      (video_swapframes video).inputs = video.inputs ∧
      (video_swapframes video).info = video.info ∧
      (video_swapframes video).frame_time = video.frame_time ∧
      (video_swapframes video).cur_video_time = video.cur_video_time ∧
      (video_swapframes video).initialized = video.initialized) ∧
    (video.new_frame = false → video_swapframes video = video) ∧
    (video_swapframes video).new_frame = false ∧
    video_swapframes (video_swapframes video) = video_swapframes video := by
  unfold video_swapframes
  cases h : video.new_frame <;> simp [h]

/-- C20, on the sample stream: with `sample_frame` pending and dirty the swap
stages it; on the clean stream the swap changes nothing. -/
theorem video_swapframes_spec_witness :
    ((video_swapframes (video_output_swap_frame sample_stream sample_frame)).cur_frame
        = sample_frame ∧
      (video_swapframes (video_output_swap_frame sample_stream sample_frame)).next_frame
        = sample_frame ∧
      (video_swapframes (video_output_swap_frame sample_stream sample_frame)).new_frame
        = false) ∧
    video_swapframes sample_stream = sample_stream :=
  ⟨⟨((video_swapframes_spec (video_output_swap_frame sample_stream sample_frame)).1 rfl).1,
      ((video_swapframes_spec (video_output_swap_frame sample_stream sample_frame)).1 rfl).2.1,
      ((video_swapframes_spec (video_output_swap_frame sample_stream sample_frame)).1
        rfl).2.2.1⟩,
    (video_swapframes_spec sample_stream).2.1 rfl⟩

theorem submits_last (frames : List video_data) :
    ∀ (video : video_output) (h : frames ≠ []),
      (frames.foldl video_output_swap_frame video).next_frame = frames.getLast h ∧
      (frames.foldl video_output_swap_frame video).new_frame = true ∧
      (frames.foldl video_output_swap_frame video).cur_frame = video.cur_frame ∧
      (frames.foldl video_output_swap_frame video).inputs = video.inputs := by
  induction frames with
  | nil => intro video h; exact absurd rfl h
  | cons f fs ih =>
    intro video _
    cases fs with
    | nil => simp [video_output_swap_frame]
    | cons g gs =>
      have := ih (video_output_swap_frame video f) (List.cons_ne_nil g gs)
      simp only [List.foldl_cons] at this ⊢
      rw [List.getLast_cons (List.cons_ne_nil g gs)]
      exact ⟨this.1, this.2.1, this.2.2.1, this.2.2.2⟩

/-- C14: `video_output_swap_frame (f)` sets the pending slot to `f` and the
dirty flag, and changes nothing else (current frame, consumer table,
descriptor, frame time, tick time); hence after any non-empty sequence of
submits with no tick in between the pending slot holds the last frame, the
current frame and the table are still untouched, and the next swap stages
exactly the last submitted frame and clears the dirty flag. -/
theorem submit_last_write_wins (video : video_output) (f : video_data)
    (frames : List video_data) (hne : frames ≠ []) :
    video_output_swap_frame video f =
        { video with next_frame := f, new_frame := true } ∧
      (video_output_swap_frame video f).cur_frame = video.cur_frame ∧
      (video_output_swap_frame video f).inputs = video.inputs ∧
      (frames.foldl video_output_swap_frame video).cur_frame = video.cur_frame ∧
      (frames.foldl video_output_swap_frame video).inputs = video.inputs ∧
      (video_swapframes (frames.foldl video_output_swap_frame video)).cur_frame
        = frames.getLast hne ∧
      (video_swapframes (frames.foldl video_output_swap_frame video)).new_frame = false := by
  have h := submits_last frames video hne
  refine ⟨rfl, rfl, rfl, h.2.2.1, h.2.2.2, ?_, ?_⟩
  · simp [video_swapframes, h.2.1, h.1]
  · simp [video_swapframes, h.2.1]

/-- C14, on the sample stream: after submitting the zero frame and then
`sample_frame`, the next swap stages `sample_frame`. -/
theorem submit_last_write_wins_witness :
    (video_swapframes ([video_data.zero 8, sample_frame].foldl video_output_swap_frame
        sample_stream)).cur_frame = sample_frame ∧
      (video_swapframes ([video_data.zero 8, sample_frame].foldl video_output_swap_frame
        sample_stream)).new_frame = false :=
  ⟨(submit_last_write_wins sample_stream sample_frame [video_data.zero 8, sample_frame]
      (by decide)).2.2.2.2.2.1,
    (submit_last_write_wins sample_stream sample_frame [video_data.zero 8, sample_frame]
      (by decide)).2.2.2.2.2.2⟩

/-! ## Closing a stream -/

theorem input_free_counts (input : video_input) :
    (video_input_free input).length = 4 ∧
      (video_input_free input).countP Event.isScalerDestroy = 1 ∧
      (video_input_free input).countP Event.isFrameFree = 3 := by
  simp [video_input_free, MAX_CONVERT_BUFFERS, List.range_succ, Event.isScalerDestroy,
    Event.isFrameFree, List.countP_cons]

theorem frees_counts (inputs : List video_input) :
    ((inputs.map video_input_free).flatten).length = 4 * inputs.length ∧
      ((inputs.map video_input_free).flatten).countP Event.isScalerDestroy = inputs.length ∧
      ((inputs.map video_input_free).flatten).countP Event.isFrameFree = 3 * inputs.length := by
  induction inputs with
  | nil => simp
  | cons x xs ih =>
    have hx := input_free_counts x
    simp only [List.map_cons, List.flatten_cons, List.length_append, List.countP_append,
      List.length_cons, hx.1, hx.2.1, hx.2.2, ih.1, ih.2.1, ih.2.2]
    omega

/-- C19: `video_output_close` on a `NULL` handle makes no call.  On an open
(initialised) stream its first three calls stop the pacing loop (signal the
stop event, join the thread, signal the tick event); then, for a table of any
size, every registered consumer has each of its three pool buffers freed and
its converter destroyed (four calls per consumer, one converter release and
three buffer releases each); then the table itself is freed (`da_free`), the
four primitives are destroyed and the stream is freed. -/
theorem video_output_close_releases (video : video_output)
    (hinit : video.initialized = true) :
    video_output_close none = [] ∧
    (video_output_close (some video)).take 3 =
      [Event.event_signal Prim.stop_event, Event.pthread_join,
        Event.event_signal Prim.update_event] ∧
    (∀ input ∈ video.inputs, ∀ i, i < MAX_CONVERT_BUFFERS →
      Event.video_frame_free (input.frame.getD i { data := [], linesize := [] }) ∈
        ((video_output_close (some video)).drop 3).take (4 * video.inputs.length)) ∧
    (∀ input ∈ video.inputs,
      Event.video_scaler_destroy input.scaler ∈
        ((video_output_close (some video)).drop 3).take (4 * video.inputs.length)) ∧
    (video_output_close (some video)).countP Event.isScalerDestroy = video.inputs.length ∧
    (video_output_close (some video)).countP Event.isFrameFree = 3 * video.inputs.length ∧
    (video_output_close (some video)).drop (3 + 4 * video.inputs.length) =
      [Event.da_free, Event.prim_destroy Prim.update_event,
        Event.prim_destroy Prim.stop_event, Event.prim_destroy Prim.data_mutex,
        Event.prim_destroy Prim.input_mutex, Event.bfree] := by
  have hc := frees_counts video.inputs
  have hclose : video_output_close (some video) =
      [Event.event_signal Prim.stop_event, Event.pthread_join,
        Event.event_signal Prim.update_event] ++
      ((video.inputs.map video_input_free).flatten ++
        [Event.da_free, Event.prim_destroy Prim.update_event,
          Event.prim_destroy Prim.stop_event, Event.prim_destroy Prim.data_mutex,
          Event.prim_destroy Prim.input_mutex, Event.bfree]) := by
    simp [video_output_close, video_output_stop, hinit]
  have hmid : ((video_output_close (some video)).drop 3).take (4 * video.inputs.length) =
      (video.inputs.map video_input_free).flatten := by
    rw [hclose]
    simp only [List.drop_succ_cons, List.drop_zero, List.cons_append, List.nil_append]
    rw [← hc.1, List.take_left']
    rfl
  refine ⟨rfl, ?_, ?_, ?_, ?_, ?_, ?_⟩
  · rw [hclose]; rfl
  · intro input hmem i hi
    rw [hmid]
    apply List.mem_flatten.2
    refine ⟨video_input_free input, List.mem_map.2 ⟨input, hmem, rfl⟩, ?_⟩
    unfold video_input_free
    exact List.mem_append_left _ (List.mem_map.2 ⟨i, List.mem_range.2 hi, rfl⟩)
  · intro input hmem
    rw [hmid]
    apply List.mem_flatten.2
    refine ⟨video_input_free input, List.mem_map.2 ⟨input, hmem, rfl⟩, ?_⟩
    unfold video_input_free
    exact List.mem_append_right _ (List.mem_singleton.2 rfl)
  · rw [hclose]
    simp [List.countP_append, List.countP_cons, hc.2.1, Event.isScalerDestroy]
  · rw [hclose]
    simp [List.countP_append, List.countP_cons, hc.2.2, Event.isFrameFree]
  · rw [hclose]
    have h3 : ∀ (l : List Event),
        ([Event.event_signal Prim.stop_event, Event.pthread_join,
          Event.event_signal Prim.update_event] ++ l).drop (3 + 4 * video.inputs.length) =
        l.drop (4 * video.inputs.length) := by
      intro l
      rw [← List.drop_drop]
      rfl
    rw [h3, ← hc.1, List.drop_left']
    rfl

/-- C19, on the sample table of three consumers and on the empty sample
stream: three stop calls first, three converter releases and nine buffer
releases (none for the empty table), and the fixed tail after them. -/
theorem video_output_close_releases_witness :
    ((video_output_close (some sample_staged)).take 3 =
        [Event.event_signal Prim.stop_event, Event.pthread_join,
          Event.event_signal Prim.update_event] ∧
      (video_output_close (some sample_staged)).countP Event.isScalerDestroy = 3 ∧
      (video_output_close (some sample_staged)).countP Event.isFrameFree = 9) ∧
    ((video_output_close (some sample_stream)).countP Event.isScalerDestroy = 0 ∧
      (video_output_close (some sample_stream)).drop 3 =
        [Event.da_free, Event.prim_destroy Prim.update_event,
          Event.prim_destroy Prim.stop_event, Event.prim_destroy Prim.data_mutex,
          Event.prim_destroy Prim.input_mutex, Event.bfree]) :=
  ⟨⟨(video_output_close_releases sample_staged rfl).2.1,
      (video_output_close_releases sample_staged rfl).2.2.2.2.1,
      (video_output_close_releases sample_staged rfl).2.2.2.2.2.1⟩,
    ⟨(video_output_close_releases sample_stream rfl).2.2.2.2.1,
      (video_output_close_releases sample_stream rfl).2.2.2.2.2.2⟩⟩

/-! ## Failure of an initialisation step -/

theorem open_failure_events (MAX_AV_PLANES : Nat) (env : OpenEnv) (info : video_output_info)
    (hvalid : info.width ≠ 0 ∧ info.height ≠ 0 ∧ info.fps_num ≠ 0 ∧ info.fps_den ≠ 0)
    (hfail : env.data_mutex_init ≠ 0 ∨ env.input_mutex_init ≠ 0 ∨ env.stop_event_init ≠ 0 ∨
      env.update_event_init ≠ 0 ∨ env.pthread_create ≠ 0) :
    (video_output_open MAX_AV_PLANES env info).code = OpenCode.VIDEO_OUTPUT_FAIL ∧
    (video_output_open MAX_AV_PLANES env info).handle = none ∧
    Event.pthread_join ∉ (video_output_open MAX_AV_PLANES env info).events ∧
    (∀ p, Event.event_signal p ∉ (video_output_open MAX_AV_PLANES env info).events) ∧
    (∀ p, (video_output_open MAX_AV_PLANES env info).events.count (Event.prim_destroy p) = 1) ∧
    (video_output_open MAX_AV_PLANES env info).events.count Event.bfree = 1 ∧
    (video_output_open MAX_AV_PLANES env info).events.getLast? = some Event.bfree := by
  obtain ⟨hw, hh, hn, hd⟩ := hvalid
  have hv : valid_video_params info = true := by
    simp [valid_video_params, hw, hh, hn, hd]
  have hp : ∀ p : Prim, p = Prim.data_mutex ∨ p = Prim.input_mutex ∨ p = Prim.stop_event ∨
      p = Prim.update_event := by
    intro p; cases p <;> simp
  by_cases h1 : env.data_mutex_init = 0
  · by_cases h2 : env.input_mutex_init = 0
    · by_cases h3 : env.stop_event_init = 0
      · by_cases h4 : env.update_event_init = 0
        · have h5 : env.pthread_create ≠ 0 := by
            rcases hfail with h | h | h | h | h
            · exact absurd h1 h
            · exact absurd h2 h
            · exact absurd h3 h
            · exact absurd h4 h
            · exact h
          refine ⟨?_, ?_, ?_, ?_, ?_, ?_, ?_⟩ <;>
            simp [video_output_open, hv, h1, h2, h3, h4, h5, video_output_close,
              video_output_stop, List.count_cons]
          intro p; rcases hp p with rfl | rfl | rfl | rfl <;> simp
        · refine ⟨?_, ?_, ?_, ?_, ?_, ?_, ?_⟩ <;>
            simp [video_output_open, hv, h1, h2, h3, h4, video_output_close,
              video_output_stop, List.count_cons]
          intro p; rcases hp p with rfl | rfl | rfl | rfl <;> simp
      · refine ⟨?_, ?_, ?_, ?_, ?_, ?_, ?_⟩ <;>
          simp [video_output_open, hv, h1, h2, h3, video_output_close,
            video_output_stop, List.count_cons]
        intro p; rcases hp p with rfl | rfl | rfl | rfl <;> simp
    · refine ⟨?_, ?_, ?_, ?_, ?_, ?_, ?_⟩ <;>
        simp [video_output_open, hv, h1, h2, video_output_close,
          video_output_stop, List.count_cons]
      intro p; rcases hp p with rfl | rfl | rfl | rfl <;> simp
  · refine ⟨?_, ?_, ?_, ?_, ?_, ?_, ?_⟩ <;>
      simp [video_output_open, hv, h1, video_output_close,
        video_output_stop, List.count_cons]
    intro p; rcases hp p with rfl | rfl | rfl | rfl <;> simp

/-- C16 (as amended): when one of the five initialisation steps of
`video_output_open` fails for a valid descriptor, open returns
`VIDEO_OUTPUT_FAIL`, does not write the handle, joins no thread and signals no
event, destroys exactly once every primitive that had been successfully
initialised before the failing step, and frees the stream exactly once, as its
last call. -/
theorem open_failure_teardown (MAX_AV_PLANES : Nat) (env : OpenEnv) (info : video_output_info)
    (hvalid : info.width ≠ 0 ∧ info.height ≠ 0 ∧ info.fps_num ≠ 0 ∧ info.fps_den ≠ 0)
    (hfail : env.data_mutex_init ≠ 0 ∨ env.input_mutex_init ≠ 0 ∨ env.stop_event_init ≠ 0 ∨
      env.update_event_init ≠ 0 ∨ env.pthread_create ≠ 0) :
    (video_output_open MAX_AV_PLANES env info).code = OpenCode.VIDEO_OUTPUT_FAIL ∧
    (video_output_open MAX_AV_PLANES env info).handle = none ∧
    Event.pthread_join ∉ (video_output_open MAX_AV_PLANES env info).events ∧
    (∀ p, Event.event_signal p ∉ (video_output_open MAX_AV_PLANES env info).events) ∧
    (∀ p, Event.prim_init p 0 ∈ (video_output_open MAX_AV_PLANES env info).events →
      (video_output_open MAX_AV_PLANES env info).events.count (Event.prim_destroy p) = 1) ∧
    (video_output_open MAX_AV_PLANES env info).events.count Event.bfree = 1 ∧
    (video_output_open MAX_AV_PLANES env info).events.getLast? = some Event.bfree := by
  have h := open_failure_events MAX_AV_PLANES env info hvalid hfail
  exact ⟨h.1, h.2.1, h.2.2.1, h.2.2.2.1, fun p _ => h.2.2.2.2.1 p, h.2.2.2.2.2.1,
    h.2.2.2.2.2.2⟩

/-- C16 (as amended), at a concrete input: the stop-event initialisation fails
for the sample descriptor, after both mutexes were initialised. -/
theorem open_failure_teardown_witness :
    (video_output_open 8 ⟨0, 0, 1, 0, 0⟩ sample_info).code = OpenCode.VIDEO_OUTPUT_FAIL ∧
    (video_output_open 8 ⟨0, 0, 1, 0, 0⟩ sample_info).handle = none ∧
    Event.pthread_join ∉ (video_output_open 8 ⟨0, 0, 1, 0, 0⟩ sample_info).events ∧
    (video_output_open 8 ⟨0, 0, 1, 0, 0⟩ sample_info).events.count
      (Event.prim_destroy Prim.input_mutex) = 1 ∧
    (video_output_open 8 ⟨0, 0, 1, 0, 0⟩ sample_info).events.count Event.bfree = 1 :=
  ⟨(open_failure_teardown 8 ⟨0, 0, 1, 0, 0⟩ sample_info (by decide) (by decide)).1,
    (open_failure_teardown 8 ⟨0, 0, 1, 0, 0⟩ sample_info (by decide) (by decide)).2.1,
    (open_failure_teardown 8 ⟨0, 0, 1, 0, 0⟩ sample_info (by decide) (by decide)).2.2.1,
    (open_failure_teardown 8 ⟨0, 0, 1, 0, 0⟩ sample_info (by decide) (by decide)).2.2.2.2.1
      Prim.input_mutex (by decide),
    (open_failure_teardown 8 ⟨0, 0, 1, 0, 0⟩ sample_info (by decide)
      (by decide)).2.2.2.2.2.1⟩

/-- C16 (as stated) fails when the very first step fails: with
`pthread_mutex_init (&out->data_mutex)` returning 1 no primitive has been
initialised, yet all four are destroyed. -/
theorem open_failure_destroys_uninitialised :
    (video_output_open 8 ⟨1, 0, 0, 0, 0⟩ sample_info).events =
      [Event.bzalloc, Event.prim_init Prim.data_mutex 1, Event.da_free,
        Event.prim_destroy Prim.update_event, Event.prim_destroy Prim.stop_event,
        Event.prim_destroy Prim.data_mutex, Event.prim_destroy Prim.input_mutex,
        Event.bfree] := by
  decide

/-! ## Converter construction -/

theorem input_init_same (env : ConnectEnv) (input : video_input) (video : video_output)
    (h : ¬ (input.conversion.width ≠ video.info.width ∨
      input.conversion.height ≠ video.info.height ∨
      input.conversion.format ≠ video.info.format)) :
    video_input_init env input video = { success := true, input := input, events := [] } := by
  unfold video_input_init
  rw [if_neg h]

theorem input_init_fail (env : ConnectEnv) (input : video_input) (video : video_output)
    (h : input.conversion.width ≠ video.info.width ∨
      input.conversion.height ≠ video.info.height ∨
      input.conversion.format ≠ video.info.format)
    (hret : (env.video_scaler_create input.conversion
      { format := video.info.format, width := video.info.width,
        height := video.info.height }).1 ≠ ScalerCode.VIDEO_SCALER_SUCCESS) :
    (video_input_init env input video).success = false := by
  unfold video_input_init
  rw [if_pos h]
  dsimp only
  rw [if_pos hret]

theorem input_init_ok (env : ConnectEnv) (input : video_input) (video : video_output)
    (h : input.conversion.width ≠ video.info.width ∨
      input.conversion.height ≠ video.info.height ∨
      input.conversion.format ≠ video.info.format)
    (hret : (env.video_scaler_create input.conversion
      { format := video.info.format, width := video.info.width,
        height := video.info.height }).1 = ScalerCode.VIDEO_SCALER_SUCCESS) :
    video_input_init env input video =
      { success := true
        input :=
          { input with
            scaler := (env.video_scaler_create input.conversion
              { format := video.info.format, width := video.info.width,
                height := video.info.height }).2
            frame := (List.range MAX_CONVERT_BUFFERS).map (fun i =>
              env.video_frame_init i input.conversion.format input.conversion.width
                input.conversion.height) }
        events :=
          Event.video_scaler_create input.conversion
              { format := video.info.format, width := video.info.width,
                height := video.info.height }
              (env.video_scaler_create input.conversion
                { format := video.info.format, width := video.info.width,
                  height := video.info.height }).1
              (env.video_scaler_create input.conversion
                { format := video.info.format, width := video.info.width,
                  height := video.info.height }).2 ::
            (List.range MAX_CONVERT_BUFFERS).map (fun i =>
              Event.video_frame_init i input.conversion.format input.conversion.width
                input.conversion.height) } := by
  unfold video_input_init
  rw [if_pos h]
  dsimp only
  rw [if_neg (by simp [hret])]

theorem connect_input_fresh (K : Nat) (video : video_output)
    (conversion : Option video_scale_info) (callback param : Nat) :
    (connect_input K video conversion callback param).scaler = 0 ∧
      (connect_input K video conversion callback param).cur_frame = 0 ∧
      (connect_input K video conversion callback param).frame =
        List.replicate MAX_CONVERT_BUFFERS (video_frame.zero K) := by
  unfold connect_input
  dsimp only
  cases conversion <;> (split <;> split <;> simp)

theorem connect_success_cases (K : Nat) (env : ConnectEnv) (video : video_output)
    (conversion : Option video_scale_info) (callback param : Nat)
    (hok : (video_output_connect K env video conversion callback param).success = true) :
    video_get_input_idx video callback param = none ∧
      (video_input_init env (connect_input K video conversion callback param)
        video).success = true ∧
      video_output_connect K env video conversion callback param =
        { success := true
          video :=
            { video with
              inputs := video.inputs ++
                [(video_input_init env (connect_input K video conversion callback param)
                  video).input] }
          events :=
            (video_input_init env (connect_input K video conversion callback param)
              video).events } := by
  by_cases h : video_get_input_idx video callback param = none
  · cases hs : (video_input_init env (connect_input K video conversion callback param)
        video).success
    · rw [connect_new_fail K env video conversion callback param h hs] at hok
      simp at hok
    · exact ⟨h, rfl, connect_new_ok K env video conversion callback param h hs⟩
  · rw [connect_dup K env video conversion callback param h] at hok
    simp at hok

/-- C11: provided `video_scaler_create` hands back a non-null scaler whenever
it reports `VIDEO_SCALER_SUCCESS`, the record appended by a successful
`video_output_connect` has a converter if and only if its (resolved) target
spec differs from the stream's in format, width or height.  With a converter,
its pool is the three buffers `video_frame_init` built for the target spec (one
call per slot).  Without one, connect made no outside call, the pool index is 0,
and `scale_video_output` on the record converts nothing, reports success and
leaves the record (pool index included) and the frame as they are. -/
theorem connect_converter_iff (MAX_AV_PLANES : Nat) (env : ConnectEnv) (video : video_output)
    (conversion : Option video_scale_info) (callback param : Nat)
    (hcontract : ∀ c s, (env.video_scaler_create c s).1 = ScalerCode.VIDEO_SCALER_SUCCESS →
      (env.video_scaler_create c s).2 ≠ 0)
    (hok : (video_output_connect MAX_AV_PLANES env video conversion callback param).success
      = true) :
    ∃ input : video_input,
      (video_output_connect MAX_AV_PLANES env video conversion callback param).video.inputs
        = video.inputs ++ [input] ∧
      (input.scaler ≠ 0 ↔
        (input.conversion.format ≠ video.info.format ∨
          input.conversion.width ≠ video.info.width ∨
          input.conversion.height ≠ video.info.height)) ∧
      (input.scaler ≠ 0 →
        input.frame = (List.range MAX_CONVERT_BUFFERS).map (fun i =>
          env.video_frame_init i input.conversion.format input.conversion.width
            input.conversion.height) ∧
        input.frame.length = 3 ∧
        ∀ i, i < MAX_CONVERT_BUFFERS →
          Event.video_frame_init i input.conversion.format input.conversion.width
            input.conversion.height ∈
          (video_output_connect MAX_AV_PLANES env video conversion callback param).events) ∧
      (input.scaler = 0 →
        (video_output_connect MAX_AV_PLANES env video conversion callback param).events = [] ∧
        input.cur_frame = 0 ∧
        ∀ (scale : ScaleOracle) (data : video_data),
          scale_video_output MAX_AV_PLANES scale input data =
            { success := true, input := input, data := data, events := [] }) := by
  obtain ⟨_, hs, heq⟩ := connect_success_cases MAX_AV_PLANES env video conversion callback
    param hok
  have hfresh := connect_input_fresh MAX_AV_PLANES video conversion callback param
  rw [heq]
  by_cases hd : (connect_input MAX_AV_PLANES video conversion callback param).conversion.width
      ≠ video.info.width ∨
      (connect_input MAX_AV_PLANES video conversion callback param).conversion.height
      ≠ video.info.height ∨
      (connect_input MAX_AV_PLANES video conversion callback param).conversion.format
      ≠ video.info.format
  · have hret : (env.video_scaler_create
        (connect_input MAX_AV_PLANES video conversion callback param).conversion
        { format := video.info.format, width := video.info.width,
          height := video.info.height }).1 = ScalerCode.VIDEO_SCALER_SUCCESS := by
      by_contra hne
      rw [input_init_fail env _ video hd hne] at hs
      simp at hs
    have hnz := hcontract _ _ hret
    rw [input_init_ok env _ video hd hret]
    refine ⟨_, rfl, ?_, ?_, ?_⟩
    · simp only
      constructor
      · intro _
        rcases hd with h | h | h
        · exact Or.inr (Or.inl h)
        · exact Or.inr (Or.inr h)
        · exact Or.inl h
      · intro _; exact hnz
    · intro _
      refine ⟨rfl, by simp [MAX_CONVERT_BUFFERS], ?_⟩
      intro i hi
      exact List.mem_cons_of_mem _ (List.mem_map.2 ⟨i, List.mem_range.2 hi, rfl⟩)
    · intro h0
      exact absurd h0 hnz
  · rw [input_init_same env _ video hd]
    refine ⟨_, rfl, ?_, ?_, ?_⟩
    · simp only [hfresh.1]
      constructor
      · intro h; exact absurd rfl h
      · intro h
        exfalso
        apply hd
        rcases h with h | h | h
        · exact Or.inr (Or.inr h)
        · exact Or.inl h
        · exact Or.inr (Or.inl h)
    · intro h
      exact absurd hfresh.1 h
    · intro h0
      refine ⟨rfl, hfresh.2.1, ?_⟩
      intro scale data
      unfold scale_video_output
      rw [if_neg (by simp [hfresh.1])]

/-- C11, on the sample stream: a 320x240 request is registered with the
converter 7320 and a pool of three buffers; a request with no spec is
registered without a converter and without any outside call. -/
theorem connect_converter_iff_witness :
    (∃ input : video_input,
      (video_output_connect 8 sample_env sample_stream (some ⟨1, 320, 240⟩) 10 11).video.inputs
        = sample_stream.inputs ++ [input] ∧
      input.scaler ≠ 0 ∧ input.frame.length = 3) ∧
    (∃ input : video_input,
      (video_output_connect 8 sample_env sample_stream none 20 21).video.inputs
        = sample_stream.inputs ++ [input] ∧
      input.scaler = 0 ∧
      (video_output_connect 8 sample_env sample_stream none 20 21).events = []) :=
  ⟨(connect_converter_iff 8 sample_env sample_stream (some ⟨1, 320, 240⟩) 10 11
      (fun _ _ _ => by simp [sample_env]) (by decide)).imp
      (fun input h =>
        have hnz : input.scaler ≠ 0 := h.2.1.2 (by
          have hin := h.1
          have : input = sample_half := by
            have hd : (video_output_connect 8 sample_env sample_stream (some ⟨1, 320, 240⟩)
              10 11).video.inputs = sample_stream.inputs ++ [sample_half] := by decide
            rw [hd] at hin
            simpa using hin.symm
          subst this
          decide)
        ⟨h.1, hnz, (h.2.2.1 hnz).2.1⟩),
    (connect_converter_iff 8 sample_env sample_stream none 20 21
      (fun _ _ _ => by simp [sample_env]) (by decide)).imp
      (fun input h =>
        have hz : input.scaler = 0 := by
          by_contra hne
          have hd := h.2.1.1 hne
          have hin := h.1
          have : input = sample_native := by
            have hd2 : (video_output_connect 8 sample_env sample_stream none
              20 21).video.inputs = sample_stream.inputs ++ [sample_native] := by decide
            rw [hd2] at hin
            simpa using hin.symm
          subst this
          revert hd
          decide
        ⟨h.1, hz, (h.2.2.2 hz).1⟩)⟩

/-- C12: for a new identity, if the resolved target spec differs from the
stream's and `video_scaler_create` returns anything but `VIDEO_SCALER_SUCCESS`,
`video_output_connect` returns `false` and leaves the stream (hence the table)
exactly as it was; if the spec does not differ (no construction) or the
creation returns `VIDEO_SCALER_SUCCESS`, it returns `true` and the table is the
old one followed by exactly one new entry carrying the identity. -/
theorem connect_construction (MAX_AV_PLANES : Nat) (env : ConnectEnv) (video : video_output)
    (conversion : Option video_scale_info) (callback param : Nat)
    (hnew : ∀ input ∈ video.inputs, ¬ (input.callback = callback ∧ input.param = param)) :
    (((connect_input MAX_AV_PLANES video conversion callback param).conversion.width
          ≠ video.info.width ∨
        (connect_input MAX_AV_PLANES video conversion callback param).conversion.height
          ≠ video.info.height ∨
        (connect_input MAX_AV_PLANES video conversion callback param).conversion.format
          ≠ video.info.format) →
      (env.video_scaler_create
        (connect_input MAX_AV_PLANES video conversion callback param).conversion
        { format := video.info.format, width := video.info.width,
          height := video.info.height }).1 ≠ ScalerCode.VIDEO_SCALER_SUCCESS →
      (video_output_connect MAX_AV_PLANES env video conversion callback param).success = false ∧
      (video_output_connect MAX_AV_PLANES env video conversion callback param).video = video) ∧
    ((¬ ((connect_input MAX_AV_PLANES video conversion callback param).conversion.width
          ≠ video.info.width ∨
        (connect_input MAX_AV_PLANES video conversion callback param).conversion.height
          ≠ video.info.height ∨
        (connect_input MAX_AV_PLANES video conversion callback param).conversion.format
          ≠ video.info.format) ∨
      (env.video_scaler_create
        (connect_input MAX_AV_PLANES video conversion callback param).conversion
        { format := video.info.format, width := video.info.width,
          height := video.info.height }).1 = ScalerCode.VIDEO_SCALER_SUCCESS) →
      (video_output_connect MAX_AV_PLANES env video conversion callback param).success = true ∧
      ∃ input : video_input,
        (video_output_connect MAX_AV_PLANES env video conversion callback param).video.inputs
          = video.inputs ++ [input] ∧
        input.callback = callback ∧ input.param = param ∧
        (video_output_connect MAX_AV_PLANES env video conversion
          callback param).video.inputs.length = video.inputs.length + 1) := by
  have hidx : video_get_input_idx video callback param = none :=
    (input_idx_eq_none_iff callback param video.inputs).2 hnew
  have hk := input_init_keeps env
    (connect_input MAX_AV_PLANES video conversion callback param) video
  have hid := connect_input_identity MAX_AV_PLANES video conversion callback param
  have hgrow : (video_input_init env
      (connect_input MAX_AV_PLANES video conversion callback param) video).success = true →
      (video_output_connect MAX_AV_PLANES env video conversion callback param).success = true ∧
      ∃ input : video_input,
        (video_output_connect MAX_AV_PLANES env video conversion callback param).video.inputs
          = video.inputs ++ [input] ∧
        input.callback = callback ∧ input.param = param ∧
        (video_output_connect MAX_AV_PLANES env video conversion
          callback param).video.inputs.length = video.inputs.length + 1 := by
    intro hs
    rw [connect_new_ok MAX_AV_PLANES env video conversion callback param hidx hs]
    exact ⟨rfl, _, rfl, by rw [hk.2.1, hid.1], by rw [hk.2.2, hid.2], by simp⟩
  constructor
  · intro hd hret
    have hs := input_init_fail env _ video hd hret
    rw [connect_new_fail MAX_AV_PLANES env video conversion callback param hidx hs]
    exact ⟨rfl, rfl⟩
  · intro h
    apply hgrow
    by_cases hd : (connect_input MAX_AV_PLANES video conversion callback param).conversion.width
        ≠ video.info.width ∨
        (connect_input MAX_AV_PLANES video conversion callback param).conversion.height
        ≠ video.info.height ∨
        (connect_input MAX_AV_PLANES video conversion callback param).conversion.format
        ≠ video.info.format
    · rcases h with h | h
      · exact absurd hd h
      · rw [input_init_ok env _ video hd h]
    · rw [input_init_same env _ video hd]

/-- C12, on the sample stream: with a scaler creation that reports a bad
conversion a 320x240 request is refused and the stream is unchanged; in
`sample_env` the same request is accepted and the table grows by one. -/
theorem connect_construction_witness :
    ((video_output_connect 8
        { video_scaler_create := fun _ _ => (ScalerCode.VIDEO_SCALER_BAD_CONVERSION, 0)
          video_frame_init := sample_env.video_frame_init }
        sample_stream (some ⟨1, 320, 240⟩) 10 11).success = false ∧
      (video_output_connect 8
        { video_scaler_create := fun _ _ => (ScalerCode.VIDEO_SCALER_BAD_CONVERSION, 0)
          video_frame_init := sample_env.video_frame_init }
        sample_stream (some ⟨1, 320, 240⟩) 10 11).video = sample_stream) ∧
    ((video_output_connect 8 sample_env sample_stream (some ⟨1, 320, 240⟩) 10 11).success
        = true ∧
      ∃ input : video_input,
        (video_output_connect 8 sample_env sample_stream (some ⟨1, 320, 240⟩)
          10 11).video.inputs = sample_stream.inputs ++ [input] ∧
        input.callback = 10 ∧ input.param = 11 ∧
        (video_output_connect 8 sample_env sample_stream (some ⟨1, 320, 240⟩)
          10 11).video.inputs.length = sample_stream.inputs.length + 1) :=
  ⟨(connect_construction 8
      { video_scaler_create := fun _ _ => (ScalerCode.VIDEO_SCALER_BAD_CONVERSION, 0)
        video_frame_init := sample_env.video_frame_init }
      sample_stream (some ⟨1, 320, 240⟩) 10 11 (by decide)).1 (by decide) (by decide),
    (connect_construction 8 sample_env sample_stream (some ⟨1, 320, 240⟩) 10 11
      (by decide)).2 (Or.inr (by decide))⟩

/-! ## Dispatch order -/

theorem callback_order_append (a b : List Event) :
    callback_order (a ++ b) = callback_order a ++ callback_order b := by
  induction a with
  | nil => rfl
  | cons e es ih => cases e <;> simp [callback_order, ih]

theorem scale_events_order (K : Nat) (scale : ScaleOracle) (input : video_input)
    (data : video_data) :
    callback_order (scale_video_output K scale input data).events = [] := by
  unfold scale_video_output
  split <;> simp [callback_order]

theorem dispatch_loop_cons_order (K : Nat) (scale : ScaleOracle) (x : video_input)
    (xs : List video_input) (cur : video_data) :
    callback_order (dispatch_loop K scale (x :: xs) cur).events =
      (if (scale_video_output K scale x cur).success then [(x.callback, x.param)] else []) ++
        callback_order
          (dispatch_loop K scale xs (scale_video_output K scale x cur).data).events := by
  have hk := scale_keeps_identity K scale x cur
  have h0 := scale_events_order K scale x cur
  simp only [dispatch_loop, callback_order_append]
  split
  · simp [callback_order_append, h0, callback_order, hk.1, hk.2.1]
  · simp [h0]

theorem dispatch_loop_order_sublist (K : Nat) (scale : ScaleOracle) (l : List video_input) :
    ∀ cur : video_data,
      (callback_order (dispatch_loop K scale l cur).events).Sublist
        (l.map (fun i => (i.callback, i.param))) := by
  induction l with
  | nil => intro cur; simp [dispatch_loop, callback_order]
  | cons x xs ih =>
    intro cur
    rw [dispatch_loop_cons_order, List.map_cons]
    split
    · exact List.Sublist.cons₂ _ (ih _)
    · exact List.Sublist.cons _ (ih _)

theorem cur_frame_order_sublist (K : Nat) (scale : ScaleOracle) (video : video_output) :
    (callback_order (video_output_cur_frame K scale video).2).Sublist
      (video.inputs.map (fun i => (i.callback, i.param))) := by
  unfold video_output_cur_frame
  split
  · simp [callback_order]
  · exact dispatch_loop_order_sublist K scale video.inputs video.cur_frame

theorem dispatch_loop_order_mem (K : Nat) (scale : ScaleOracle) (l : List video_input)
    (cur : video_data) (x : Nat × Nat)
    (hx : x ∈ callback_order (dispatch_loop K scale l cur).events) :
    ∃ i ∈ l, (i.callback, i.param) = x := by
  have := (dispatch_loop_order_sublist K scale l cur).subset hx
  obtain ⟨i, hi, heq⟩ := List.mem_map.1 this
  exact ⟨i, hi, heq⟩

theorem disconnect_sublist (video : video_output) (callback param : Nat) :
    (video_output_disconnect video callback param).1.inputs.Sublist video.inputs := by
  cases hidx : input_idx callback param video.inputs with
  | none =>
    have : video_output_disconnect video callback param = (video, []) := by
      simp [video_output_disconnect, video_get_input_idx, hidx]
    rw [this]
  | some n =>
    have : (video_output_disconnect video callback param).1.inputs
        = video.inputs.eraseIdx n := by
      simp [video_output_disconnect, video_get_input_idx, hidx]
    rw [this]
    exact List.eraseIdx_sublist _ _

theorem order_two (t1 t2 t3 : List (Nat × Nat)) (ia ib : Nat × Nat) (sa sb : Bool)
    (h1 : ia ∉ t1) (h2 : ia ∉ t2) (h3 : ia ∉ t3) (h4 : ib ∉ t1) (h5 : ib ∉ t2)
    (h6 : ib ∉ t3) (hne : ib ≠ ia)
    (ha : ia ∈ t1 ++ ((if sa = true then [ia] else []) ++
      (t2 ++ ((if sb = true then [ib] else []) ++ t3))))
    (hb : ib ∈ t1 ++ ((if sa = true then [ia] else []) ++
      (t2 ++ ((if sb = true then [ib] else []) ++ t3)))) :
    t1 ++ ((if sa = true then [ia] else []) ++
      (t2 ++ ((if sb = true then [ib] else []) ++ t3))) =
      t1 ++ ia :: (t2 ++ ib :: t3) := by
  cases sa <;> cases sb <;> simp_all [Ne.symm hne]

theorem dispatch_loop_two (K : Nat) (scale : ScaleOracle)
    (pre mid post : List video_input) (a b : video_input) (cur : video_data)
    (huniq : ((pre ++ a :: (mid ++ b :: post)).map (fun i => (i.callback, i.param))).Nodup)
    (ha : (a.callback, a.param) ∈
      callback_order (dispatch_loop K scale (pre ++ a :: (mid ++ b :: post)) cur).events)
    (hb : (b.callback, b.param) ∈
      callback_order (dispatch_loop K scale (pre ++ a :: (mid ++ b :: post)) cur).events) :
    ∃ t1 t2 t3,
      callback_order (dispatch_loop K scale (pre ++ a :: (mid ++ b :: post)) cur).events =
        t1 ++ (a.callback, a.param) :: (t2 ++ (b.callback, b.param) :: t3) := by
  obtain ⟨hpre_a, hrest_a⟩ := nodup_split pre (mid ++ b :: post) a huniq
  have huniq2 : (((pre ++ a :: mid) ++ b :: post).map
      (fun i => (i.callback, i.param))).Nodup := by
    simpa using huniq
  obtain ⟨hfront_b, hpost_b⟩ := nodup_split (pre ++ a :: mid) post b huniq2
  have hform : callback_order
      (dispatch_loop K scale (pre ++ a :: (mid ++ b :: post)) cur).events =
      callback_order (dispatch_loop K scale pre cur).events ++
        ((if (scale_video_output K scale a (dispatch_loop K scale pre cur).cur).success
            then [(a.callback, a.param)] else []) ++
          (callback_order (dispatch_loop K scale mid
              (scale_video_output K scale a (dispatch_loop K scale pre cur).cur).data).events ++
            ((if (scale_video_output K scale b (dispatch_loop K scale mid
                (scale_video_output K scale a
                  (dispatch_loop K scale pre cur).cur).data).cur).success
              then [(b.callback, b.param)] else []) ++
              callback_order (dispatch_loop K scale post
                (scale_video_output K scale b (dispatch_loop K scale mid
                  (scale_video_output K scale a
                    (dispatch_loop K scale pre cur).cur).data).cur).data).events))) := by
    rw [dispatch_loop_append]
    simp only [callback_order_append]
    rw [dispatch_loop_cons_order, dispatch_loop_append]
    simp only [callback_order_append]
    rw [dispatch_loop_cons_order]
  rw [hform] at ha hb ⊢
  have hne : (b.callback, b.param) ≠ (a.callback, a.param) :=
    hrest_a b (by simp)
  have h1 : (a.callback, a.param) ∉ callback_order (dispatch_loop K scale pre cur).events := by
    intro h
    obtain ⟨i, hi, heq⟩ := dispatch_loop_order_mem K scale pre _ _ h
    exact hpre_a i hi heq
  have h4 : (b.callback, b.param) ∉ callback_order (dispatch_loop K scale pre cur).events := by
    intro h
    obtain ⟨i, hi, heq⟩ := dispatch_loop_order_mem K scale pre _ _ h
    exact hfront_b i (by simp [hi]) heq
  have h2 : ∀ c, (a.callback, a.param) ∉
      callback_order (dispatch_loop K scale mid c).events := by
    intro c h
    obtain ⟨i, hi, heq⟩ := dispatch_loop_order_mem K scale mid _ _ h
    exact hrest_a i (by simp [hi]) heq
  have h5 : ∀ c, (b.callback, b.param) ∉
      callback_order (dispatch_loop K scale mid c).events := by
    intro c h
    obtain ⟨i, hi, heq⟩ := dispatch_loop_order_mem K scale mid _ _ h
    exact hfront_b i (by simp [hi]) heq
  have h3 : ∀ c, (a.callback, a.param) ∉
      callback_order (dispatch_loop K scale post c).events := by
    intro c h
    obtain ⟨i, hi, heq⟩ := dispatch_loop_order_mem K scale post _ _ h
    exact hrest_a i (by simp [hi]) heq
  have h6 : ∀ c, (b.callback, b.param) ∉
      callback_order (dispatch_loop K scale post c).events := by
    intro c h
    obtain ⟨i, hi, heq⟩ := dispatch_loop_order_mem K scale post _ _ h
    exact hpost_b i hi heq
  exact ⟨_, _, _, order_two _ _ _ _ _ _ _ h1 (h2 _) (h3 _) h4 (h5 _) (h6 _) hne ha hb⟩

/-- C13: a successful connect appends the new consumer after all existing
ones; disconnect leaves a sublist of the table (the remaining consumers, in
their order); the callbacks of a dispatch are invoked in table order (their
identities form a sublist of the table's identities), so that, identities
being unique, every consumer is called at most once and of two consumers that
are both called the one earlier in the table is called first. -/
theorem dispatch_in_registration_order (MAX_AV_PLANES : Nat) (video : video_output) :
    (∀ (env : ConnectEnv) (conversion : Option video_scale_info) (callback param : Nat),
      (video_output_connect MAX_AV_PLANES env video conversion callback param).success
        = true →
      ∃ input : video_input,
        (video_output_connect MAX_AV_PLANES env video conversion callback param).video.inputs
          = video.inputs ++ [input] ∧
        input.callback = callback ∧ input.param = param) ∧
    (∀ callback param : Nat,
      (video_output_disconnect video callback param).1.inputs.Sublist video.inputs) ∧
    (∀ scale : ScaleOracle,
      (callback_order (video_output_cur_frame MAX_AV_PLANES scale video).2).Sublist
        (video.inputs.map (fun i => (i.callback, i.param)))) ∧
    ((video.inputs.map (fun i => (i.callback, i.param))).Nodup →
      ∀ scale : ScaleOracle,
        (callback_order (video_output_cur_frame MAX_AV_PLANES scale video).2).Nodup ∧
        ∀ (pre mid post : List video_input) (a b : video_input),
          video.inputs = pre ++ a :: (mid ++ b :: post) →
          (a.callback, a.param) ∈
            callback_order (video_output_cur_frame MAX_AV_PLANES scale video).2 →
          (b.callback, b.param) ∈
            callback_order (video_output_cur_frame MAX_AV_PLANES scale video).2 →
          ∃ t1 t2 t3,
            callback_order (video_output_cur_frame MAX_AV_PLANES scale video).2 =
              t1 ++ (a.callback, a.param) :: (t2 ++ (b.callback, b.param) :: t3)) := by
  refine ⟨?_, ?_, ?_, ?_⟩
  · intro env conversion callback param hok
    obtain ⟨_, _, heq⟩ := connect_success_cases MAX_AV_PLANES env video conversion callback
      param hok
    have hk := input_init_keeps env
      (connect_input MAX_AV_PLANES video conversion callback param) video
    have hid := connect_input_identity MAX_AV_PLANES video conversion callback param
    rw [heq]
    exact ⟨_, rfl, by rw [hk.2.1, hid.1], by rw [hk.2.2, hid.2]⟩
  · exact disconnect_sublist video
  · intro scale
    exact cur_frame_order_sublist MAX_AV_PLANES scale video
  · intro huniq scale
    refine ⟨List.Nodup.sublist (cur_frame_order_sublist MAX_AV_PLANES scale video) huniq, ?_⟩
    intro pre mid post a b hin ha hb
    by_cases hnull : video.cur_frame.data.getD 0 0 = 0
    · have : video_output_cur_frame MAX_AV_PLANES scale video = (video, []) := by
        rw [video_output_cur_frame, if_pos hnull]
      rw [this] at ha
      simp [callback_order] at ha
    · rw [cur_frame_dispatches MAX_AV_PLANES scale video hnull] at ha hb ⊢
      simp only at ha hb ⊢
      rw [hin] at huniq ha hb ⊢
      exact dispatch_loop_two MAX_AV_PLANES scale pre mid post a b video.cur_frame huniq ha hb

/-- C13, on the sample table: connecting `(40, 41)` appends it; disconnecting
`(10, 11)` leaves the other two in order; with every conversion succeeding the
callbacks of a dispatch come in the order `(20, 21)`, `(10, 11)`, `(30, 31)`,
and the callback of `(20, 21)` precedes that of `(30, 31)`. -/
theorem dispatch_in_registration_order_witness :
    (∃ input : video_input,
      (video_output_connect 8 sample_env sample_staged none 40 41).video.inputs
        = sample_staged.inputs ++ [input] ∧
      input.callback = 40 ∧ input.param = 41) ∧
    (video_output_disconnect sample_staged 10 11).1.inputs.Sublist sample_staged.inputs ∧
    (callback_order (video_output_cur_frame 8 scale_ok sample_staged).2).Sublist
      [(20, 21), (10, 11), (30, 31)] ∧
    ∃ t1 t2 t3,
      callback_order (video_output_cur_frame 8 scale_ok sample_staged).2 =
        t1 ++ (20, 21) :: (t2 ++ (30, 31) :: t3) :=
  ⟨(dispatch_in_registration_order 8 sample_staged).1 sample_env none 40 41 (by decide),
    (dispatch_in_registration_order 8 sample_staged).2.1 10 11,
    (dispatch_in_registration_order 8 sample_staged).2.2.1 scale_ok,
    ((dispatch_in_registration_order 8 sample_staged).2.2.2 (by decide) scale_ok).2
      [] [sample_half] [] sample_native sample_quarter (by decide) (by decide) (by decide)⟩

/-! ## A consumer's pool across operations -/

theorem next_slot_lt (input : video_input) : next_slot input < MAX_CONVERT_BUFFERS ∨
    MAX_CONVERT_BUFFERS ≤ input.cur_frame := by
  unfold next_slot MAX_CONVERT_BUFFERS
  split <;> omega

theorem scale_keeps_pool (K : Nat) (scale : ScaleOracle) (input : video_input)
    (data : video_data) (h : input.cur_frame < MAX_CONVERT_BUFFERS) :
    (scale_video_output K scale input data).input.frame = input.frame ∧
      (scale_video_output K scale input data).input.cur_frame < MAX_CONVERT_BUFFERS := by
  unfold scale_video_output
  split
  · refine ⟨rfl, ?_⟩
    simp only
    rcases next_slot_lt input with h1 | h1
    · exact h1
    · omega
  · exact ⟨rfl, h⟩

theorem dispatch_loop_pooled (K : Nat) (scale : ScaleOracle) (cb p s : Nat)
    (frames : List video_frame) (l : List video_input) :
    ∀ cur : video_data,
      (∃ c ∈ l, c.callback = cb ∧ c.param = p ∧ c.scaler = s ∧ c.frame = frames ∧
        c.cur_frame < MAX_CONVERT_BUFFERS) →
      ∃ c ∈ (dispatch_loop K scale l cur).inputs, c.callback = cb ∧ c.param = p ∧
        c.scaler = s ∧ c.frame = frames ∧ c.cur_frame < MAX_CONVERT_BUFFERS := by
  induction l with
  | nil => intro cur h; simp at h
  | cons x xs ih =>
    intro cur h
    obtain ⟨c, hc, h1, h2, h3, h4, h5⟩ := h
    rcases List.mem_cons.1 hc with rfl | hmem
    · have hk := scale_keeps_identity K scale c cur
      have hp := scale_keeps_pool K scale c cur h5
      exact ⟨(scale_video_output K scale c cur).input, by simp [dispatch_loop],
        by rw [hk.1, h1], by rw [hk.2.1, h2], by rw [hk.2.2, h3], by rw [hp.1, h4], hp.2⟩
    · obtain ⟨c', hc', hrest⟩ := ih (scale_video_output K scale x cur).data
        ⟨c, hmem, h1, h2, h3, h4, h5⟩
      exact ⟨c', by simp only [dispatch_loop]; exact List.mem_cons_of_mem _ hc', hrest⟩

theorem step_pooled (K : Nat) (cb p s : Nat) (frames : List video_frame)
    (video : video_output) (op : Op) (hop : op.isDisconnectOf cb p = false)
    (h : pooled cb p s frames video) : pooled cb p s frames (step K video op).1 := by
  obtain ⟨c, hc, h1, h2, h3, h4, h5⟩ := h
  cases op with
  | connect env conversion callback param =>
    simp only [step]
    by_cases hi : video_get_input_idx video callback param = none
    · cases hs : (video_input_init env (connect_input K video conversion callback param)
          video).success
      · rw [connect_new_fail K env video conversion callback param hi hs]
        exact ⟨c, hc, h1, h2, h3, h4, h5⟩
      · rw [connect_new_ok K env video conversion callback param hi hs]
        exact ⟨c, List.mem_append_left _ hc, h1, h2, h3, h4, h5⟩
    · rw [connect_dup K env video conversion callback param hi]
      exact ⟨c, hc, h1, h2, h3, h4, h5⟩
  | disconnect callback param =>
    simp only [step]
    have hne : ¬ (callback = cb ∧ param = p) := by
      simpa [Op.isDisconnectOf] using hop
    cases hidx : input_idx callback param video.inputs with
    | none =>
      have : video_output_disconnect video callback param = (video, []) := by
        simp [video_output_disconnect, video_get_input_idx, hidx]
      rw [this]
      exact ⟨c, hc, h1, h2, h3, h4, h5⟩
    | some n =>
      obtain ⟨pre, c0, post, hl, hc1, hc2, _, her, _⟩ :=
        input_idx_some_split callback param video.inputs n hidx
      have hin : (video_output_disconnect video callback param).1.inputs = pre ++ post := by
        simp [video_output_disconnect, video_get_input_idx, hidx, her]
      refine ⟨c, ?_, h1, h2, h3, h4, h5⟩
      rw [hin]
      rw [hl] at hc
      rcases List.mem_append.1 hc with hm | hm
      · exact List.mem_append_left _ hm
      · rcases List.mem_cons.1 hm with rfl | hm
        · exact absurd ⟨by rw [← hc1, h1], by rw [← hc2, h2]⟩ hne
        · exact List.mem_append_right _ hm
  | submit frame => exact ⟨c, hc, h1, h2, h3, h4, h5⟩
  | tick scale =>
    simp only [step, video_tick]
    have hswap : (video_swapframes video).inputs = video.inputs := by
      unfold video_swapframes
      split <;> rfl
    unfold video_output_cur_frame
    split
    · exact ⟨c, by rw [hswap]; exact hc, h1, h2, h3, h4, h5⟩
    · simp only [pooled]
      apply dispatch_loop_pooled
      rw [hswap]
      exact ⟨c, hc, h1, h2, h3, h4, h5⟩

theorem run_pooled (K : Nat) (cb p s : Nat) (frames : List video_frame) (ops : List Op) :
    ∀ video : video_output, (∀ op ∈ ops, op.isDisconnectOf cb p = false) →
      pooled cb p s frames video → pooled cb p s frames (run K video ops).1 := by
  induction ops with
  | nil => intro video _ h; exact h
  | cons op ops ih =>
    intro video hops h
    simp only [run]
    exact ih _ (fun o ho => hops o (List.mem_cons_of_mem _ ho))
      (step_pooled K cb p s frames video op (hops op (List.mem_cons_self _ _)) h)

theorem copy_planes_take (K : Nat) (dst src : List Nat) (h : src.length = K) :
    (copy_planes K dst src).take K = src := by
  unfold copy_planes
  rw [List.take_of_length_le (le_of_eq h)]
  rw [← h, List.take_left']
  rfl

theorem dispatch_loop_delivers (K : Nat) (scale : ScaleOracle) (pre post : List video_input)
    (c : video_input) (cur : video_data) (hs : c.scaler ≠ 0)
    (hok : scale c.scaler (next_buffer c).data (next_buffer c).linesize
      (dispatch_loop K scale pre cur).cur.data
      (dispatch_loop K scale pre cur).cur.linesize = true) :
    Event.callback c.callback c.param
        { (dispatch_loop K scale pre cur).cur with
          data := copy_planes K (dispatch_loop K scale pre cur).cur.data (next_buffer c).data
          linesize := copy_planes K (dispatch_loop K scale pre cur).cur.linesize
            (next_buffer c).linesize } ∈
      (dispatch_loop K scale (pre ++ c :: post) cur).events := by
  rw [dispatch_loop_append]
  simp only [dispatch_loop, List.mem_append]
  right; left
  have : scale_video_output K scale c (dispatch_loop K scale pre cur).cur =
      { success := true
        input := { c with cur_frame := next_slot c }
        data :=
          { (dispatch_loop K scale pre cur).cur with
            data := copy_planes K (dispatch_loop K scale pre cur).cur.data (next_buffer c).data
            linesize := copy_planes K (dispatch_loop K scale pre cur).cur.linesize
              (next_buffer c).linesize }
        events := [Event.video_scaler_scale c.scaler (next_buffer c)
          (dispatch_loop K scale pre cur).cur.data
          (dispatch_loop K scale pre cur).cur.linesize true] } := by
    simp [scale_video_output, hs, hok]
  rw [this]
  simp

/-! ## A half-size consumer -/

theorem half_target (K : Nat) (video : video_output) (callback param : Nat)
    (hw : 2 ≤ video.info.width) (hh : 2 ≤ video.info.height) :
    (connect_input K video
        (some { format := video.info.format, width := video.info.width / 2,
                height := video.info.height / 2 }) callback param).conversion =
      { format := video.info.format, width := video.info.width / 2,
        height := video.info.height / 2 } := by
  rw [connect_input_conversion]
  have h1 : video.info.width / 2 ≠ 0 := by omega
  have h2 : video.info.height / 2 ≠ 0 := by omega
  simp [h1, h2]

/-- C15 (as amended): on a stream of native width and height at least 2 with
unique identities, let a consumer connect successfully with target spec
(native format, width/2, height/2), `video_scaler_create` handing back a
non-null scaler on success and `video_frame_init` buffers of `MAX_AV_PLANES`
planes.  Then the appended record has a converter, the halved target spec, and
a pool of the three buffers `video_frame_init` built for width/2 x height/2.
After any further operations that do not disconnect it, it is still
registered with that converter, and every tick that dispatches a frame with
image data and on which its conversion succeeds calls it back with the planes
and strides of one of those three pool buffers. -/
theorem half_size_consumer (MAX_AV_PLANES : Nat) (env : ConnectEnv) (video : video_output)
    (callback param : Nat) (ops : List Op) (scale : ScaleOracle)
    (hw : 2 ≤ video.info.width) (hh : 2 ≤ video.info.height)
    (huniq : (video.inputs.map (fun i => (i.callback, i.param))).Nodup)
    (hcontract : ∀ c s, (env.video_scaler_create c s).1 = ScalerCode.VIDEO_SCALER_SUCCESS →
      (env.video_scaler_create c s).2 ≠ 0)
    (hplanes : ∀ slot f w h, (env.video_frame_init slot f w h).data.length = MAX_AV_PLANES ∧
      (env.video_frame_init slot f w h).linesize.length = MAX_AV_PLANES)
    (hok : (video_output_connect MAX_AV_PLANES env video
      (some { format := video.info.format, width := video.info.width / 2,
              height := video.info.height / 2 }) callback param).success = true)
    (hstay : ∀ op ∈ ops, op.isDisconnectOf callback param = false) :
    (∃ input : video_input,
      (video_output_connect MAX_AV_PLANES env video
        (some { format := video.info.format, width := video.info.width / 2,
                height := video.info.height / 2 }) callback param).video.inputs
        = video.inputs ++ [input] ∧
      input.callback = callback ∧ input.param = param ∧
      input.scaler ≠ 0 ∧
      input.conversion =
        { format := video.info.format, width := video.info.width / 2,
          height := video.info.height / 2 } ∧
      input.frame = (List.range MAX_CONVERT_BUFFERS).map (fun i =>
        env.video_frame_init i video.info.format (video.info.width / 2)
          (video.info.height / 2)) ∧
      ∀ i, i < MAX_CONVERT_BUFFERS →
        Event.video_frame_init i video.info.format (video.info.width / 2)
          (video.info.height / 2) ∈
        (video_output_connect MAX_AV_PLANES env video
          (some { format := video.info.format, width := video.info.width / 2,
                  height := video.info.height / 2 }) callback param).events) ∧
    (∃ c ∈ (run MAX_AV_PLANES (video_output_connect MAX_AV_PLANES env video
        (some { format := video.info.format, width := video.info.width / 2,
                height := video.info.height / 2 }) callback param).video ops).1.inputs,
      c.callback = callback ∧ c.param = param ∧ c.scaler ≠ 0) ∧
    (∀ (pre post : List video_input) (c : video_input),
      (video_swapframes (run MAX_AV_PLANES (video_output_connect MAX_AV_PLANES env video
        (some { format := video.info.format, width := video.info.width / 2,
                height := video.info.height / 2 }) callback param).video ops).1).inputs
        = pre ++ c :: post →
      c.callback = callback → c.param = param →
      (video_swapframes (run MAX_AV_PLANES (video_output_connect MAX_AV_PLANES env video
        (some { format := video.info.format, width := video.info.width / 2,
                height := video.info.height / 2 }) callback param).video
        ops).1).cur_frame.data.getD 0 0 ≠ 0 →
      scale c.scaler (next_buffer c).data (next_buffer c).linesize
        (dispatch_loop MAX_AV_PLANES scale pre
          (video_swapframes (run MAX_AV_PLANES (video_output_connect MAX_AV_PLANES env video
            (some { format := video.info.format, width := video.info.width / 2,
                    height := video.info.height / 2 }) callback param).video
            ops).1).cur_frame).cur.data
        (dispatch_loop MAX_AV_PLANES scale pre
          (video_swapframes (run MAX_AV_PLANES (video_output_connect MAX_AV_PLANES env video
            (some { format := video.info.format, width := video.info.width / 2,
                    height := video.info.height / 2 }) callback param).video
            ops).1).cur_frame).cur.linesize = true →
      ∃ (slot : Nat) (delivered : video_data),
        slot < MAX_CONVERT_BUFFERS ∧
        Event.callback callback param delivered ∈
          (video_tick MAX_AV_PLANES scale
            (run MAX_AV_PLANES (video_output_connect MAX_AV_PLANES env video
              (some { format := video.info.format, width := video.info.width / 2,
                      height := video.info.height / 2 }) callback param).video ops).1).2 ∧
        delivered.data.take MAX_AV_PLANES =
          (env.video_frame_init slot video.info.format (video.info.width / 2)
            (video.info.height / 2)).data ∧
        delivered.linesize.take MAX_AV_PLANES =
          (env.video_frame_init slot video.info.format (video.info.width / 2)
            (video.info.height / 2)).linesize) := by
  obtain ⟨_, hs, heq⟩ := connect_success_cases MAX_AV_PLANES env video _ callback param hok
  have htarget := half_target MAX_AV_PLANES video callback param hw hh
  have hid := connect_input_identity MAX_AV_PLANES video
    (some { format := video.info.format, width := video.info.width / 2,
            height := video.info.height / 2 }) callback param
  have hfresh := connect_input_fresh MAX_AV_PLANES video
    (some { format := video.info.format, width := video.info.width / 2,
            height := video.info.height / 2 }) callback param
  have hd : (connect_input MAX_AV_PLANES video
      (some { format := video.info.format, width := video.info.width / 2,
              height := video.info.height / 2 }) callback param).conversion.width
      ≠ video.info.width ∨
      (connect_input MAX_AV_PLANES video
      (some { format := video.info.format, width := video.info.width / 2,
              height := video.info.height / 2 }) callback param).conversion.height
      ≠ video.info.height ∨
      (connect_input MAX_AV_PLANES video
      (some { format := video.info.format, width := video.info.width / 2,
              height := video.info.height / 2 }) callback param).conversion.format
      ≠ video.info.format := by
    left
    rw [htarget]
    simp only
    omega
  have hret : (env.video_scaler_create
      (connect_input MAX_AV_PLANES video
        (some { format := video.info.format, width := video.info.width / 2,
                height := video.info.height / 2 }) callback param).conversion
      { format := video.info.format, width := video.info.width,
        height := video.info.height }).1 = ScalerCode.VIDEO_SCALER_SUCCESS := by
    by_contra hne
    rw [input_init_fail env _ video hd hne] at hs
    simp at hs
  have hnz := hcontract _ _ hret
  have hinit := input_init_ok env _ video hd hret
  have hvid : (video_output_connect MAX_AV_PLANES env video
      (some { format := video.info.format, width := video.info.width / 2,
              height := video.info.height / 2 }) callback param).video.inputs =
      video.inputs ++ [(video_input_init env (connect_input MAX_AV_PLANES video
        (some { format := video.info.format, width := video.info.width / 2,
                height := video.info.height / 2 }) callback param) video).input] := by
    rw [heq]
  have hev : (video_output_connect MAX_AV_PLANES env video
      (some { format := video.info.format, width := video.info.width / 2,
              height := video.info.height / 2 }) callback param).events =
      (video_input_init env (connect_input MAX_AV_PLANES video
        (some { format := video.info.format, width := video.info.width / 2,
                height := video.info.height / 2 }) callback param) video).events := by
    rw [heq]
  have hnodup := connect_nodup MAX_AV_PLANES env video
    (some { format := video.info.format, width := video.info.width / 2,
            height := video.info.height / 2 }) callback param huniq
  have hk := input_init_keeps env (connect_input MAX_AV_PLANES video
    (some { format := video.info.format, width := video.info.width / 2,
            height := video.info.height / 2 }) callback param) video
  have hscaler : (video_input_init env (connect_input MAX_AV_PLANES video
      (some { format := video.info.format, width := video.info.width / 2,
              height := video.info.height / 2 }) callback param) video).input.scaler ≠ 0 := by
    rw [hinit]; exact hnz
  have hframe : (video_input_init env (connect_input MAX_AV_PLANES video
      (some { format := video.info.format, width := video.info.width / 2,
              height := video.info.height / 2 }) callback param) video).input.frame =
      (List.range MAX_CONVERT_BUFFERS).map (fun i =>
        env.video_frame_init i video.info.format (video.info.width / 2)
          (video.info.height / 2)) := by
    rw [hinit]; simp only [htarget]
  have hcur : (video_input_init env (connect_input MAX_AV_PLANES video
      (some { format := video.info.format, width := video.info.width / 2,
              height := video.info.height / 2 }) callback param) video).input.cur_frame
      < MAX_CONVERT_BUFFERS := by
    rw [hinit]; simp only [hfresh.2.1]; decide
  have hevents : ∀ i, i < MAX_CONVERT_BUFFERS →
      Event.video_frame_init i video.info.format (video.info.width / 2)
        (video.info.height / 2) ∈
      (video_input_init env (connect_input MAX_AV_PLANES video
        (some { format := video.info.format, width := video.info.width / 2,
                height := video.info.height / 2 }) callback param) video).events := by
    intro i hi
    rw [hinit]; simp only [htarget]
    exact List.mem_cons_of_mem _ (List.mem_map.2 ⟨i, List.mem_range.2 hi, rfl⟩)
  rw [hev]
  generalize (video_input_init env (connect_input MAX_AV_PLANES video
      (some { format := video.info.format, width := video.info.width / 2,
              height := video.info.height / 2 }) callback param) video).input = input
    at hvid hk hscaler hframe hcur
  generalize (video_output_connect MAX_AV_PLANES env video
      (some { format := video.info.format, width := video.info.width / 2,
              height := video.info.height / 2 }) callback param).video = connected
    at hvid hnodup ⊢
  have hpool : pooled callback param input.scaler
      ((List.range MAX_CONVERT_BUFFERS).map (fun i =>
        env.video_frame_init i video.info.format (video.info.width / 2)
          (video.info.height / 2)))
      (run MAX_AV_PLANES connected ops).1 := by
    apply run_pooled MAX_AV_PLANES callback param _ _ ops _ hstay
    exact ⟨input, by rw [hvid]; simp, by rw [hk.2.1, hid.1], by rw [hk.2.2, hid.2], rfl,
      hframe, hcur⟩
  have hnodup_later := run_nodup MAX_AV_PLANES ops connected hnodup
  refine ⟨⟨input, hvid, by rw [hk.2.1, hid.1], by rw [hk.2.2, hid.2], hscaler,
    by rw [hk.1, htarget], hframe, hevents⟩, ?_, ?_⟩
  · obtain ⟨c, hc, h1, h2, h3, _, _⟩ := hpool
    exact ⟨c, hc, h1, h2, by rw [h3]; exact hscaler⟩
  · intro pre post c hin hcb hpar hdata hconv
    have hswap : ∀ v : video_output, (video_swapframes v).inputs = v.inputs := by
      intro v
      unfold video_swapframes
      split <;> rfl
    rw [hswap] at hin
    obtain ⟨c0, hc0, h1, h2, h3, h4, h5⟩ := hpool
    have hcmem : c ∈ (run MAX_AV_PLANES connected ops).1.inputs := by
      rw [hin]; simp
    have hcc : c = c0 :=
      List.inj_on_of_nodup_map hnodup_later hcmem hc0
        (show (c.callback, c.param) = (c0.callback, c0.param) by rw [hcb, hpar, h1, h2])
    subst hcc
    have hsnz : c.scaler ≠ 0 := by rw [h3]; exact hscaler
    have hslot : next_slot c < MAX_CONVERT_BUFFERS := by
      rcases next_slot_lt c with h | h
      · exact h
      · omega
    have hbuf : next_buffer c =
        env.video_frame_init (next_slot c) video.info.format (video.info.width / 2)
          (video.info.height / 2) := by
      unfold next_buffer
      rw [h4, List.getD_eq_getElem?_getD, List.getElem?_map,
        List.getElem?_range hslot]
      rfl
    have hdel := dispatch_loop_delivers MAX_AV_PLANES scale pre post c _ hsnz hconv
    refine ⟨next_slot c,
      { (dispatch_loop MAX_AV_PLANES scale pre
          (video_swapframes (run MAX_AV_PLANES connected ops).1).cur_frame).cur with
        data := copy_planes MAX_AV_PLANES
          (dispatch_loop MAX_AV_PLANES scale pre
            (video_swapframes (run MAX_AV_PLANES connected ops).1).cur_frame).cur.data
          (next_buffer c).data
        linesize := copy_planes MAX_AV_PLANES
          (dispatch_loop MAX_AV_PLANES scale pre
            (video_swapframes (run MAX_AV_PLANES connected ops).1).cur_frame).cur.linesize
          (next_buffer c).linesize }, hslot, ?_, ?_, ?_⟩
    · rw [video_tick, cur_frame_dispatches MAX_AV_PLANES scale _ hdata]
      simp only
      rw [hswap, hin, ← hcb, ← hpar]
      exact hdel
    · simp only
      rw [hbuf]
      exact copy_planes_take _ _ _ (hplanes _ _ _ _).1
    · simp only
      rw [hbuf]
      exact copy_planes_take _ _ _ (hplanes _ _ _ _).2

/-- C15 (as amended), on the sample stream (640x480): the consumer `(10, 11)`
connects with target 320x240; after a submit it is still registered with a
converter, and the tick with a succeeding conversion calls it back with the
planes and strides of one of its three 320x240 pool buffers. -/
theorem half_size_consumer_witness :
    (∃ c ∈ (run 8 (video_output_connect 8 sample_env sample_stream (some ⟨1, 320, 240⟩)
        10 11).video [Op.submit sample_frame]).1.inputs,
      c.callback = 10 ∧ c.param = 11 ∧ c.scaler ≠ 0) ∧
    ∃ (slot : Nat) (delivered : video_data),
      slot < MAX_CONVERT_BUFFERS ∧
      Event.callback 10 11 delivered ∈
        (video_tick 8 scale_ok
          (run 8 (video_output_connect 8 sample_env sample_stream (some ⟨1, 320, 240⟩)
            10 11).video [Op.submit sample_frame]).1).2 ∧
      delivered.data.take 8 = (sample_env.video_frame_init slot 1 320 240).data ∧
      delivered.linesize.take 8 = (sample_env.video_frame_init slot 1 320 240).linesize :=
  ⟨(half_size_consumer 8 sample_env sample_stream 10 11 [Op.submit sample_frame] scale_ok
      (by decide) (by decide) (by decide) (fun _ _ _ => by simp [sample_env])
      (fun _ _ _ _ => ⟨rfl, rfl⟩) (by decide) (by decide)).2.1,
    (half_size_consumer 8 sample_env sample_stream 10 11 [Op.submit sample_frame] scale_ok
      (by decide) (by decide) (by decide) (fun _ _ _ => by simp [sample_env])
      (fun _ _ _ _ => ⟨rfl, rfl⟩) (by decide) (by decide)).2.2
      [] [] sample_half (by decide) rfl rfl (by decide) rfl⟩

/-- C15 (as stated) fails on a 1x1 stream: the halved target spec is (1, 0, 0),
both zero dimensions are replaced by the native ones, the resolved spec equals
the native spec and the consumer is registered without a converter and without
a pool (no outside call is made). -/
theorem half_size_of_tiny_stream :
    (video_output_open 8 ⟨0, 0, 0, 0, 0⟩ tiny_info).handle = some tiny_stream ∧
    (video_output_connect 8 sample_env tiny_stream
      (some ⟨tiny_stream.info.format, tiny_stream.info.width / 2,
        tiny_stream.info.height / 2⟩) 10 11).success = true ∧
    (video_output_connect 8 sample_env tiny_stream
      (some ⟨tiny_stream.info.format, tiny_stream.info.width / 2,
        tiny_stream.info.height / 2⟩) 10 11).video.inputs =
      [{ conversion := { format := 1, width := 1, height := 1 }
         scaler := 0
         frame := List.replicate 3 (video_frame.zero 8)
         cur_frame := 0
         callback := 10
         param := 11 }] ∧
    (video_output_connect 8 sample_env tiny_stream
      (some ⟨tiny_stream.info.format, tiny_stream.info.width / 2,
        tiny_stream.info.height / 2⟩) 10 11).events = [] := by
  decide

/-! ## The pacing thread: stop flag -/

theorem connect_frame_time (K : Nat) (env : ConnectEnv) (video : video_output)
    (conversion : Option video_scale_info) (callback param : Nat) :
    (video_output_connect K env video conversion callback param).video.frame_time
      = video.frame_time := by
  by_cases h : video_get_input_idx video callback param = none
  · cases hs : (video_input_init env (connect_input K video conversion callback param)
        video).success
    · rw [connect_new_fail K env video conversion callback param h hs]
    · rw [connect_new_ok K env video conversion callback param h hs]
  · rw [connect_dup K env video conversion callback param h]

theorem disconnect_frame_time (video : video_output) (callback param : Nat) :
    (video_output_disconnect video callback param).1.frame_time = video.frame_time := by
  unfold video_output_disconnect
  split <;> rfl

theorem tick_frame_time (K : Nat) (scale : ScaleOracle) (video : video_output) :
    (video_tick K scale video).1.frame_time = video.frame_time := by
  have hswap : (video_swapframes video).frame_time = video.frame_time := by
    unfold video_swapframes
    split <;> rfl
  unfold video_tick video_output_cur_frame
  split
  · exact hswap
  · exact hswap

theorem pacing_step_stop (K : Nat) (s : pacing_state) (a : Act)
    (hstop : s.stop_event = true) :
    (pacing_step K s a).1.stop_event = true ∧
      steps_to_return (pacing_step K s a).1.pc =
        steps_to_return s.pc - (if a.isThread then 1 else 0) := by
  cases a with
  | thread scale =>
    simp only [pacing_step, video_thread_step, Act.isThread]
    cases hpc : s.pc <;> simp [hstop, steps_to_return, hpc]
  | stop => exact ⟨rfl, by simp [pacing_step, Act.isThread]⟩
  | connect env conversion callback param =>
    exact ⟨hstop, by simp [pacing_step, Act.isThread]⟩
  | disconnect callback param => exact ⟨hstop, by simp [pacing_step, Act.isThread]⟩
  | submit frame => exact ⟨hstop, by simp [pacing_step, Act.isThread]⟩

theorem pacing_run_returns (K : Nat) (acts : List Act) :
    ∀ s : pacing_state, s.stop_event = true →
      steps_to_return (pacing_run K s acts).1.pc =
        steps_to_return s.pc - acts.countP Act.isThread := by
  induction acts with
  | nil => intro s _; simp [pacing_run]
  | cons a as ih =>
    intro s hstop
    have h := pacing_step_stop K s a hstop
    simp only [pacing_run]
    rw [ih _ h.1, h.2, List.countP_cons]
    split <;> omega

theorem swap_count_stopped (K : Nat) (acts : List Act) :
    ∀ s : pacing_state, s.stop_event = true →
      swap_count K s acts ≤ (if 2 ≤ steps_to_return s.pc then 1 else 0) := by
  induction acts with
  | nil => intro s _; simp [swap_count]
  | cons a as ih =>
    intro s hstop
    have h := pacing_step_stop K s a hstop
    have hrest := ih _ h.1
    rw [h.2] at hrest
    simp only [swap_count]
    cases hpc : s.pc <;> cases hth : a.isThread <;>
      simp [hpc, hth, steps_to_return] at hrest ⊢ <;> omega

theorem pacing_run_quiet (K : Nat) (acts : List Act) :
    ∀ s : pacing_state, s.stop_event = true → steps_to_return s.pc ≤ 1 →
      ∀ e ∈ (pacing_run K s acts).2, e.isCallback = false ∧ e.isScale = false := by
  induction acts with
  | nil => intro s _ _ e he; simp [pacing_run] at he
  | cons a as ih =>
    intro s hstop hrank e he
    have h := pacing_step_stop K s a hstop
    have hrank2 : steps_to_return (pacing_step K s a).1.pc ≤ 1 := by
      rw [h.2]; omega
    simp only [pacing_run, List.mem_append] at he
    rcases he with he | he
    · cases a with
      | thread scale =>
        simp only [pacing_step, video_thread_step] at he
        cases hpc : s.pc <;> simp [hpc, steps_to_return, hstop] at he hrank
      | stop =>
        simp only [pacing_step, List.mem_singleton] at he
        subst he
        exact ⟨rfl, rfl⟩
      | connect env conversion callback param =>
        exact connect_events K env s.video conversion callback param e he
      | disconnect callback param =>
        exact disconnect_events s.video callback param e he
      | submit frame => simp [pacing_step] at he
    · exact ih _ h.1 hrank2 e he

/-- C17 (as stated) fails when the stop event is signalled between the two
half-frame sleeps: from the start of the thread on `sample_staged`, the loop
test, the first sleep and then the stop signal lead to
`sample_stopped_mid_cycle`; the next move of the thread still sleeps, swaps and
dispatches, and the three consumers are called back after the stop event was
signalled. -/
theorem dispatch_after_stop :
    (pacing_run 8 (video_thread_start sample_staged 0)
      [Act.thread scale_ok, Act.thread scale_ok, Act.stop]).1 = sample_stopped_mid_cycle ∧
    sample_stopped_mid_cycle.stop_event = true ∧
    swap_count 8 sample_stopped_mid_cycle [Act.thread scale_ok] = 1 ∧
    callback_order (pacing_run 8 sample_stopped_mid_cycle [Act.thread scale_ok]).2 =
      [(20, 21), (10, 11), (30, 31)] := by
  decide

/-! ## The pacing thread: deadlines -/

theorem pacing_step_frame_time (K : Nat) (s : pacing_state) (a : Act) :
    (pacing_step K s a).1.video.frame_time = s.video.frame_time := by
  cases a with
  | thread scale =>
    simp only [pacing_step, video_thread_step]
    cases hpc : s.pc
    · simp only
      split <;> rfl
    · rfl
    · exact tick_frame_time K scale s.video
    · rfl
  | stop => rfl
  | connect env conversion callback param =>
    exact connect_frame_time K env s.video conversion callback param
  | disconnect callback param => exact disconnect_frame_time s.video callback param
  | submit frame => rfl

theorem deadline_add (start k h : Nat) :
    ((start + k * h) % 2 ^ 64 + h) % 2 ^ 64 = (start + (k + 1) * h) % 2 ^ 64 := by
  rw [Nat.mod_add_mod]
  congr 1
  ring

theorem pacing_step_phase (K : Nat) (start ft : Nat) (s : pacing_state) (a : Act) (t : Nat)
    (hnostop : a.isStop = false)
    (h0 : t % 3 = 0 → s.pc = ThreadPC.loop_test)
    (h1 : t % 3 = 1 → s.pc = ThreadPC.first_half)
    (h2 : t % 3 = 2 → s.pc = ThreadPC.second_half)
    (htime : s.cur_time = (start + (2 * (t / 3) + (t % 3 - 1)) * (ft / 2)) % 2 ^ 64)
    (hft : s.video.frame_time = ft) (hrun : s.stop_event = false) :
    (((t + if a.isThread then 1 else 0) % 3 = 0 →
        (pacing_step K s a).1.pc = ThreadPC.loop_test) ∧
      ((t + if a.isThread then 1 else 0) % 3 = 1 →
        (pacing_step K s a).1.pc = ThreadPC.first_half) ∧
      ((t + if a.isThread then 1 else 0) % 3 = 2 →
        (pacing_step K s a).1.pc = ThreadPC.second_half)) ∧
    (pacing_step K s a).1.cur_time =
      (start + (2 * ((t + if a.isThread then 1 else 0) / 3) +
        ((t + if a.isThread then 1 else 0) % 3 - 1)) * (ft / 2)) % 2 ^ 64 ∧
    (pacing_step K s a).1.video.frame_time = ft ∧
    (pacing_step K s a).1.stop_event = false := by
  have hftk := pacing_step_frame_time K s a
  cases a with
  | thread scale =>
    have hmod : t % 3 = 0 ∨ t % 3 = 1 ∨ t % 3 = 2 := by omega
    simp only [Act.isThread, if_true]
    rcases hmod with hm | hm | hm
    · have hpc := h0 hm
      have e1 : (t + 1) % 3 = 1 := by omega
      have e2 : (t + 1) / 3 = t / 3 := by omega
      refine ⟨⟨by omega, fun _ => ?_, by omega⟩, ?_, by rw [hftk, hft], ?_⟩
      · simp [pacing_step, video_thread_step, hpc, hrun]
      · rw [e1, e2]
        simp only [pacing_step, video_thread_step, hpc, hrun]
        simp [htime, hm]
      · simp [pacing_step, video_thread_step, hpc, hrun]
    · have hpc := h1 hm
      have e1 : (t + 1) % 3 = 2 := by omega
      have e2 : (t + 1) / 3 = t / 3 := by omega
      refine ⟨⟨by omega, by omega, fun _ => ?_⟩, ?_, by rw [hftk, hft], ?_⟩
      · simp [pacing_step, video_thread_step, hpc]
      · rw [e1, e2]
        simp only [pacing_step, video_thread_step, hpc, next_deadline, hft, htime, hm]
        have := deadline_add start (2 * (t / 3)) (ft / 2)
        simpa using this
      · simp [pacing_step, video_thread_step, hpc, hrun]
    · have hpc := h2 hm
      have e1 : (t + 1) % 3 = 0 := by omega
      have e2 : (t + 1) / 3 = t / 3 + 1 := by omega
      refine ⟨⟨fun _ => ?_, by omega, by omega⟩, ?_, by rw [hftk, hft], ?_⟩
      · simp [pacing_step, video_thread_step, hpc]
      · rw [e1, e2]
        simp only [pacing_step, video_thread_step, hpc, next_deadline, hft, htime, hm]
        have := deadline_add start (2 * (t / 3) + 1) (ft / 2)
        have e3 : 2 * (t / 3 + 1) + (0 - 1) = 2 * (t / 3) + 1 + 1 := by omega
        rw [e3]
        simpa using this
      · simp [pacing_step, video_thread_step, hpc, hrun]
  | stop => simp [Act.isStop] at hnostop
  | connect env conversion callback param =>
    simp only [Act.isThread, Bool.false_eq_true, if_false, Nat.add_zero]
    exact ⟨⟨h0, h1, h2⟩, htime, by rw [hftk, hft], hrun⟩
  | disconnect callback param =>
    simp only [Act.isThread, Bool.false_eq_true, if_false, Nat.add_zero]
    exact ⟨⟨h0, h1, h2⟩, htime, by rw [hftk, hft], hrun⟩
  | submit frame =>
    simp only [Act.isThread, Bool.false_eq_true, if_false, Nat.add_zero]
    exact ⟨⟨h0, h1, h2⟩, htime, by rw [hftk, hft], hrun⟩

theorem pacing_run_phase (K : Nat) (start ft : Nat) (acts : List Act) :
    ∀ (s : pacing_state) (t : Nat),
      (∀ a ∈ acts, a.isStop = false) →
      (t % 3 = 0 → s.pc = ThreadPC.loop_test) →
      (t % 3 = 1 → s.pc = ThreadPC.first_half) →
      (t % 3 = 2 → s.pc = ThreadPC.second_half) →
      s.cur_time = (start + (2 * (t / 3) + (t % 3 - 1)) * (ft / 2)) % 2 ^ 64 →
      s.video.frame_time = ft → s.stop_event = false →
      (((t + acts.countP Act.isThread) % 3 = 0 →
          (pacing_run K s acts).1.pc = ThreadPC.loop_test) ∧
        ((t + acts.countP Act.isThread) % 3 = 1 →
          (pacing_run K s acts).1.pc = ThreadPC.first_half) ∧
        ((t + acts.countP Act.isThread) % 3 = 2 →
          (pacing_run K s acts).1.pc = ThreadPC.second_half)) ∧
      (pacing_run K s acts).1.cur_time =
        (start + (2 * ((t + acts.countP Act.isThread) / 3) +
          ((t + acts.countP Act.isThread) % 3 - 1)) * (ft / 2)) % 2 ^ 64 ∧
      (pacing_run K s acts).1.video.frame_time = ft := by
  induction acts with
  | nil =>
    intro s t _ h0 h1 h2 htime hft _
    simp only [List.countP_nil, Nat.add_zero, pacing_run]
    exact ⟨⟨h0, h1, h2⟩, htime, hft⟩
  | cons a as ih =>
    intro s t hns h0 h1 h2 htime hft hrun
    have hstep := pacing_step_phase K start ft s a t (hns a (List.mem_cons_self _ _))
      h0 h1 h2 htime hft hrun
    have hrest := ih (pacing_step K s a).1 (t + if a.isThread then 1 else 0)
      (fun b hb => hns b (List.mem_cons_of_mem _ hb))
      hstep.1.1 hstep.1.2.1 hstep.1.2.2 hstep.2.1 hstep.2.2.1 hstep.2.2.2
    have hcount : t + (a :: as).countP Act.isThread =
        (t + if a.isThread then 1 else 0) + as.countP Act.isThread := by
      rw [List.countP_cons]
      omega
    rw [hcount]
    simp only [pacing_run]
    exact hrest

/-- C18 (as amended): from the start of `video_thread` at time `start`, after
any moves without a stop signal in which the thread has made `3 * n` moves
(`n` complete cycles), the thread is at the loop test again and its deadline is
`start + n * (2 * (frame_time / 2))` on `uint64_t`: each cycle advances the
deadline by twice the integer half interval, which is the frame interval when
that is even (and one nanosecond less when it is odd). -/
theorem cycle_advances_deadline (MAX_AV_PLANES : Nat) (video : video_output) (start n : Nat)
    (acts : List Act) (hstart : start < 2 ^ 64)
    (hnostop : ∀ a ∈ acts, a.isStop = false)
    (hcycles : acts.countP Act.isThread = 3 * n) :
    (pacing_run MAX_AV_PLANES (video_thread_start video start) acts).1.pc
      = ThreadPC.loop_test ∧
    (pacing_run MAX_AV_PLANES (video_thread_start video start) acts).1.cur_time =
      (start + n * (2 * (video.frame_time / 2))) % 2 ^ 64 ∧
    (video.frame_time % 2 = 0 →
      (pacing_run MAX_AV_PLANES (video_thread_start video start) acts).1.cur_time =
        (start + n * video.frame_time) % 2 ^ 64) := by
  have h := pacing_run_phase MAX_AV_PLANES start video.frame_time acts
    (video_thread_start video start) 0 hnostop (fun _ => rfl) (by omega) (by omega)
    (by
      have hm : start % 2 ^ 64 = start := Nat.mod_eq_of_lt hstart
      simp only [video_thread_start, Nat.zero_div, Nat.zero_mod, Nat.mul_zero, Nat.zero_sub,
        Nat.add_zero, Nat.zero_mul, hm]) rfl rfl
  rw [Nat.zero_add, hcycles] at h
  have e1 : 3 * n % 3 = 0 := by omega
  have e2 : 3 * n / 3 = n := by omega
  have htime : (pacing_run MAX_AV_PLANES (video_thread_start video start) acts).1.cur_time =
      (start + n * (2 * (video.frame_time / 2))) % 2 ^ 64 := by
    rw [h.2.1, e1, e2]
    congr 2
    ring
  refine ⟨h.1.1 e1, htime, ?_⟩
  intro heven
  have : 2 * (video.frame_time / 2) = video.frame_time := by omega
  rw [htime, this]

/-- C18 (as amended), on the sample stream (frame time 33333333 ns): after two
complete cycles from time 1000, with a submit in between, the deadline is
1000 + 2 * 33333332. -/
theorem cycle_advances_deadline_witness :
    (pacing_run 8 (video_thread_start sample_stream 1000)
      [Act.thread scale_ok, Act.thread scale_ok, Act.submit sample_frame, Act.thread scale_ok,
        Act.thread scale_ok, Act.thread scale_ok, Act.thread scale_ok]).1.pc
      = ThreadPC.loop_test ∧
    (pacing_run 8 (video_thread_start sample_stream 1000)
      [Act.thread scale_ok, Act.thread scale_ok, Act.submit sample_frame, Act.thread scale_ok,
        Act.thread scale_ok, Act.thread scale_ok, Act.thread scale_ok]).1.cur_time =
      (1000 + 2 * (2 * (sample_stream.frame_time / 2))) % 2 ^ 64 :=
  ⟨(cycle_advances_deadline 8 sample_stream 1000 2
      [Act.thread scale_ok, Act.thread scale_ok, Act.submit sample_frame, Act.thread scale_ok,
        Act.thread scale_ok, Act.thread scale_ok, Act.thread scale_ok]
      (by decide) (by decide) (by decide)).1,
    (cycle_advances_deadline 8 sample_stream 1000 2
      [Act.thread scale_ok, Act.thread scale_ok, Act.submit sample_frame, Act.thread scale_ok,
        Act.thread scale_ok, Act.thread scale_ok, Act.thread scale_ok]
      (by decide) (by decide) (by decide)).2.1⟩

/-- C18 (as stated) fails for an odd frame interval: on the sample stream
(30/1, frame time 33333333 ns) one complete cycle from time 0 leaves the
deadline at 33333332, not at 0 + 1 * 33333333. -/
theorem odd_frame_time_cycle :
    video_getframetime sample_stream = 33333333 ∧
    (pacing_run 8 (video_thread_start sample_stream 0)
      [Act.thread scale_ok, Act.thread scale_ok, Act.thread scale_ok]).1.pc
      = ThreadPC.loop_test ∧
    (pacing_run 8 (video_thread_start sample_stream 0)
      [Act.thread scale_ok, Act.thread scale_ok, Act.thread scale_ok]).1.cur_time
      = 33333332 := by
  decide

/-! ## Identity uniqueness -/

/-- C23: starting from the empty table of a freshly opened stream, after every
sequence of connect, disconnect, submit and tick operations the identities
`(callback, param)` of the table entries are pairwise different. -/
theorem identities_unique (MAX_AV_PLANES : Nat) (env : OpenEnv) (info : video_output_info)
    (out : video_output)
    (hopen : (video_output_open MAX_AV_PLANES env info).handle = some out)
    (ops : List Op) :
    out.inputs = [] ∧
    ((run MAX_AV_PLANES out ops).1.inputs.map (fun i => (i.callback, i.param))).Nodup ∧
    (run MAX_AV_PLANES out ops).1.inputs.Pairwise
      (fun a b => ¬ (a.callback = b.callback ∧ a.param = b.param)) := by
  have hn := reachable_nodup MAX_AV_PLANES env info out hopen ops
  refine ⟨(open_fresh MAX_AV_PLANES env info out hopen).2.2.1, hn, ?_⟩
  have hp := List.pairwise_map.1 hn
  exact hp.imp (fun {a b} h hab => h (by rw [hab.1, hab.2]))

/-- C23, on the sample stream: after two connects, a refused duplicate
connect, a submit, a tick, a disconnect and a re-connect, the identities in the
table are pairwise different. -/
theorem identities_unique_witness :
    ((run 8 sample_stream
        [Op.connect sample_env (some ⟨1, 320, 240⟩) 10 11, Op.connect sample_env none 20 21,
          Op.connect sample_env (some ⟨1, 160, 120⟩) 10 11, Op.submit sample_frame,
          Op.tick scale_ok, Op.disconnect 20 21,
          Op.connect sample_env none 20 21]).1.inputs.map
      (fun i => (i.callback, i.param))).Nodup :=
  (identities_unique 8 ⟨0, 0, 0, 0, 0⟩ sample_info sample_stream (by decide) _).2.1

/-! ## The descriptor and the frame interval are never changed -/

theorem connect_info (K : Nat) (env : ConnectEnv) (video : video_output)
    (conversion : Option video_scale_info) (callback param : Nat) :
    (video_output_connect K env video conversion callback param).video.info = video.info ∧
      (video_output_connect K env video conversion callback param).video.cur_video_time
        = video.cur_video_time := by
  by_cases h : video_get_input_idx video callback param = none
  · cases hs : (video_input_init env (connect_input K video conversion callback param)
        video).success
    · rw [connect_new_fail K env video conversion callback param h hs]; exact ⟨rfl, rfl⟩
    · rw [connect_new_ok K env video conversion callback param h hs]; exact ⟨rfl, rfl⟩
  · rw [connect_dup K env video conversion callback param h]; exact ⟨rfl, rfl⟩

theorem disconnect_info (video : video_output) (callback param : Nat) :
    (video_output_disconnect video callback param).1.info = video.info ∧
      (video_output_disconnect video callback param).1.cur_video_time
        = video.cur_video_time := by
  unfold video_output_disconnect
  split <;> exact ⟨rfl, rfl⟩

theorem swapframes_info (video : video_output) :
    (video_swapframes video).info = video.info ∧
      (video_swapframes video).frame_time = video.frame_time ∧
      (video_swapframes video).cur_video_time = video.cur_video_time := by
  unfold video_swapframes
  split <;> exact ⟨rfl, rfl, rfl⟩

theorem cur_frame_info (K : Nat) (scale : ScaleOracle) (video : video_output) :
    (video_output_cur_frame K scale video).1.info = video.info ∧
      (video_output_cur_frame K scale video).1.frame_time = video.frame_time ∧
      (video_output_cur_frame K scale video).1.cur_video_time = video.cur_video_time := by
  unfold video_output_cur_frame
  split <;> exact ⟨rfl, rfl, rfl⟩

theorem tick_info (K : Nat) (scale : ScaleOracle) (video : video_output) :
    (video_tick K scale video).1.info = video.info ∧
      (video_tick K scale video).1.cur_video_time = video.cur_video_time := by
  have h1 := swapframes_info video
  have h2 := cur_frame_info K scale (video_swapframes video)
  unfold video_tick
  exact ⟨by rw [h2.1, h1.1], by rw [h2.2.2, h1.2.2]⟩

theorem step_info (K : Nat) (video : video_output) (op : Op) :
    (step K video op).1.info = video.info ∧
      (step K video op).1.frame_time = video.frame_time ∧
      (step K video op).1.cur_video_time = video.cur_video_time := by
  cases op with
  | connect env conversion callback param =>
    exact ⟨(connect_info K env video conversion callback param).1,
      connect_frame_time K env video conversion callback param,
      (connect_info K env video conversion callback param).2⟩
  | disconnect callback param =>
    exact ⟨(disconnect_info video callback param).1,
      disconnect_frame_time video callback param, (disconnect_info video callback param).2⟩
  | submit frame => exact ⟨rfl, rfl, rfl⟩
  | tick scale =>
    exact ⟨(tick_info K scale video).1, tick_frame_time K scale video,
      (tick_info K scale video).2⟩

theorem run_info (K : Nat) (ops : List Op) :
    ∀ video : video_output,
      (run K video ops).1.info = video.info ∧
        (run K video ops).1.frame_time = video.frame_time ∧
        (run K video ops).1.cur_video_time = video.cur_video_time := by
  induction ops with
  | nil => intro video; exact ⟨rfl, rfl, rfl⟩
  | cons op ops ih =>
    intro video
    have h1 := step_info K video op
    have h2 := ih (step K video op).1
    simp only [run]
    exact ⟨by rw [h2.1, h1.1], by rw [h2.2.1, h1.2.1], by rw [h2.2.2, h1.2.2]⟩

/-- C24: on the stream handed back by `video_output_open (info)`, after every
sequence of connect, disconnect, submit and tick operations
`video_output_getinfo` still returns `info` (format, width, height, `fps_num`,
`fps_den`) and `video_getframetime` the interval computed at open; and on any
stream none of connect, disconnect, submit, swap and dispatch changes the
descriptor or the frame interval. -/
theorem descriptor_immutable (MAX_AV_PLANES : Nat) (env : OpenEnv) (info : video_output_info)
    (out : video_output)
    (hopen : (video_output_open MAX_AV_PLANES env info).handle = some out)
    (ops : List Op) :
    (video_output_getinfo out = info ∧ video_getframetime out = frame_time_of info) ∧
    (video_output_getinfo (run MAX_AV_PLANES out ops).1 = info ∧
      video_getframetime (run MAX_AV_PLANES out ops).1 = frame_time_of info) ∧
    (∀ (video : video_output) (cenv : ConnectEnv) (conversion : Option video_scale_info)
        (callback param : Nat),
      video_output_getinfo
          (video_output_connect MAX_AV_PLANES cenv video conversion callback param).video
        = video_output_getinfo video ∧
      video_getframetime
          (video_output_connect MAX_AV_PLANES cenv video conversion callback param).video
        = video_getframetime video) ∧
    (∀ (video : video_output) (callback param : Nat),
      video_output_getinfo (video_output_disconnect video callback param).1
        = video_output_getinfo video ∧
      video_getframetime (video_output_disconnect video callback param).1
        = video_getframetime video) ∧
    (∀ (video : video_output) (frame : video_data),
      video_output_getinfo (video_output_swap_frame video frame)
        = video_output_getinfo video ∧
      video_getframetime (video_output_swap_frame video frame) = video_getframetime video) ∧
    (∀ video : video_output,
      video_output_getinfo (video_swapframes video) = video_output_getinfo video ∧
      video_getframetime (video_swapframes video) = video_getframetime video) ∧
    (∀ (video : video_output) (scale : ScaleOracle),
      video_output_getinfo (video_output_cur_frame MAX_AV_PLANES scale video).1
        = video_output_getinfo video ∧
      video_getframetime (video_output_cur_frame MAX_AV_PLANES scale video).1
        = video_getframetime video) := by
  have hf := open_fresh MAX_AV_PLANES env info out hopen
  have hr := run_info MAX_AV_PLANES ops out
  refine ⟨⟨hf.2.2.2.1, hf.2.2.2.2⟩, ⟨?_, ?_⟩, ?_, ?_, ?_, ?_, ?_⟩
  · rw [video_output_getinfo, hr.1, hf.2.2.2.1]
  · rw [video_getframetime, hr.2.1, hf.2.2.2.2]
  · intro video cenv conversion callback param
    exact ⟨(connect_info MAX_AV_PLANES cenv video conversion callback param).1,
      connect_frame_time MAX_AV_PLANES cenv video conversion callback param⟩
  · intro video callback param
    exact ⟨(disconnect_info video callback param).1,
      disconnect_frame_time video callback param⟩
  · intro video frame
    exact ⟨rfl, rfl⟩
  · intro video
    exact ⟨(swapframes_info video).1, (swapframes_info video).2.1⟩
  · intro video scale
    exact ⟨(cur_frame_info MAX_AV_PLANES scale video).1,
      (cur_frame_info MAX_AV_PLANES scale video).2.1⟩

/-- C24, on the sample stream: after connects, a submit, two ticks and a
disconnect the descriptor is still the sample descriptor and the frame interval
still 33333333 ns. -/
theorem descriptor_immutable_witness :
    video_output_getinfo (run 8 sample_stream
        [Op.connect sample_env (some ⟨1, 320, 240⟩) 10 11, Op.connect sample_env none 20 21,
          Op.submit sample_frame, Op.tick scale_ok, Op.tick scale_ok,
          Op.disconnect 10 11]).1 = sample_info ∧
      video_getframetime (run 8 sample_stream
        [Op.connect sample_env (some ⟨1, 320, 240⟩) 10 11, Op.connect sample_env none 20 21,
          Op.submit sample_frame, Op.tick scale_ok, Op.tick scale_ok,
          Op.disconnect 10 11]).1 = frame_time_of sample_info :=
  (descriptor_immutable 8 ⟨0, 0, 0, 0, 0⟩ sample_info sample_stream (by decide) _).2.1

/-! ## Plane 0 decides whether a dispatch takes place -/

theorem dispatch_loop_native (K : Nat) (scale : ScaleOracle) (l : List video_input) :
    ∀ cur : video_data, ∀ c ∈ l, c.scaler = 0 →
      ∃ frame, Event.callback c.callback c.param frame ∈ (dispatch_loop K scale l cur).events := by
  induction l with
  | nil => intro cur c hc; simp at hc
  | cons x xs ih =>
    intro cur c hc hs
    rcases List.mem_cons.1 hc with rfl | hmem
    · refine ⟨cur, ?_⟩
      have : scale_video_output K scale c cur =
          { success := true, input := c, data := cur, events := [] } := by
        unfold scale_video_output
        rw [if_neg (by simp [hs])]
      simp [dispatch_loop, this]
    · obtain ⟨frame, hf⟩ := ih (scale_video_output K scale x cur).data c hmem hs
      exact ⟨frame, by simp only [dispatch_loop, List.mem_append]; right; exact hf⟩

theorem dispatch_loop_length (K : Nat) (scale : ScaleOracle) (l : List video_input) :
    ∀ cur : video_data, (dispatch_loop K scale l cur).inputs.length = l.length := by
  induction l with
  | nil => intro cur; rfl
  | cons x xs ih => intro cur; simp [dispatch_loop, ih]

/-- C25: `video_output_cur_frame` looks at the first plane pointer of the
staged frame only.  When it is null the function makes no call (no conversion,
no callback) and returns the stream as it is: staged frame, table and every
pool index unchanged, whatever the other planes hold.  When it is not null,
every registered consumer is visited: one with a converter has its converter
called, one without is called back, and the table keeps its length. -/
theorem plane0_decides_dispatch (MAX_AV_PLANES : Nat) (scale : ScaleOracle)
    (video : video_output) :
    (video.cur_frame.data.getD 0 0 = 0 →
      video_output_cur_frame MAX_AV_PLANES scale video = (video, [])) ∧
    (video.cur_frame.data.getD 0 0 ≠ 0 →
      (∀ c ∈ video.inputs,
        (c.scaler ≠ 0 →
          ∃ e ∈ (video_output_cur_frame MAX_AV_PLANES scale video).2,
            ∃ dst src_data src_linesize ok,
              e = Event.video_scaler_scale c.scaler dst src_data src_linesize ok) ∧
        (c.scaler = 0 →
          ∃ frame, Event.callback c.callback c.param frame ∈
            (video_output_cur_frame MAX_AV_PLANES scale video).2)) ∧
      (video_output_cur_frame MAX_AV_PLANES scale video).1.inputs.length
        = video.inputs.length) := by
  constructor
  · intro h
    rw [video_output_cur_frame, if_pos h]
  · intro h
    rw [cur_frame_dispatches MAX_AV_PLANES scale video h]
    refine ⟨?_, dispatch_loop_length MAX_AV_PLANES scale video.inputs video.cur_frame⟩
    intro c hc
    constructor
    · intro hs
      exact dispatch_loop_attempts MAX_AV_PLANES scale c.scaler hs video.inputs
        video.cur_frame ⟨c, hc, rfl⟩
    · intro hs
      exact dispatch_loop_native MAX_AV_PLANES scale video.inputs video.cur_frame c hc hs

/-- C25, on the sample table: with a staged frame whose plane 0 is null and
whose plane 1 is not, the dispatch does nothing; with `sample_frame` staged the
converter 7320 is called and the native consumer `(20, 21)` is called back. -/
theorem plane0_decides_dispatch_witness :
    (video_swapframes (video_output_swap_frame sample_staged
        sample_frame_no_plane0)).cur_frame.data = [0, 700, 0, 0, 0, 0, 0, 0] ∧
    video_output_cur_frame 8 scale_ok
        (video_swapframes (video_output_swap_frame sample_staged sample_frame_no_plane0)) =
      (video_swapframes (video_output_swap_frame sample_staged sample_frame_no_plane0), []) ∧
    (∃ e ∈ (video_output_cur_frame 8 scale_ok sample_staged).2,
      ∃ dst src_data src_linesize ok,
        e = Event.video_scaler_scale 7320 dst src_data src_linesize ok) ∧
    (∃ frame, Event.callback 20 21 frame ∈ (video_output_cur_frame 8 scale_ok sample_staged).2) :=
  ⟨by decide,
    (plane0_decides_dispatch 8 scale_ok
      (video_swapframes (video_output_swap_frame sample_staged sample_frame_no_plane0))).1
      (by decide),
    (((plane0_decides_dispatch 8 scale_ok sample_staged).2 (by decide)).1 sample_half
      (by decide)).1 (by decide),
    (((plane0_decides_dispatch 8 scale_ok sample_staged).2 (by decide)).1 sample_native
      (by decide)).2 (by decide)⟩

/-! ## Pool rotation -/

theorem next_slot_mod (c : video_input) (h : c.cur_frame < MAX_CONVERT_BUFFERS) :
    next_slot c = (c.cur_frame + 1) % 3 := by
  unfold next_slot
  unfold MAX_CONVERT_BUFFERS at h ⊢
  split <;> omega

theorem scale_advances (K : Nat) (scale : ScaleOracle) (c : video_input) (data : video_data)
    (h : c.cur_frame < MAX_CONVERT_BUFFERS) :
    (scale_video_output K scale c data).input =
      if c.scaler ≠ 0 then { c with cur_frame := (c.cur_frame + 1) % 3 } else c := by
  unfold scale_video_output
  split
  · simp only [next_slot_mod c h]
  · rfl

theorem dispatch_loop_advances (K : Nat) (scale : ScaleOracle) (l : List video_input) :
    ∀ cur : video_data, (∀ c ∈ l, c.cur_frame < MAX_CONVERT_BUFFERS) →
      (dispatch_loop K scale l cur).inputs =
        l.map (fun c =>
          if c.scaler ≠ 0 then { c with cur_frame := (c.cur_frame + 1) % 3 } else c) := by
  induction l with
  | nil => intro cur _; rfl
  | cons x xs ih =>
    intro cur h
    have hx := scale_advances K scale x cur (h x (List.mem_cons_self _ _))
    have hxs := ih (scale_video_output K scale x cur).data
      (fun c hc => h c (List.mem_cons_of_mem _ hc))
    simp only [dispatch_loop, List.map_cons, hx, hxs]

theorem input_init_keeps_slot (env : ConnectEnv) (input : video_input) (video : video_output) :
    (video_input_init env input video).input.cur_frame = input.cur_frame := by
  unfold video_input_init
  dsimp only
  split
  · split <;> rfl
  · rfl

theorem step_slots (K : Nat) (video : video_output) (op : Op)
    (h : ∀ c ∈ video.inputs, c.cur_frame < MAX_CONVERT_BUFFERS) :
    ∀ c ∈ (step K video op).1.inputs, c.cur_frame < MAX_CONVERT_BUFFERS := by
  cases op with
  | connect env conversion callback param =>
    simp only [step]
    by_cases hi : video_get_input_idx video callback param = none
    · cases hs : (video_input_init env (connect_input K video conversion callback param)
          video).success
      · rw [connect_new_fail K env video conversion callback param hi hs]; exact h
      · rw [connect_new_ok K env video conversion callback param hi hs]
        intro c hc
        rcases List.mem_append.1 hc with hm | hm
        · exact h c hm
        · rw [List.mem_singleton.1 hm, input_init_keeps_slot,
            (connect_input_fresh K video conversion callback param).2.1]
          decide
    · rw [connect_dup K env video conversion callback param hi]; exact h
  | disconnect callback param =>
    intro c hc
    exact h c ((disconnect_sublist video callback param).subset hc)
  | submit frame => exact h
  | tick scale =>
    simp only [step, video_tick]
    have hswap : (video_swapframes video).inputs = video.inputs := by
      unfold video_swapframes
      split <;> rfl
    unfold video_output_cur_frame
    split
    · rw [hswap]; exact h
    · simp only
      rw [dispatch_loop_advances K scale _ _ (by rw [hswap]; exact h), hswap]
      intro c hc
      obtain ⟨c0, hc0, rfl⟩ := List.mem_map.1 hc
      have := h c0 hc0
      unfold MAX_CONVERT_BUFFERS at this ⊢
      split
      · simp only; omega
      · exact this

theorem run_slots (K : Nat) (ops : List Op) :
    ∀ video : video_output, (∀ c ∈ video.inputs, c.cur_frame < MAX_CONVERT_BUFFERS) →
      ∀ c ∈ (run K video ops).1.inputs, c.cur_frame < MAX_CONVERT_BUFFERS := by
  induction ops with
  | nil => intro video h; exact h
  | cons op ops ih =>
    intro video h
    simp only [run]
    exact ih _ (step_slots K video op h)

theorem dispatch_loop_writes (K : Nat) (scale : ScaleOracle) (pre post : List video_input)
    (c : video_input) (cur : video_data) (hs : c.scaler ≠ 0) :
    Event.video_scaler_scale c.scaler (next_buffer c)
        (dispatch_loop K scale pre cur).cur.data (dispatch_loop K scale pre cur).cur.linesize
        (scale c.scaler (next_buffer c).data (next_buffer c).linesize
          (dispatch_loop K scale pre cur).cur.data
          (dispatch_loop K scale pre cur).cur.linesize) ∈
      (dispatch_loop K scale (pre ++ c :: post) cur).events := by
  rw [dispatch_loop_append]
  have hev := scale_events_of_scaler K scale c (dispatch_loop K scale pre cur).cur hs
  simp only [dispatch_loop, List.mem_append]
  right; left
  split <;> simp [hev]

/-- C21: the pool index of a new registration is 0, and in every state
reached from a freshly opened stream every pool index is 0, 1 or 2.  A dispatch
of a frame with image data leaves every consumer without a converter as it is
and advances the pool index of every consumer with a converter by exactly one
modulo 3, whatever the conversions answer; the conversion of such a consumer
writes into the pool buffer at the advanced index.  Over three consecutive
dispatches a consumer's conversions therefore write the slots `i+1`, `i+2`,
`i+3` (modulo 3) of the same pool, three different slots: the buffer written
(and delivered) in one dispatch is not written in the next two. -/
theorem pool_rotation (MAX_AV_PLANES : Nat) (v0 v1 v2 : video_output) (s0 s1 : ScaleOracle)
    (hslots : ∀ c ∈ v0.inputs, c.cur_frame < MAX_CONVERT_BUFFERS)
    (hd0 : v0.cur_frame.data.getD 0 0 ≠ 0) (hd1 : v1.cur_frame.data.getD 0 0 ≠ 0)
    (h1 : v1.inputs = (video_output_cur_frame MAX_AV_PLANES s0 v0).1.inputs)
    (h2 : v2.inputs = (video_output_cur_frame MAX_AV_PLANES s1 v1).1.inputs) :
    (∀ (env : ConnectEnv) (video : video_output) (conversion : Option video_scale_info)
        (callback param : Nat),
      (video_output_connect MAX_AV_PLANES env video conversion callback param).success
        = true →
      ∃ input : video_input,
        (video_output_connect MAX_AV_PLANES env video conversion callback param).video.inputs
          = video.inputs ++ [input] ∧ input.cur_frame = 0) ∧
    (∀ (env : OpenEnv) (info : video_output_info) (out : video_output) (ops : List Op),
      (video_output_open MAX_AV_PLANES env info).handle = some out →
      ∀ c ∈ (run MAX_AV_PLANES out ops).1.inputs, c.cur_frame < MAX_CONVERT_BUFFERS) ∧
    (video_output_cur_frame MAX_AV_PLANES s0 v0).1.inputs =
      v0.inputs.map (fun c =>
        if c.scaler ≠ 0 then { c with cur_frame := (c.cur_frame + 1) % 3 } else c) ∧
    (∀ (pre post : List video_input) (c : video_input),
      v0.inputs = pre ++ c :: post → c.scaler ≠ 0 →
      ∃ src_data src_linesize ok,
        Event.video_scaler_scale c.scaler
            (c.frame.getD ((c.cur_frame + 1) % 3) { data := [], linesize := [] })
            src_data src_linesize ok ∈
          (video_output_cur_frame MAX_AV_PLANES s0 v0).2) ∧
    (∀ (i : Nat) (c0 : video_input), v0.inputs[i]? = some c0 → c0.scaler ≠ 0 →
      ∃ c1 c2 : video_input,
        v1.inputs[i]? = some c1 ∧ v2.inputs[i]? = some c2 ∧
        c1.scaler = c0.scaler ∧ c2.scaler = c0.scaler ∧
        c1.frame = c0.frame ∧ c2.frame = c0.frame ∧
        next_slot c0 = (c0.cur_frame + 1) % 3 ∧
        next_slot c1 = (c0.cur_frame + 2) % 3 ∧
        next_slot c2 = (c0.cur_frame + 3) % 3 ∧
        next_slot c0 ≠ next_slot c1 ∧ next_slot c1 ≠ next_slot c2 ∧
        next_slot c0 ≠ next_slot c2) := by
  have hadv0 : (video_output_cur_frame MAX_AV_PLANES s0 v0).1.inputs =
      v0.inputs.map (fun c =>
        if c.scaler ≠ 0 then { c with cur_frame := (c.cur_frame + 1) % 3 } else c) := by
    rw [cur_frame_dispatches MAX_AV_PLANES s0 v0 hd0]
    exact dispatch_loop_advances MAX_AV_PLANES s0 v0.inputs v0.cur_frame hslots
  have hslots1 : ∀ c ∈ v1.inputs, c.cur_frame < MAX_CONVERT_BUFFERS := by
    rw [h1, hadv0]
    intro c hc
    obtain ⟨c0, hc0, rfl⟩ := List.mem_map.1 hc
    have := hslots c0 hc0
    unfold MAX_CONVERT_BUFFERS at this ⊢
    split
    · simp only; omega
    · exact this
  have hadv1 : (video_output_cur_frame MAX_AV_PLANES s1 v1).1.inputs =
      v1.inputs.map (fun c =>
        if c.scaler ≠ 0 then { c with cur_frame := (c.cur_frame + 1) % 3 } else c) := by
    rw [cur_frame_dispatches MAX_AV_PLANES s1 v1 hd1]
    exact dispatch_loop_advances MAX_AV_PLANES s1 v1.inputs v1.cur_frame hslots1
  refine ⟨?_, ?_, hadv0, ?_, ?_⟩
  · intro env video conversion callback param hok
    obtain ⟨_, _, heq⟩ := connect_success_cases MAX_AV_PLANES env video conversion callback
      param hok
    rw [heq]
    exact ⟨_, rfl, by
      rw [input_init_keeps_slot,
        (connect_input_fresh MAX_AV_PLANES video conversion callback param).2.1]⟩
  · intro env info out ops hopen
    apply run_slots
    rw [(open_fresh MAX_AV_PLANES env info out hopen).2.2.1]
    intro c hc
    simp at hc
  · intro pre post c hin hs
    have hc : c.cur_frame < MAX_CONVERT_BUFFERS := hslots c (by rw [hin]; simp)
    have hw := dispatch_loop_writes MAX_AV_PLANES s0 pre post c v0.cur_frame hs
    have hbuf : next_buffer c =
        c.frame.getD ((c.cur_frame + 1) % 3) { data := [], linesize := [] } := by
      unfold next_buffer
      rw [next_slot_mod c hc]
    rw [cur_frame_dispatches MAX_AV_PLANES s0 v0 hd0, hin]
    rw [← hbuf]
    exact ⟨_, _, _, hw⟩
  · intro i c0 hi hs
    have hc0 : c0.cur_frame < MAX_CONVERT_BUFFERS := hslots c0 (List.getElem?_mem hi)
    have e1 : v1.inputs[i]? = some { c0 with cur_frame := (c0.cur_frame + 1) % 3 } := by
      rw [h1, hadv0, List.getElem?_map, hi]
      simp [hs]
    have e2 : v2.inputs[i]? = some { c0 with cur_frame := (c0.cur_frame + 1 + 1) % 3 } := by
      rw [h2, hadv1, List.getElem?_map, e1]
      simp [hs]
    have hk : c0.cur_frame < 3 := hc0
    refine ⟨_, _, e1, e2, rfl, rfl, rfl, rfl, next_slot_mod c0 hc0, ?_, ?_, ?_, ?_, ?_⟩
    · rw [next_slot_mod _ (by unfold MAX_CONVERT_BUFFERS; simp only; omega)]
      simp only
      omega
    · rw [next_slot_mod _ (by unfold MAX_CONVERT_BUFFERS; simp only; omega)]
      simp only
      omega
    · rw [next_slot_mod c0 hc0,
        next_slot_mod _ (by unfold MAX_CONVERT_BUFFERS; simp only; omega)]
      simp only
      omega
    · rw [next_slot_mod _ (by unfold MAX_CONVERT_BUFFERS; simp only; omega),
        next_slot_mod _ (by unfold MAX_CONVERT_BUFFERS; simp only; omega)]
      simp only
      omega
    · rw [next_slot_mod c0 hc0,
        next_slot_mod _ (by unfold MAX_CONVERT_BUFFERS; simp only; omega)]
      simp only
      omega

/-- C21, on the sample table: two consecutive dispatches of the staged sample
stream (the second with a failing conversion) advance the pool index of the
half-size consumer by one each, and the three slots its conversions write in
three consecutive dispatches are pairwise different. -/
theorem pool_rotation_witness :
    (video_output_cur_frame 8 scale_ok sample_staged).1.inputs =
      sample_staged.inputs.map (fun c =>
        if c.scaler ≠ 0 then { c with cur_frame := (c.cur_frame + 1) % 3 } else c) ∧
    ∃ c1 c2 : video_input,
      (video_output_cur_frame 8 scale_ok sample_staged).1.inputs[1]? = some c1 ∧
      (video_output_cur_frame 8 scale_fail_320
        (video_output_cur_frame 8 scale_ok sample_staged).1).1.inputs[1]? = some c2 ∧
      c1.scaler = sample_half.scaler ∧ c2.scaler = sample_half.scaler ∧
      c1.frame = sample_half.frame ∧ c2.frame = sample_half.frame ∧
      next_slot sample_half = (sample_half.cur_frame + 1) % 3 ∧
      next_slot c1 = (sample_half.cur_frame + 2) % 3 ∧
      next_slot c2 = (sample_half.cur_frame + 3) % 3 ∧
      next_slot sample_half ≠ next_slot c1 ∧ next_slot c1 ≠ next_slot c2 ∧
      next_slot sample_half ≠ next_slot c2 :=
  ⟨(pool_rotation 8 sample_staged (video_output_cur_frame 8 scale_ok sample_staged).1
      (video_output_cur_frame 8 scale_fail_320
        (video_output_cur_frame 8 scale_ok sample_staged).1).1
      scale_ok scale_fail_320 (by decide) (by decide) (by decide) rfl rfl).2.2.1,
    (pool_rotation 8 sample_staged (video_output_cur_frame 8 scale_ok sample_staged).1
      (video_output_cur_frame 8 scale_fail_320
        (video_output_cur_frame 8 scale_ok sample_staged).1).1
      scale_ok scale_fail_320 (by decide) (by decide) (by decide) rfl rfl).2.2.2.2
      1 sample_half (by decide) (by decide)⟩

/-! ## Deadlines of the pacing thread -/

theorem sleep_targets_append (l1 l2 : List Event) :
    sleep_targets (l1 ++ l2) = sleep_targets l1 ++ sleep_targets l2 := by
  induction l1 with
  | nil => rfl
  | cons e es ih => cases e <;> simp [sleep_targets, ih]

theorem tick_signals_append (l1 l2 : List Event) :
    tick_signals (l1 ++ l2) = tick_signals l1 + tick_signals l2 := by
  simp [tick_signals]

theorem quiet_trace (l : List Event) (h : ∀ e ∈ l, e.isPacing = false) :
    sleep_targets l = [] ∧ tick_signals l = 0 := by
  induction l with
  | nil => exact ⟨rfl, rfl⟩
  | cons e es ih =>
    have he := h e (List.mem_cons_self _ _)
    have hes := ih (fun x hx => h x (List.mem_cons_of_mem _ hx))
    unfold tick_signals at hes ⊢
    cases e <;> simp_all [sleep_targets, Event.isPacing]

theorem input_init_quiet (env : ConnectEnv) (input : video_input) (video : video_output) :
    ∀ e ∈ (video_input_init env input video).events, e.isPacing = false := by
  intro e he
  unfold video_input_init at he
  dsimp only at he
  split at he
  · split at he
    · simp only [List.mem_cons, List.mem_singleton, List.not_mem_nil, or_false] at he
      rcases he with rfl | rfl <;> simp [Event.isPacing]
    · simp only [List.mem_cons, List.mem_map] at he
      rcases he with rfl | ⟨i, _, rfl⟩ <;> simp [Event.isPacing]
  · simp at he

theorem connect_quiet (K : Nat) (env : ConnectEnv) (video : video_output)
    (conversion : Option video_scale_info) (callback param : Nat) :
    ∀ e ∈ (video_output_connect K env video conversion callback param).events,
      e.isPacing = false := by
  intro e he
  by_cases h : video_get_input_idx video callback param = none
  · cases hs : (video_input_init env (connect_input K video conversion callback param)
        video).success
    · rw [connect_new_fail K env video conversion callback param h hs] at he
      exact input_init_quiet _ _ _ e he
    · rw [connect_new_ok K env video conversion callback param h hs] at he
      exact input_init_quiet _ _ _ e he
  · rw [connect_dup K env video conversion callback param h] at he
    simp at he

theorem disconnect_quiet (video : video_output) (callback param : Nat) :
    ∀ e ∈ (video_output_disconnect video callback param).2, e.isPacing = false := by
  intro e he
  unfold video_output_disconnect at he
  split at he
  · simp only at he
    split at he
    · unfold video_input_free at he
      simp only [List.mem_append, List.mem_map, List.mem_singleton] at he
      rcases he with ⟨i, _, rfl⟩ | rfl <;> simp [Event.isPacing]
    · simp at he
  · simp at he

theorem dispatch_loop_quiet (K : Nat) (scale : ScaleOracle) (l : List video_input) :
    ∀ cur : video_data, ∀ e ∈ (dispatch_loop K scale l cur).events, e.isPacing = false := by
  induction l with
  | nil => intro cur e he; simp [dispatch_loop] at he
  | cons x xs ih =>
    intro cur e he
    have hx : ∀ e ∈ (scale_video_output K scale x cur).events, e.isPacing = false := by
      intro e he
      unfold scale_video_output at he
      split at he
      · simp only [List.mem_singleton] at he
        subst he
        rfl
      · simp at he
    simp only [dispatch_loop, List.mem_append] at he
    rcases he with he | he
    · split at he
      · simp only [List.mem_append, List.mem_singleton] at he
        rcases he with he | rfl
        · exact hx e he
        · rfl
      · exact hx e he
    · exact ih _ e he

theorem tick_quiet (K : Nat) (scale : ScaleOracle) (video : video_output) :
    ∀ e ∈ (video_tick K scale video).2, e.isPacing = false := by
  intro e he
  unfold video_tick video_output_cur_frame at he
  split at he
  · simp at he
  · exact dispatch_loop_quiet K scale _ _ e he

theorem pacing_step_deadline (K : Nat) (start ft t0 : Nat) (s : pacing_state) (a : Act)
    (j n : Nat) (h : deadline_inv start ft t0 s j n) :
    deadline_inv start ft t0 (pacing_step K s a).1
        (j + (sleep_targets (pacing_step K s a).2).length)
        (n + tick_signals (pacing_step K s a).2) ∧
      sleep_targets (pacing_step K s a).2 =
        (List.range (sleep_targets (pacing_step K s a).2).length).map
          (fun k => (start + (j + k + 1) * (ft / 2)) % 2 ^ 64) := by
  obtain ⟨hft, htime, hodd, heven, hvt⟩ := h
  have hd : next_deadline s = (start + (j + 1) * (ft / 2)) % 2 ^ 64 := by
    unfold next_deadline
    rw [hft, htime]
    exact deadline_add start j (ft / 2)
  cases a with
  | thread scale =>
    cases hpc : s.pc with
    | loop_test =>
      have hne : s.pc ≠ ThreadPC.second_half := by rw [hpc]; decide
      have hj := heven hne
      have hr : (pacing_step K s (Act.thread scale)).2 = [] ∧
          (pacing_step K s (Act.thread scale)).1.video = s.video ∧
          (pacing_step K s (Act.thread scale)).1.cur_time = s.cur_time ∧
          (pacing_step K s (Act.thread scale)).1.pc ≠ ThreadPC.second_half := by
        by_cases hst : s.stop_event = true <;>
          simp [pacing_step, video_thread_step, hpc, hst]
      obtain ⟨hr2, hrv, hrt, hrp⟩ := hr
      rw [hr2]
      refine ⟨⟨by rw [hrv, hft], by rw [hrt, htime]; rfl, fun hp => absurd hp hrp,
        fun _ => hj, by rw [hrv, hvt]; rfl⟩, rfl⟩
    | first_half =>
      have hne : s.pc ≠ ThreadPC.second_half := by rw [hpc]; decide
      have hj := heven hne
      have hr : pacing_step K s (Act.thread scale) =
          ({ s with
              cur_time := next_deadline s
              video := { s.video with cur_video_time := next_deadline s }
              pc := ThreadPC.second_half },
            [Event.os_sleepto_ns (next_deadline s),
              Event.event_signal Prim.update_event]) := by
        simp [pacing_step, video_thread_step, hpc]
      have hs : tick_signals [Event.os_sleepto_ns (next_deadline s),
          Event.event_signal Prim.update_event] = 1 := by
        simp [tick_signals]
      have ht : sleep_targets [Event.os_sleepto_ns (next_deadline s),
          Event.event_signal Prim.update_event] = [next_deadline s] := rfl
      rw [hr]
      simp only [hs, ht, List.length_singleton]
      unfold deadline_inv
      dsimp only
      refine ⟨⟨hft, hd, fun _ => by omega, fun hp => absurd rfl hp, ?_⟩, ?_⟩
      · have e1 : 2 * (n + 1) - 1 = j + 1 := by omega
        rw [e1, hd, if_neg (by omega)]
      · rw [hd]; rfl
    | second_half =>
      have hj := hodd hpc
      have hq := quiet_trace _ (tick_quiet K scale s.video)
      have hfr := tick_frame_time K scale s.video
      have hi := tick_info K scale s.video
      have hr : pacing_step K s (Act.thread scale) =
          ({ s with
              cur_time := next_deadline s
              video := (video_tick K scale s.video).1
              pc := ThreadPC.loop_test },
            Event.os_sleepto_ns (next_deadline s) :: (video_tick K scale s.video).2) := by
        simp [pacing_step, video_thread_step, hpc]
      have hs : tick_signals (Event.os_sleepto_ns (next_deadline s) ::
          (video_tick K scale s.video).2) = 0 := by
        have := hq.2
        unfold tick_signals at this ⊢
        simp [this]
      have ht : sleep_targets (Event.os_sleepto_ns (next_deadline s) ::
          (video_tick K scale s.video).2) = [next_deadline s] := by
        simp [sleep_targets, hq.1]
      rw [hr]
      simp only [hs, ht, List.length_singleton, Nat.add_zero]
      unfold deadline_inv
      dsimp only
      refine ⟨⟨by rw [hfr, hft], hd, fun hp => absurd hp (by decide), fun _ => hj, ?_⟩, ?_⟩
      · rw [hi.2, hvt]
      · rw [hd]; rfl
    | returned =>
      have hne : s.pc ≠ ThreadPC.second_half := by rw [hpc]; decide
      have hj := heven hne
      have hr : pacing_step K s (Act.thread scale) = (s, []) := by
        simp [pacing_step, video_thread_step, hpc]
      rw [hr]
      exact ⟨⟨hft, htime, hodd, heven, hvt⟩, rfl⟩
  | stop =>
    have hs : tick_signals [Event.event_signal Prim.stop_event] = 0 := by
      simp [tick_signals]
    simp only [pacing_step, hs]
    unfold deadline_inv
    dsimp only
    exact ⟨⟨hft, htime, hodd, heven, hvt⟩, rfl⟩
  | connect env conversion callback param =>
    have hq := quiet_trace _ (connect_quiet K env s.video conversion callback param)
    have hfr := connect_frame_time K env s.video conversion callback param
    have hi := connect_info K env s.video conversion callback param
    simp only [pacing_step, hq.1, hq.2, List.length_nil, Nat.add_zero]
    unfold deadline_inv
    dsimp only
    exact ⟨⟨by rw [hfr, hft], htime, hodd, heven, by rw [hi.2, hvt]⟩, rfl⟩
  | disconnect callback param =>
    have hq := quiet_trace _ (disconnect_quiet s.video callback param)
    have hfr := disconnect_frame_time s.video callback param
    have hi := disconnect_info s.video callback param
    simp only [pacing_step, hq.1, hq.2, List.length_nil, Nat.add_zero]
    unfold deadline_inv
    dsimp only
    exact ⟨⟨by rw [hfr, hft], htime, hodd, heven, by rw [hi.2, hvt]⟩, rfl⟩
  | submit frame =>
    unfold deadline_inv
    exact ⟨⟨hft, htime, hodd, heven, hvt⟩, rfl⟩

theorem pacing_run_deadline (K : Nat) (start ft t0 : Nat) (acts : List Act) :
    ∀ (s : pacing_state) (j n : Nat), deadline_inv start ft t0 s j n →
      deadline_inv start ft t0 (pacing_run K s acts).1
          (j + (sleep_targets (pacing_run K s acts).2).length)
          (n + tick_signals (pacing_run K s acts).2) ∧
        sleep_targets (pacing_run K s acts).2 =
          (List.range (sleep_targets (pacing_run K s acts).2).length).map
            (fun k => (start + (j + k + 1) * (ft / 2)) % 2 ^ 64) := by
  induction acts with
  | nil => intro s j n h; exact ⟨h, rfl⟩
  | cons a as ih =>
    intro s j n h
    have hstep := pacing_step_deadline K start ft t0 s a j n h
    have hrest := ih (pacing_step K s a).1 _ _ hstep.1
    simp only [pacing_run, sleep_targets_append, tick_signals_append, List.length_append]
    rw [← Nat.add_assoc, ← Nat.add_assoc]
    refine ⟨hrest.1, ?_⟩
    rw [List.range_add, List.map_append, List.map_map]
    have hfun : ((fun k => (start + (j + k + 1) * (ft / 2)) % 2 ^ 64) ∘
          fun k => (sleep_targets (pacing_step K s a).2).length + k) =
        fun k => (start + (j + (sleep_targets (pacing_step K s a).2).length + k + 1)
          * (ft / 2)) % 2 ^ 64 := by
      funext k
      simp only [Function.comp, Nat.add_assoc]
    rw [hfun, ← hrest.2, ← hstep.2]

theorem pacing_run_append (K : Nat) (acts1 acts2 : List Act) :
    ∀ s : pacing_state,
      pacing_run K s (acts1 ++ acts2) =
        ((pacing_run K (pacing_run K s acts1).1 acts2).1,
          (pacing_run K s acts1).2 ++ (pacing_run K (pacing_run K s acts1).1 acts2).2) := by
  induction acts1 with
  | nil => intro s; simp [pacing_run]
  | cons a as ih =>
    intro s
    have h := ih (pacing_step K s a).1
    rw [List.cons_append]
    simp only [pacing_run, h, List.append_assoc]

theorem thread_start_inv (video : video_output) (start : Nat) (hstart : start < 2 ^ 64) :
    deadline_inv start video.frame_time video.cur_video_time
      (video_thread_start video start) 0 0 := by
  unfold deadline_inv video_thread_start
  dsimp only
  refine ⟨rfl, ?_, ?_, fun _ => rfl, rfl⟩
  · simp only [Nat.zero_mul, Nat.add_zero]
    exact (Nat.mod_eq_of_lt hstart).symm
  · intro hp
    exact absurd hp (by decide)

theorem pacing_step_sleeps (K : Nat) (s : pacing_state) (a : Act) :
    (sleep_targets (pacing_step K s a).2).length =
      if a.isThread = true ∧ (s.pc = ThreadPC.first_half ∨ s.pc = ThreadPC.second_half)
      then 1 else 0 := by
  cases a with
  | thread scale =>
    cases hpc : s.pc with
    | loop_test =>
      by_cases hst : s.stop_event = true <;>
        simp [pacing_step, video_thread_step, hpc, hst, sleep_targets, Act.isThread]
    | first_half =>
      simp [pacing_step, video_thread_step, hpc, sleep_targets, Act.isThread]
    | second_half =>
      have hq := quiet_trace _ (tick_quiet K scale s.video)
      simp [pacing_step, video_thread_step, hpc, sleep_targets, Act.isThread, hq.1]
    | returned =>
      simp [pacing_step, video_thread_step, hpc, sleep_targets, Act.isThread]
  | stop => simp [pacing_step, sleep_targets, Act.isThread]
  | connect env conversion callback param =>
    have hq := quiet_trace _ (connect_quiet K env s.video conversion callback param)
    simp [pacing_step, Act.isThread, hq.1]
  | disconnect callback param =>
    have hq := quiet_trace _ (disconnect_quiet s.video callback param)
    simp [pacing_step, Act.isThread, hq.1]
  | submit frame => simp [pacing_step, sleep_targets, Act.isThread]

theorem pacing_run_sleeps (K : Nat) (start ft : Nat) (acts : List Act) :
    ∀ (s : pacing_state) (t : Nat),
      (∀ a ∈ acts, a.isStop = false) →
      (t % 3 = 0 → s.pc = ThreadPC.loop_test) →
      (t % 3 = 1 → s.pc = ThreadPC.first_half) →
      (t % 3 = 2 → s.pc = ThreadPC.second_half) →
      s.cur_time = (start + (2 * (t / 3) + (t % 3 - 1)) * (ft / 2)) % 2 ^ 64 →
      s.video.frame_time = ft → s.stop_event = false →
      (sleep_targets (pacing_run K s acts).2).length + (2 * (t / 3) + (t % 3 - 1)) =
        2 * ((t + acts.countP Act.isThread) / 3) +
          ((t + acts.countP Act.isThread) % 3 - 1) := by
  induction acts with
  | nil =>
    intro s t _ _ _ _ _ _ _
    simp [pacing_run, sleep_targets]
  | cons a as ih =>
    intro s t hns h0 h1 h2 htime hft hrun
    have hstep := pacing_step_phase K start ft s a t (hns a (List.mem_cons_self _ _))
      h0 h1 h2 htime hft hrun
    have hrest := ih (pacing_step K s a).1 (t + if a.isThread then 1 else 0)
      (fun b hb => hns b (List.mem_cons_of_mem _ hb))
      hstep.1.1 hstep.1.2.1 hstep.1.2.2 hstep.2.1 hstep.2.2.1 hstep.2.2.2
    have hlen := pacing_step_sleeps K s a
    have hcount : t + (a :: as).countP Act.isThread =
        (t + if a.isThread then 1 else 0) + as.countP Act.isThread := by
      rw [List.countP_cons]
      omega
    rw [hcount, ← hrest]
    simp only [pacing_run, sleep_targets_append, List.length_append, hlen]
    have hmod : t % 3 = 0 ∨ t % 3 = 1 ∨ t % 3 = 2 := by omega
    cases hth : a.isThread
    · simp
    · rcases hmod with hm | hm | hm
      · have hpc := h0 hm
        simp only [hpc, if_true]
        simp
        omega
      · have hpc := h1 hm
        simp only [hpc, if_true]
        simp
        omega
      · have hpc := h2 hm
        simp only [hpc, if_true]
        simp
        omega

theorem range_map_get (f : Nat → Nat) (l : List Nat)
    (hl : l = (List.range l.length).map f) (k a : Nat) (h : l[k]? = some a) :
    k < l.length ∧ a = f k := by
  have hk : k < l.length := by
    by_contra hge
    rw [List.getElem?_eq_none (Nat.le_of_not_lt hge)] at h
    cases h
  refine ⟨hk, ?_⟩
  rw [hl, List.getElem?_map, List.getElem?_range hk] at h
  simpa using h.symm

/-- C22: in every run of `video_thread` started at time `start` (whatever the
other threads do in between, whatever the conversions answer, with or without
a stop signal) the targets of its `os_sleepto_ns` calls are, in call order,
`start + k * (frame_time / 2)` for `k = 1, 2, ...` on `uint64_t`: the first is
`start` plus the half interval, each later one is the one before plus the half
interval, and as long as the sum stays below `2 ^ 64` the `k`-th target is the
number `start + k * (frame_time / 2)` itself.  Nothing the thread reads after
its start enters a target.  Without a stop signal a thread that has made `c`
moves has slept `2 * (c / 3) + (c % 3 - 1)` times, twice per complete cycle. -/
theorem sleep_targets_no_drift (MAX_AV_PLANES : Nat) (video : video_output) (start : Nat)
    (acts : List Act) (hstart : start < 2 ^ 64) :
    sleep_targets (pacing_run MAX_AV_PLANES (video_thread_start video start) acts).2 =
      (List.range (sleep_targets
          (pacing_run MAX_AV_PLANES (video_thread_start video start) acts).2).length).map
        (fun k => (start + (k + 1) * (video.frame_time / 2)) % 2 ^ 64) ∧
    (∀ a : Nat,
      (sleep_targets
        (pacing_run MAX_AV_PLANES (video_thread_start video start) acts).2)[0]? = some a →
      a = (start + video.frame_time / 2) % 2 ^ 64) ∧
    (∀ k a b : Nat,
      (sleep_targets
        (pacing_run MAX_AV_PLANES (video_thread_start video start) acts).2)[k]? = some a →
      (sleep_targets
        (pacing_run MAX_AV_PLANES (video_thread_start video start) acts).2)[k + 1]? = some b →
      b = (a + video.frame_time / 2) % 2 ^ 64) ∧
    (start + (sleep_targets
        (pacing_run MAX_AV_PLANES (video_thread_start video start) acts).2).length
          * (video.frame_time / 2) < 2 ^ 64 →
      sleep_targets (pacing_run MAX_AV_PLANES (video_thread_start video start) acts).2 =
        (List.range (sleep_targets
            (pacing_run MAX_AV_PLANES (video_thread_start video start) acts).2).length).map
          (fun k => start + (k + 1) * (video.frame_time / 2))) ∧
    ((∀ a ∈ acts, a.isStop = false) →
      (sleep_targets
        (pacing_run MAX_AV_PLANES (video_thread_start video start) acts).2).length =
        2 * (acts.countP Act.isThread / 3) + (acts.countP Act.isThread % 3 - 1)) := by
  have hinv := pacing_run_deadline MAX_AV_PLANES start video.frame_time video.cur_video_time
    acts (video_thread_start video start) 0 0 (thread_start_inv video start hstart)
  have htargets := hinv.2
  simp only [Nat.zero_add] at htargets
  refine ⟨htargets, ?_, ?_, ?_, ?_⟩
  · intro a ha
    have := (range_map_get _ _ htargets 0 a ha).2
    simpa using this
  · intro k a b ha hb
    have h1 := (range_map_get _ _ htargets k a ha).2
    have h2 := (range_map_get _ _ htargets (k + 1) b hb).2
    rw [h1, h2]
    exact (deadline_add start (k + 1) (video.frame_time / 2)).symm
  · intro hlt
    conv_lhs => rw [htargets]
    apply List.map_congr_left
    intro k hk
    have hk2 : k + 1 ≤ (sleep_targets
        (pacing_run MAX_AV_PLANES (video_thread_start video start) acts).2).length :=
      List.mem_range.1 hk
    apply Nat.mod_eq_of_lt
    have := Nat.mul_le_mul_right (video.frame_time / 2) hk2
    omega
  · intro hns
    have h := pacing_run_sleeps MAX_AV_PLANES start video.frame_time acts
      (video_thread_start video start) 0 hns (fun _ => rfl) (by omega) (by omega)
      (by
        have hm : start % 2 ^ 64 = start := Nat.mod_eq_of_lt hstart
        simp only [video_thread_start, Nat.zero_div, Nat.zero_mod, Nat.mul_zero,
          Nat.zero_sub, Nat.add_zero, Nat.zero_mul, hm]) rfl rfl
    simpa using h

/-- C22, on the sample stream (frame time 33333333 ns, half interval
16666666 ns): two cycles started at time 1000, with a submit, a connect and a
stop signal in between, sleep until 1000 plus one, two, three and four half
intervals. -/
theorem sleep_targets_no_drift_witness :
    sleep_targets (pacing_run 8 (video_thread_start sample_stream 1000)
        [Act.thread scale_ok, Act.thread scale_ok, Act.submit sample_frame,
          Act.thread scale_ok, Act.connect sample_env (some ⟨1, 320, 240⟩) 10 11,
          Act.thread scale_ok, Act.thread scale_ok, Act.stop, Act.thread scale_ok]).2 =
      [1000 + 1 * 16666666, 1000 + 2 * 16666666, 1000 + 3 * 16666666,
        1000 + 4 * 16666666] :=
  ((sleep_targets_no_drift 8 sample_stream 1000
      [Act.thread scale_ok, Act.thread scale_ok, Act.submit sample_frame,
        Act.thread scale_ok, Act.connect sample_env (some ⟨1, 320, 240⟩) 10 11,
        Act.thread scale_ok, Act.thread scale_ok, Act.stop, Act.thread scale_ok]
      (by decide)).2.2.2.1 (by decide)).trans (by decide)

/-! ## The tick time -/

theorem dispatch_events_append (l1 l2 : List Event) :
    dispatch_events (l1 ++ l2) = dispatch_events l1 ++ dispatch_events l2 := by
  simp [dispatch_events]

theorem dispatch_events_quiet (l : List Event)
    (h : ∀ e ∈ l, e.isCallback = false ∧ e.isScale = false) : dispatch_events l = [] := by
  unfold dispatch_events
  rw [List.filter_eq_nil_iff]
  intro e he
  simp [(h e he).1, (h e he).2]

theorem dispatch_loop_all (K : Nat) (scale : ScaleOracle) (l : List video_input) :
    ∀ cur : video_data, ∀ e ∈ (dispatch_loop K scale l cur).events,
      (e.isCallback || e.isScale) = true := by
  induction l with
  | nil => intro cur e he; simp [dispatch_loop] at he
  | cons x xs ih =>
    intro cur e he
    have hx : ∀ e ∈ (scale_video_output K scale x cur).events,
        (e.isCallback || e.isScale) = true := by
      intro e he
      unfold scale_video_output at he
      split at he
      · simp only [List.mem_singleton] at he
        subst he
        rfl
      · simp at he
    simp only [dispatch_loop, List.mem_append] at he
    rcases he with he | he
    · split at he
      · simp only [List.mem_append, List.mem_singleton] at he
        rcases he with he | rfl
        · exact hx e he
        · rfl
      · exact hx e he
    · exact ih _ e he

theorem tick_all_dispatch (K : Nat) (scale : ScaleOracle) (video : video_output) :
    dispatch_events (video_tick K scale video).2 = (video_tick K scale video).2 := by
  unfold dispatch_events
  rw [List.filter_eq_self]
  intro e he
  unfold video_tick video_output_cur_frame at he
  split at he
  · simp at he
  · exact dispatch_loop_all K scale _ _ e he

theorem other_step (K : Nat) (s : pacing_state) (a : Act) (ha : a.isThread = false) :
    (pacing_step K s a).1.pc = s.pc ∧
      (pacing_step K s a).1.cur_time = s.cur_time ∧
      (s.stop_event = true → (pacing_step K s a).1.stop_event = true) ∧
      dispatch_events (pacing_step K s a).2 = [] ∧
      (∀ s2 : pacing_state, s2.video = s.video →
        (pacing_step K s2 a).1.video = (pacing_step K s a).1.video ∧
        (pacing_step K s2 a).2 = (pacing_step K s a).2) := by
  cases a with
  | thread scale => simp [Act.isThread] at ha
  | stop =>
    refine ⟨rfl, rfl, fun _ => rfl, rfl, ?_⟩
    intro s2 h2
    exact ⟨h2, rfl⟩
  | connect env conversion callback param =>
    refine ⟨rfl, rfl, fun h => h,
      dispatch_events_quiet _ (connect_events K env s.video conversion callback param), ?_⟩
    intro s2 h2
    simp only [pacing_step, h2, and_self]
  | disconnect callback param =>
    refine ⟨rfl, rfl, fun h => h,
      dispatch_events_quiet _ (disconnect_events s.video callback param), ?_⟩
    intro s2 h2
    simp only [pacing_step, h2, and_self]
  | submit frame =>
    refine ⟨rfl, rfl, fun h => h, rfl, ?_⟩
    intro s2 h2
    simp only [pacing_step, h2, and_self]

theorem other_run (K : Nat) (acts : List Act) :
    ∀ s : pacing_state, (∀ a ∈ acts, a.isThread = false) →
      (pacing_run K s acts).1.pc = s.pc ∧
        (pacing_run K s acts).1.cur_time = s.cur_time ∧
        (s.stop_event = true → (pacing_run K s acts).1.stop_event = true) ∧
        dispatch_events (pacing_run K s acts).2 = [] := by
  induction acts with
  | nil => intro s _; exact ⟨rfl, rfl, fun h => h, rfl⟩
  | cons a as ih =>
    intro s h
    have hstep := other_step K s a (h a (List.mem_cons_self _ _))
    have hrest := ih (pacing_step K s a).1 (fun b hb => h b (List.mem_cons_of_mem _ hb))
    simp only [pacing_run, dispatch_events_append]
    refine ⟨by rw [hrest.1, hstep.1], by rw [hrest.2.1, hstep.2.1],
      fun hs => hrest.2.2.1 (hstep.2.2.1 hs), by rw [hstep.2.2.2.1, hrest.2.2.2]; rfl⟩

theorem idle_run (K : Nat) (acts : List Act) :
    ∀ s s2 : pacing_state, s.stop_event = true →
      (s.pc = ThreadPC.loop_test ∨ s.pc = ThreadPC.returned) → s2.video = s.video →
      (pacing_run K s acts).2 = (pacing_run K s2 (without_thread acts)).2 ∧
        (pacing_run K s acts).1.video = (pacing_run K s2 (without_thread acts)).1.video := by
  induction acts with
  | nil => intro s s2 _ _ h2; exact ⟨rfl, h2.symm⟩
  | cons a as ih =>
    intro s s2 hstop hpc h2
    cases hth : a.isThread
    · have hstep := other_step K s a hth
      have hsame := hstep.2.2.2.2 s2 h2
      have hrest := ih (pacing_step K s a).1 (pacing_step K s2 a).1 (hstep.2.2.1 hstop)
        (by rw [hstep.1]; exact hpc) hsame.1
      have hf : without_thread (a :: as) = a :: without_thread as := by
        simp [without_thread, hth]
      rw [hf]
      simp only [pacing_run]
      exact ⟨by rw [hrest.1, hsame.2], hrest.2⟩
    · have hf : without_thread (a :: as) = without_thread as := by
        simp [without_thread, hth]
      rw [hf]
      cases a with
      | thread scale =>
        have hstep : (pacing_step K s (Act.thread scale)).2 = [] ∧
            (pacing_step K s (Act.thread scale)).1.video = s.video ∧
            (pacing_step K s (Act.thread scale)).1.stop_event = true ∧
            ((pacing_step K s (Act.thread scale)).1.pc = ThreadPC.loop_test ∨
              (pacing_step K s (Act.thread scale)).1.pc = ThreadPC.returned) := by
          rcases hpc with hp | hp <;>
            simp [pacing_step, video_thread_step, hp, hstop]
        have hrest := ih (pacing_step K s (Act.thread scale)).1 s2 hstep.2.2.1 hstep.2.2.2
          (by rw [hstep.2.1]; exact h2)
        simp only [pacing_run]
        exact ⟨by rw [hstep.1, hrest.1]; rfl, hrest.2⟩
      | stop => simp [Act.isThread] at hth
      | connect env conversion callback param => simp [Act.isThread] at hth
      | disconnect callback param => simp [Act.isThread] at hth
      | submit frame => simp [Act.isThread] at hth

theorem stopped_second_half (K : Nat) (s : pacing_state) (hstop : s.stop_event = true)
    (hpc : s.pc = ThreadPC.second_half) (pre : List Act) (scale : ScaleOracle)
    (post : List Act) (hpre : ∀ a ∈ pre, a.isThread = false) :
    dispatch_events (pacing_run K s pre).2 = [] ∧
    (pacing_run K s (pre ++ [Act.thread scale])).1 =
      { video := (video_tick K scale (pacing_run K s pre).1.video).1
        stop_event := true
        pc := ThreadPC.loop_test
        cur_time := next_deadline (pacing_run K s pre).1 } ∧
    (pacing_run K s (pre ++ [Act.thread scale])).2 =
      (pacing_run K s pre).2 ++
        Event.os_sleepto_ns (next_deadline (pacing_run K s pre).1) ::
          (video_tick K scale (pacing_run K s pre).1.video).2 ∧
    (pacing_run K s (pre ++ Act.thread scale :: post)).2 =
      (pacing_run K s (pre ++ [Act.thread scale])).2 ++
        (pacing_run K (pacing_run K s (pre ++ [Act.thread scale])).1
          (without_thread post)).2 ∧
    (pacing_run K s (pre ++ Act.thread scale :: post)).1.video =
      (pacing_run K (pacing_run K s (pre ++ [Act.thread scale])).1
        (without_thread post)).1.video ∧
    dispatch_events (pacing_run K s (pre ++ Act.thread scale :: post)).2 =
      (video_tick K scale (pacing_run K s pre).1.video).2 := by
  obtain ⟨hp1, _, hp3, hp4⟩ := other_run K pre s hpre
  have hsp : (pacing_run K s pre).1.pc = ThreadPC.second_half := by rw [hp1, hpc]
  have hss : (pacing_run K s pre).1.stop_event = true := hp3 hstop
  have hstep : pacing_run K (pacing_run K s pre).1 [Act.thread scale] =
      ({ video := (video_tick K scale (pacing_run K s pre).1.video).1
         stop_event := true
         pc := ThreadPC.loop_test
         cur_time := next_deadline (pacing_run K s pre).1 },
        Event.os_sleepto_ns (next_deadline (pacing_run K s pre).1) ::
          (video_tick K scale (pacing_run K s pre).1.video).2) := by
    simp [pacing_run, pacing_step, video_thread_step, hsp, hss]
  have hone : pacing_run K s (pre ++ [Act.thread scale]) =
      ({ video := (video_tick K scale (pacing_run K s pre).1.video).1
         stop_event := true
         pc := ThreadPC.loop_test
         cur_time := next_deadline (pacing_run K s pre).1 },
        (pacing_run K s pre).2 ++
          Event.os_sleepto_ns (next_deadline (pacing_run K s pre).1) ::
            (video_tick K scale (pacing_run K s pre).1.video).2) := by
    rw [pacing_run_append, hstep]
  have hsplit : pre ++ Act.thread scale :: post = (pre ++ [Act.thread scale]) ++ post := by
    simp
  have hidle := idle_run K post (pacing_run K s (pre ++ [Act.thread scale])).1
    (pacing_run K s (pre ++ [Act.thread scale])).1 (by rw [hone]) (by rw [hone]; exact Or.inl rfl)
    rfl
  have hquiet := pacing_run_quiet K post (pacing_run K s (pre ++ [Act.thread scale])).1
    (by rw [hone]) (by rw [hone]; simp [steps_to_return])
  have hall : (pacing_run K s (pre ++ Act.thread scale :: post)).2 =
      (pacing_run K s (pre ++ [Act.thread scale])).2 ++
        (pacing_run K (pacing_run K s (pre ++ [Act.thread scale])).1
          (without_thread post)).2 := by
    rw [hsplit, pacing_run_append, ← hidle.1]
  refine ⟨hp4, by rw [hone], by rw [hone], hall, ?_, ?_⟩
  · rw [hsplit, pacing_run_append]
    exact hidle.2
  · rw [hall, ← hidle.1, dispatch_events_append, dispatch_events_quiet _ hquiet, hone]
    simp only [dispatch_events_append, hp4, List.nil_append, List.append_nil]
    have hcons : dispatch_events (Event.os_sleepto_ns (next_deadline (pacing_run K s pre).1) ::
        (video_tick K scale (pacing_run K s pre).1.video).2) =
        dispatch_events (video_tick K scale (pacing_run K s pre).1.video).2 := by
      simp [dispatch_events, Event.isCallback, Event.isScale]
    rw [hcons, tick_all_dispatch]

theorem stopped_first_half (K : Nat) (s : pacing_state) (hstop : s.stop_event = true)
    (hpc : s.pc = ThreadPC.first_half) (pre : List Act) (scale : ScaleOracle)
    (hpre : ∀ a ∈ pre, a.isThread = false) :
    dispatch_events (pacing_run K s pre).2 = [] ∧
    (pacing_run K s (pre ++ [Act.thread scale])).1 =
      { video := { (pacing_run K s pre).1.video with
          cur_video_time := next_deadline (pacing_run K s pre).1 }
        stop_event := true
        pc := ThreadPC.second_half
        cur_time := next_deadline (pacing_run K s pre).1 } ∧
    (pacing_run K s (pre ++ [Act.thread scale])).2 =
      (pacing_run K s pre).2 ++
        [Event.os_sleepto_ns (next_deadline (pacing_run K s pre).1),
          Event.event_signal Prim.update_event] := by
  obtain ⟨hp1, _, hp3, hp4⟩ := other_run K pre s hpre
  have hsp : (pacing_run K s pre).1.pc = ThreadPC.first_half := by rw [hp1, hpc]
  have hss : (pacing_run K s pre).1.stop_event = true := hp3 hstop
  have hstep : pacing_run K (pacing_run K s pre).1 [Act.thread scale] =
      ({ video := { (pacing_run K s pre).1.video with
           cur_video_time := next_deadline (pacing_run K s pre).1 }
         stop_event := true
         pc := ThreadPC.second_half
         cur_time := next_deadline (pacing_run K s pre).1 },
        [Event.os_sleepto_ns (next_deadline (pacing_run K s pre).1),
          Event.event_signal Prim.update_event]) := by
    simp [pacing_run, pacing_step, video_thread_step, hsp, hss]
  have hone := pacing_run_append K pre [Act.thread scale] s
  rw [hstep] at hone
  exact ⟨hp4, by rw [hone], by rw [hone]⟩

/-- C17 (as amended): the stop event is tested once per cycle, at the loop
test of `video_thread`.  In every sequence of moves that starts with the stop
event signalled: if the thread is at the loop test (or has returned), the call
trace and the stream are exactly what the moves of the other threads alone
produce, and no conversion or callback is made; if the thread stands between
the two half-frame sleeps, nothing is dispatched before its next move, that
move sleeps and runs `video_swapframes` and `video_output_cur_frame` on the
stream as it is then, and after it the trace and the stream are again what the
other threads alone produce, so the conversions and callbacks of the whole run
are those of that one dispatch; if the thread stands before the first sleep,
its next move sleeps, signals the tick and writes the tick time only, and the
move after that is the one dispatch of the run; and after three moves of the
thread at the latest it has returned. -/
theorem stop_checked_at_loop_test (MAX_AV_PLANES : Nat) (s : pacing_state)
    (hstop : s.stop_event = true) :
    ((s.pc = ThreadPC.loop_test ∨ s.pc = ThreadPC.returned) → ∀ acts : List Act,
      (pacing_run MAX_AV_PLANES s acts).2 =
        (pacing_run MAX_AV_PLANES s (without_thread acts)).2 ∧
      (pacing_run MAX_AV_PLANES s acts).1.video =
        (pacing_run MAX_AV_PLANES s (without_thread acts)).1.video ∧
      dispatch_events (pacing_run MAX_AV_PLANES s acts).2 = []) ∧
    (s.pc = ThreadPC.second_half →
      ∀ (pre : List Act) (scale : ScaleOracle) (post : List Act),
      (∀ a ∈ pre, a.isThread = false) →
      dispatch_events (pacing_run MAX_AV_PLANES s pre).2 = [] ∧
      (pacing_run MAX_AV_PLANES s (pre ++ [Act.thread scale])).1 =
        { video := (video_tick MAX_AV_PLANES scale (pacing_run MAX_AV_PLANES s pre).1.video).1
          stop_event := true
          pc := ThreadPC.loop_test
          cur_time := next_deadline (pacing_run MAX_AV_PLANES s pre).1 } ∧
      (pacing_run MAX_AV_PLANES s (pre ++ [Act.thread scale])).2 =
        (pacing_run MAX_AV_PLANES s pre).2 ++
          Event.os_sleepto_ns (next_deadline (pacing_run MAX_AV_PLANES s pre).1) ::
            (video_tick MAX_AV_PLANES scale (pacing_run MAX_AV_PLANES s pre).1.video).2 ∧
      (pacing_run MAX_AV_PLANES s (pre ++ Act.thread scale :: post)).2 =
        (pacing_run MAX_AV_PLANES s (pre ++ [Act.thread scale])).2 ++
          (pacing_run MAX_AV_PLANES
            (pacing_run MAX_AV_PLANES s (pre ++ [Act.thread scale])).1
            (without_thread post)).2 ∧
      (pacing_run MAX_AV_PLANES s (pre ++ Act.thread scale :: post)).1.video =
        (pacing_run MAX_AV_PLANES
          (pacing_run MAX_AV_PLANES s (pre ++ [Act.thread scale])).1
          (without_thread post)).1.video ∧
      dispatch_events (pacing_run MAX_AV_PLANES s (pre ++ Act.thread scale :: post)).2 =
        (video_tick MAX_AV_PLANES scale (pacing_run MAX_AV_PLANES s pre).1.video).2) ∧
    (s.pc = ThreadPC.first_half →
      ∀ (pre : List Act) (scale1 : ScaleOracle) (mid : List Act) (scale2 : ScaleOracle)
        (post : List Act),
      (∀ a ∈ pre, a.isThread = false) → (∀ a ∈ mid, a.isThread = false) →
      (pacing_run MAX_AV_PLANES s (pre ++ [Act.thread scale1])).1 =
        { video := { (pacing_run MAX_AV_PLANES s pre).1.video with
            cur_video_time := next_deadline (pacing_run MAX_AV_PLANES s pre).1 }
          stop_event := true
          pc := ThreadPC.second_half
          cur_time := next_deadline (pacing_run MAX_AV_PLANES s pre).1 } ∧
      (pacing_run MAX_AV_PLANES s (pre ++ [Act.thread scale1])).2 =
        (pacing_run MAX_AV_PLANES s pre).2 ++
          [Event.os_sleepto_ns (next_deadline (pacing_run MAX_AV_PLANES s pre).1),
            Event.event_signal Prim.update_event] ∧
      dispatch_events (pacing_run MAX_AV_PLANES s (pre ++ Act.thread scale1 :: mid)).2 = [] ∧
      (pacing_run MAX_AV_PLANES s
          (pre ++ Act.thread scale1 :: (mid ++ [Act.thread scale2]))).1.video =
        (video_tick MAX_AV_PLANES scale2
          (pacing_run MAX_AV_PLANES s (pre ++ Act.thread scale1 :: mid)).1.video).1 ∧
      (pacing_run MAX_AV_PLANES s
          (pre ++ Act.thread scale1 :: (mid ++ Act.thread scale2 :: post))).1.video =
        (pacing_run MAX_AV_PLANES
          (pacing_run MAX_AV_PLANES s
            (pre ++ Act.thread scale1 :: (mid ++ [Act.thread scale2]))).1
          (without_thread post)).1.video ∧
      dispatch_events (pacing_run MAX_AV_PLANES s
          (pre ++ Act.thread scale1 :: (mid ++ Act.thread scale2 :: post))).2 =
        (video_tick MAX_AV_PLANES scale2
          (pacing_run MAX_AV_PLANES s (pre ++ Act.thread scale1 :: mid)).1.video).2) ∧
    (∀ acts : List Act, 3 ≤ acts.countP Act.isThread →
      (pacing_run MAX_AV_PLANES s acts).1.pc = ThreadPC.returned) := by
  refine ⟨?_, ?_, ?_, ?_⟩
  · intro hpc acts
    have hidle := idle_run MAX_AV_PLANES acts s s hstop hpc rfl
    have hrank : steps_to_return s.pc ≤ 1 := by
      rcases hpc with h | h <;> simp [h, steps_to_return]
    exact ⟨hidle.1, hidle.2,
      dispatch_events_quiet _ (pacing_run_quiet MAX_AV_PLANES acts s hstop hrank)⟩
  · intro hpc pre scale post hpre
    exact stopped_second_half MAX_AV_PLANES s hstop hpc pre scale post hpre
  · intro hpc pre scale1 mid scale2 post hpre hmid
    obtain ⟨hq, hst, htr⟩ := stopped_first_half MAX_AV_PLANES s hstop hpc pre scale1 hpre
    have hafter : ∀ rest : List Act,
        pacing_run MAX_AV_PLANES s (pre ++ Act.thread scale1 :: rest) =
          ((pacing_run MAX_AV_PLANES
              (pacing_run MAX_AV_PLANES s (pre ++ [Act.thread scale1])).1 rest).1,
            (pacing_run MAX_AV_PLANES s (pre ++ [Act.thread scale1])).2 ++
              (pacing_run MAX_AV_PLANES
                (pacing_run MAX_AV_PLANES s (pre ++ [Act.thread scale1])).1 rest).2) := by
      intro rest
      have hsplit : pre ++ Act.thread scale1 :: rest = (pre ++ [Act.thread scale1]) ++ rest := by
        simp
      rw [hsplit, pacing_run_append]
    have h2 := stopped_second_half MAX_AV_PLANES
      (pacing_run MAX_AV_PLANES s (pre ++ [Act.thread scale1])).1 (by rw [hst]) (by rw [hst])
      mid scale2 post hmid
    have hfirst : dispatch_events (pacing_run MAX_AV_PLANES s (pre ++ [Act.thread scale1])).2
        = [] := by
      rw [htr, dispatch_events_append, hq]
      rfl
    refine ⟨hst, htr, ?_, ?_, ?_, ?_⟩
    · rw [hafter mid]
      simp only [dispatch_events_append, hfirst, h2.1, List.append_nil]
    · rw [hafter (mid ++ [Act.thread scale2]), hafter mid]
      simp only [h2.2.1]
    · rw [hafter (mid ++ Act.thread scale2 :: post), hafter (mid ++ [Act.thread scale2])]
      exact h2.2.2.2.2.1
    · rw [hafter (mid ++ Act.thread scale2 :: post), hafter mid]
      simp only [dispatch_events_append, hfirst, List.nil_append]
      exact h2.2.2.2.2.2
  · intro acts h3
    have hr := pacing_run_returns MAX_AV_PLANES acts s hstop
    have hle : steps_to_return s.pc ≤ 3 := by
      cases s.pc <;> simp [steps_to_return]
    have h0 : steps_to_return (pacing_run MAX_AV_PLANES s acts).1.pc = 0 := by omega
    revert h0
    cases (pacing_run MAX_AV_PLANES s acts).1.pc <;> simp [steps_to_return]

/-- C17 (as amended), at concrete inputs on `sample_staged`: with the stop
event signalled at the loop test nothing is dispatched and the thread returns;
signalled between the two half-frame sleeps, a run with a submit before and
two more moves of the thread after the locked section calls each of the three
consumers back once, in table order; signalled before the first sleep, a run
in which the second move of the thread dispatches with the half-size converter
failing calls the two other consumers back once each. -/
theorem stop_checked_at_loop_test_witness :
    (dispatch_events
        (pacing_run 8 { video_thread_start sample_staged 0 with stop_event := true }
          [Act.thread scale_ok, Act.submit sample_frame, Act.thread scale_ok,
            Act.thread scale_ok]).2 = [] ∧
      (pacing_run 8 { video_thread_start sample_staged 0 with stop_event := true }
        [Act.thread scale_ok, Act.submit sample_frame, Act.thread scale_ok,
          Act.thread scale_ok]).1.pc = ThreadPC.returned) ∧
    callback_order (dispatch_events
        (pacing_run 8 sample_stopped_mid_cycle
          ([Act.submit sample_frame] ++
            Act.thread scale_ok :: [Act.thread scale_ok, Act.thread scale_ok])).2) =
      [(20, 21), (10, 11), (30, 31)] ∧
    callback_order (dispatch_events
        (pacing_run 8
          { video_thread_start sample_staged 0 with
            stop_event := true, pc := ThreadPC.first_half }
          ([] ++ Act.thread scale_ok ::
            ([Act.submit sample_frame] ++
              Act.thread scale_fail_320 :: [Act.thread scale_ok, Act.thread scale_ok]))).2) =
      [(20, 21), (30, 31)] :=
  ⟨⟨((stop_checked_at_loop_test 8 { video_thread_start sample_staged 0 with stop_event := true }
        rfl).1 (Or.inl rfl)
        [Act.thread scale_ok, Act.submit sample_frame, Act.thread scale_ok,
          Act.thread scale_ok]).2.2,
      (stop_checked_at_loop_test 8 { video_thread_start sample_staged 0 with stop_event := true }
        rfl).2.2.2
        [Act.thread scale_ok, Act.submit sample_frame, Act.thread scale_ok,
          Act.thread scale_ok] (by decide)⟩,
    (congrArg callback_order
      ((stop_checked_at_loop_test 8 sample_stopped_mid_cycle rfl).2.1 rfl
        [Act.submit sample_frame] scale_ok [Act.thread scale_ok, Act.thread scale_ok]
        (by decide)).2.2.2.2.2).trans (by decide),
    (congrArg callback_order
      ((stop_checked_at_loop_test 8
        { video_thread_start sample_staged 0 with
          stop_event := true, pc := ThreadPC.first_half }
        rfl).2.2.1 rfl [] scale_ok [Act.submit sample_frame] scale_fail_320
        [Act.thread scale_ok, Act.thread scale_ok] (by decide) (by decide)).2.2.2.2.2).trans
      (by decide)⟩

end VideoIO
